import Mathlib

/-!
# Low memory killer: victim selection on memory pressure

A shallow embedding of `drivers/staging/android/lowmemorykiller.c`.

The build described by `include/generated/autoconf.h` is a 32-bit ARM kernel
(`CONFIG_ARM`), built with `CONFIG_ZRAM_FOR_ANDROID` and with
`ENHANCED_LMK_ROUTINE` left undefined, so `lowmem_shrink` below is the function
as compiled.  The `#ifdef ENHANCED_LMK_ROUTINE` branches of the same file are
embedded separately as `lowmem_shrink_enhanced`.

Conventions
* `int` values are `Int`, `unsigned long` / `size_t` / `unsigned int` values are
  `Nat`; every conversion the C code performs is written out (`to_int`,
  `to_ulong`).
* What the kernel supplies from headers that are not part of the sources at hand
  (`OOM_ADJUST_MAX`, `HZ`, `time_before_eq`) is a parameter, the record `Kernel`.
* Counters, the clock and the process list are inputs; `force_sig`, `printk`
  and the processes visited are outputs.
* The exit notification is `task_notify_func` (and `task_notify_func_enhanced`); the
  soft reclaim of `CONFIG_ZRAM_FOR_ANDROID` is `could_cswap`, `do_compcache` (one pass
  of its loop) and `rtcc_trigger_store`, with `time_before`, `rtcc_reclaim_pages`,
  `kthread_should_stop` and `sscanf` as parameters.
-/

namespace LowMemoryKiller

/-! ## Machine integers -/

/-- Conversion of a value to a 32-bit `int` (two's complement). -/
def to_int (x : Int) : Int := (x + 2147483648) % 4294967296 - 2147483648

/-- Conversion of a value to a 32-bit `unsigned long` / `size_t`. -/
def to_ulong (x : Int) : Nat := (x % 4294967296).toNat

/-- The C comparison `a < b` of an `int` with a `size_t`: by the usual arithmetic
conversions the `int` is converted to `size_t` first. -/
def int_lt_size_t (a : Int) (b : Nat) : Bool := decide (to_ulong a < b)

/-! ## Data model -/

/-- What the kernel headers supply. -/
structure Kernel where
  /-- The constant `OOM_ADJUST_MAX` of `linux/oom.h`. -/
  OOM_ADJUST_MAX : Int
  /-- The constant `HZ`, jiffies per second. -/
  HZ : Nat
  /-- The comparison `time_before_eq(a, b)` of `linux/jiffies.h`. -/
  time_before_eq : Nat → Nat → Bool

/-- One entry of the process list, as far as `lowmem_shrink` reads it.
`task` is the address of the `task_struct`, `mm` is `none` for a null `p->mm` and
otherwise holds `get_mm_rss(mm)`, `signal` is `none` for a null `p->signal` and
otherwise holds `sig->oom_adj`. -/
structure task_struct where
  task : Nat
  pid : Int
  comm : String
  mm : Option Nat
  signal : Option Int
deriving DecidableEq

/-- The values `global_page_state` returns for the items read, and
`total_swapcache_pages`. -/
structure vm_stat where
  NR_FREE_PAGES : Nat
  NR_FILE_PAGES : Nat
  NR_SHMEM : Nat
  NR_ACTIVE_ANON : Nat
  NR_ACTIVE_FILE : Nat
  NR_INACTIVE_ANON : Nat
  NR_INACTIVE_FILE : Nat
  total_swapcache_pages : Nat
deriving DecidableEq

/-- The module parameters.  `lowmem_adj` and `lowmem_minfree` are arrays of six
entries; an entry the list does not reach is zero, as in the C initialiser. -/
structure Params where
  lowmem_debug_level : Nat
  lowmem_adj : List Int
  lowmem_adj_size : Int
  lowmem_minfree : List Nat
  lowmem_minfree_size : Int
  timeout : Nat
deriving DecidableEq

/-- The flags of `struct soft_reclaim` (`atomic_t` fields). -/
structure soft_reclaim where
  kcompcached_running : Int
  need_to_reclaim : Int
  lmk_running : Int
deriving DecidableEq

/-- The static variables of the file, basic mode.  `lowmem_deathpending` holds the
address of the task whose death is pending, `none` for `NULL`. -/
structure State where
  lowmem_deathpending : Option Nat
  lowmem_deathpending_timeout : Nat
  s_reclaim : soft_reclaim
  prev_jiffy : Nat
deriving DecidableEq

/-- The arguments of one call: `sc->nr_to_scan`, `sc->gfp_mask`, and what the call
reads from the kernel (`jiffies`, the page counters, the process list). -/
structure Call where
  nr_to_scan : Nat
  gfp_mask : Nat
  jiffies : Nat
  vm : vm_stat
  tasks : List task_struct
deriving DecidableEq

/-- The five `lowmem_print` messages, with their arguments. -/
inductive LogMsg where
  /-- Level 3: "lowmem_shrink %lu, %x, ofree %d %d, ma %d". -/
  | shrink (nr_to_scan gfp_mask : Nat) (other_free other_file min_adj : Int)
  /-- Level 5: "lowmem_shrink %lu, %x, return %d" on the early return. -/
  | early (nr_to_scan gfp_mask : Nat) (rem : Int)
  /-- Level 2: "select %d (%s), adj %d, size %d, to kill". -/
  | select (pid : Int) (comm : String) (oom_adj tasksize : Int)
  /-- Level 1: "send sigkill to %d (%s), adj %d, size %d". -/
  | sigkill (pid : Int) (comm : String) (oom_adj tasksize : Int)
  /-- Level 4: "lowmem_shrink %lu, %x, return %d" after the scan. -/
  | done (nr_to_scan gfp_mask : Nat) (rem : Int)
deriving DecidableEq

/-- What one call of `lowmem_shrink` does: the value returned, the static
variables afterwards, the tasks `SIGKILL` was forced on (in order), the tasks the
`for_each_process` loop visited, the values written to `s_reclaim.lmk_running`
(in order) and the messages printed. -/
structure Result where
  ret : Int
  state : State
  force_sig : List Nat
  visited : List Nat
  lmk_running_writes : List Int
  printk : List LogMsg
deriving DecidableEq

/-! ## The compiled-in configuration -/

/-- The initial values of the module parameters (lines 82-103); `timeout` starts
as `HZ`. -/
def default_params (K : Kernel) : Params :=
  { lowmem_debug_level := 2
    lowmem_adj := [0, 1, 6, 12]
    lowmem_adj_size := 4
    lowmem_minfree := [3 * 512, 2 * 1024, 4 * 1024, 16 * 1024]
    lowmem_minfree_size := 4
    timeout := K.HZ }

/-! ## lowmem_shrink, basic mode -/

/-- The macro `lowmem_print(level, x...)`: print when `lowmem_debug_level >= level`. -/
def lowmem_print (P : Params) (level : Nat) (msg : LogMsg) (log : List LogMsg) :
    List LogMsg :=
  if P.lowmem_debug_level ≥ level then log ++ [msg] else log

/-- Line 160: `int other_free = global_page_state(NR_FREE_PAGES)`. -/
def other_free (vm : vm_stat) : Int := to_int vm.NR_FREE_PAGES

/-- Lines 161-166: `int other_file = global_page_state(NR_FILE_PAGES) -
global_page_state(NR_SHMEM)`, then `other_file -= total_swapcache_pages`. -/
def other_file (vm : vm_stat) : Int :=
  to_int (to_int ((vm.NR_FILE_PAGES : Int) - vm.NR_SHMEM) - vm.total_swapcache_pages)

/-- Lines 159, 187-190: `array_size` after the two clamping assignments. -/
def array_size (P : Params) : Int :=
  let array_size : Int := 6
  let array_size := if P.lowmem_adj_size < array_size then P.lowmem_adj_size else array_size
  if P.lowmem_minfree_size < array_size then P.lowmem_minfree_size else array_size

/-- The test of line 192-193 at index `i`. -/
def below_minfree (P : Params) (other_free other_file : Int) (i : Nat) : Bool :=
  int_lt_size_t other_free (P.lowmem_minfree.getD i 0) &&
    int_lt_size_t other_file (P.lowmem_minfree.getD i 0)

/-- The loop of lines 191-197 from index `i` with `n` iterations left: the index
at which it breaks, if it does. -/
def first_below (P : Params) (other_free other_file : Int) : Nat → Nat → Option Nat
  | 0, _ => none
  | n + 1, i =>
    if below_minfree P other_free other_file i then some i
    else first_below P other_free other_file n (i + 1)

/-- Lines 149, 187-197: the value of `min_adj` after the classification loop. -/
def lowmem_min_adj (K : Kernel) (P : Params) (other_free other_file : Int) : Int :=
  match first_below P other_free other_file (array_size P).toNat 0 with
  | some i => P.lowmem_adj.getD i 0
  | none => K.OOM_ADJUST_MAX + 1

/-- Lines 202-205: `rem`, the sum of the four LRU counters as an `int`. -/
def lowmem_rem (vm : vm_stat) : Int :=
  to_int ((vm.NR_ACTIVE_ANON : Int) + vm.NR_ACTIVE_FILE + vm.NR_INACTIVE_ANON +
    vm.NR_INACTIVE_FILE)

/-- Lines 182-184: the test for a death still outstanding. -/
def death_outstanding (K : Kernel) (st : State) (jiffies : Nat) : Bool :=
  st.lowmem_deathpending.isSome && K.time_before_eq jiffies st.lowmem_deathpending_timeout

/-- The local variables the process loop updates, with the messages printed. -/
structure Selection where
  selected : Option task_struct
  selected_tasksize : Int
  selected_oom_adj : Int
  log : List LogMsg
deriving DecidableEq

/-- Lines 224-245: whether the loop body gets past its three `continue`s for `p`,
and then with which `oom_adj` and `tasksize`. -/
def candidate (min_adj : Int) (p : task_struct) : Option (Int × Int) :=
  match p.mm, p.signal with
  | some rss, some oom_adj =>
    if oom_adj < min_adj then none
    else
      let tasksize := to_int rss
      if tasksize ≤ 0 then none else some (oom_adj, tasksize)
  | _, _ => none

/-- Lines 223-297, basic mode: one iteration of `for_each_process`. -/
def scan_body (P : Params) (min_adj : Int) (s : Selection) (p : task_struct) : Selection :=
  match candidate min_adj p with
  | none => s
  | some (oom_adj, tasksize) =>
    if s.selected.isSome ∧ oom_adj < s.selected_oom_adj then s
    else if s.selected.isSome ∧ oom_adj = s.selected_oom_adj ∧
        tasksize ≤ s.selected_tasksize then s
    else
      { selected := some p
        selected_tasksize := tasksize
        selected_oom_adj := oom_adj
        log := lowmem_print P 2 (.select p.pid p.comm oom_adj tasksize) s.log }

/-- Lines 216-297, basic mode: the whole process loop. -/
def scan (P : Params) (min_adj : Int) (log : List LogMsg) (tasks : List task_struct) :
    Selection :=
  tasks.foldl (scan_body P min_adj)
    { selected := none, selected_tasksize := 0, selected_oom_adj := min_adj, log := log }

/-- The function `lowmem_shrink` (lines 138-330) as compiled: basic mode with
`CONFIG_ZRAM_FOR_ANDROID`. -/
def lowmem_shrink (K : Kernel) (P : Params) (st : State) (c : Call) : Result :=
  let other_free := other_free c.vm
  let other_file := other_file c.vm
  if death_outstanding K st c.jiffies then
    { ret := 0, state := st, force_sig := [], visited := [], lmk_running_writes := [],
      printk := [] }
  else
    let min_adj := lowmem_min_adj K P other_free other_file
    let log : List LogMsg :=
      if c.nr_to_scan > 0 then
        lowmem_print P 3 (.shrink c.nr_to_scan c.gfp_mask other_free other_file min_adj) []
      else []
    let rem := lowmem_rem c.vm
    if c.nr_to_scan ≤ 0 ∨ min_adj = K.OOM_ADJUST_MAX + 1 then
      { ret := rem, state := st, force_sig := [], visited := [], lmk_running_writes := [],
        printk := lowmem_print P 5 (.early c.nr_to_scan c.gfp_mask rem) log }
    else
      let s := scan P min_adj log c.tasks
      match s.selected with
      | some p =>
        let log := lowmem_print P 1
          (.sigkill p.pid p.comm s.selected_oom_adj s.selected_tasksize) s.log
        let rem := to_int (rem - s.selected_tasksize)
        { ret := rem
          state :=
            { st with
              lowmem_deathpending := some p.task
              lowmem_deathpending_timeout := to_ulong ((c.jiffies : Int) + P.timeout)
              s_reclaim := { st.s_reclaim with lmk_running := 0 } }
          force_sig := [p.task]
          visited := c.tasks.map (·.task)
          lmk_running_writes := [1, 0]
          printk := lowmem_print P 4 (.done c.nr_to_scan c.gfp_mask rem) log }
      | none =>
        { ret := rem
          state := { st with s_reclaim := { st.s_reclaim with lmk_running := 0 } }
          force_sig := []
          visited := c.tasks.map (·.task)
          lmk_running_writes := [1, 0]
          printk := lowmem_print P 4 (.done c.nr_to_scan c.gfp_mask rem) s.log }

/-! ## lowmem_shrink with ENHANCED_LMK_ROUTINE defined -/

/-- The constant `LOWMEM_DEATHPENDING_DEPTH` (line 79). -/
def LOWMEM_DEATHPENDING_DEPTH : Nat := 3

/-- The static variables when `ENHANCED_LMK_ROUTINE` is defined:
`lowmem_deathpending` is an array of `LOWMEM_DEATHPENDING_DEPTH` task addresses. -/
structure EState where
  lowmem_deathpending : List (Option Nat)
  lowmem_deathpending_timeout : Nat
  s_reclaim : soft_reclaim
  prev_jiffy : Nat
deriving DecidableEq

/-- The initial static variables of the enhanced build: `{NULL,}` and zeroes. -/
def EState.init : EState :=
  { lowmem_deathpending := [none, none, none]
    lowmem_deathpending_timeout := 0
    s_reclaim := { kcompcached_running := 0, need_to_reclaim := 0, lmk_running := 0 }
    prev_jiffy := 0 }

/-- What one call of the enhanced `lowmem_shrink` does. -/
structure EResult where
  ret : Int
  state : EState
  force_sig : List Nat
  visited : List Nat
  lmk_running_writes : List Int
  printk : List LogMsg
deriving DecidableEq

/-- Lines 176-180: the test for a death still outstanding, over all slots. -/
def death_outstanding_enhanced (K : Kernel) (st : EState) (jiffies : Nat) : Bool :=
  (List.range LOWMEM_DEATHPENDING_DEPTH).any fun i =>
    (st.lowmem_deathpending.getD i none).isSome &&
      K.time_before_eq jiffies st.lowmem_deathpending_timeout

/-- The local arrays and counters the enhanced process loop updates. -/
structure ESelection where
  selected : List (Option task_struct)
  selected_tasksize : List Int
  selected_oom_adj : List Int
  all_selected_oom : Int
  max_selected_oom_idx : Nat
  log : List LogMsg
deriving DecidableEq

/-- One iteration of the loop of lines 271-277, which moves `max_selected_oom_idx`
to a slot holding less. -/
def weakest_step (adj size : List Int) (idx i : Nat) : Nat :=
  if adj.getD i 0 < adj.getD idx 0 then i
  else if adj.getD i 0 = adj.getD idx 0 ∧ size.getD i 0 < size.getD idx 0 then i
  else idx

/-- Lines 271-277: the loop over all slots. -/
def weakest (adj size : List Int) (idx : Nat) : Nat :=
  (List.range LOWMEM_DEATHPENDING_DEPTH).foldl (weakest_step adj size) idx

/-- Lines 248-260: the values of `is_exist_oom_task` and `max_selected_oom_idx`
after the search for an empty slot, or else the comparison with the slot
`max_selected_oom_idx` points at. -/
def find_slot (s : ESelection) (oom_adj tasksize : Int) : Bool × Nat :=
  if s.all_selected_oom < LOWMEM_DEATHPENDING_DEPTH then
    match (List.range LOWMEM_DEATHPENDING_DEPTH).find?
        (fun i => (s.selected.getD i none).isNone) with
    | some i => (true, i)
    | none => (false, s.max_selected_oom_idx)
  else if s.selected_oom_adj.getD s.max_selected_oom_idx 0 < oom_adj ∨
      (s.selected_oom_adj.getD s.max_selected_oom_idx 0 = oom_adj ∧
        s.selected_tasksize.getD s.max_selected_oom_idx 0 < tasksize) then
    (true, s.max_selected_oom_idx)
  else (false, s.max_selected_oom_idx)

/-- Lines 247-282: one iteration of `for_each_process` in the enhanced build. -/
def scan_body_enhanced (P : Params) (min_adj : Int) (s : ESelection) (p : task_struct) :
    ESelection :=
  match candidate min_adj p with
  | none => s
  | some (oom_adj, tasksize) =>
    let found := find_slot s oom_adj tasksize
    let is_exist_oom_task := found.1
    let idx := found.2
    if is_exist_oom_task then
      let selected := s.selected.set idx (some p)
      let selected_tasksize := s.selected_tasksize.set idx tasksize
      let selected_oom_adj := s.selected_oom_adj.set idx oom_adj
      let all_selected_oom :=
        if s.all_selected_oom < LOWMEM_DEATHPENDING_DEPTH then s.all_selected_oom + 1
        else s.all_selected_oom
      let idx :=
        if all_selected_oom = LOWMEM_DEATHPENDING_DEPTH then
          weakest selected_oom_adj selected_tasksize idx
        else idx
      { selected := selected
        selected_tasksize := selected_tasksize
        selected_oom_adj := selected_oom_adj
        all_selected_oom := all_selected_oom
        max_selected_oom_idx := idx
        log := lowmem_print P 2 (.select p.pid p.comm oom_adj tasksize) s.log }
    else { s with max_selected_oom_idx := idx }

/-- Lines 142-154, 213-214, 223-297: the enhanced process loop from its initial
local variables. -/
def scan_enhanced (P : Params) (min_adj : Int) (log : List LogMsg)
    (tasks : List task_struct) : ESelection :=
  tasks.foldl (scan_body_enhanced P min_adj)
    { selected := [none, none, none]
      selected_tasksize := [0, 0, 0]
      selected_oom_adj := [min_adj, min_adj, min_adj]
      all_selected_oom := 0
      max_selected_oom_idx := 0
      log := log }

/-- What the loop of lines 299-309 updates. -/
structure EKill where
  lowmem_deathpending : List (Option Nat)
  lowmem_deathpending_timeout : Nat
  force_sig : List Nat
  rem : Int
  log : List LogMsg
deriving DecidableEq

/-- Lines 299-309: one iteration of the loop over the slots. -/
def kill_body_enhanced (K : Kernel) (P : Params) (jiffies : Nat) (s : ESelection)
    (k : EKill) (i : Nat) : EKill :=
  match s.selected.getD i none with
  | some p =>
    { lowmem_deathpending := k.lowmem_deathpending.set i (some p.task)
      lowmem_deathpending_timeout := to_ulong ((jiffies : Int) + K.HZ)
      force_sig := k.force_sig ++ [p.task]
      rem := to_int (k.rem - s.selected_tasksize.getD i 0)
      log := lowmem_print P 1
        (.sigkill p.pid p.comm (s.selected_oom_adj.getD i 0) (s.selected_tasksize.getD i 0))
        k.log }
  | none => k

/-- The function `lowmem_shrink` (lines 138-330) with `ENHANCED_LMK_ROUTINE`
defined (and `CONFIG_ZRAM_FOR_ANDROID`). -/
def lowmem_shrink_enhanced (K : Kernel) (P : Params) (st : EState) (c : Call) : EResult :=
  let other_free := other_free c.vm
  let other_file := other_file c.vm
  if death_outstanding_enhanced K st c.jiffies then
    { ret := 0, state := st, force_sig := [], visited := [], lmk_running_writes := [],
      printk := [] }
  else
    let min_adj := lowmem_min_adj K P other_free other_file
    let log : List LogMsg :=
      if c.nr_to_scan > 0 then
        lowmem_print P 3 (.shrink c.nr_to_scan c.gfp_mask other_free other_file min_adj) []
      else []
    let rem := lowmem_rem c.vm
    if c.nr_to_scan ≤ 0 ∨ min_adj = K.OOM_ADJUST_MAX + 1 then
      { ret := rem, state := st, force_sig := [], visited := [], lmk_running_writes := [],
        printk := lowmem_print P 5 (.early c.nr_to_scan c.gfp_mask rem) log }
    else
      let s := scan_enhanced P min_adj log c.tasks
      let k := (List.range LOWMEM_DEATHPENDING_DEPTH).foldl
        (kill_body_enhanced K P c.jiffies s)
        { lowmem_deathpending := st.lowmem_deathpending
          lowmem_deathpending_timeout := st.lowmem_deathpending_timeout
          force_sig := []
          rem := rem
          log := s.log }
      { ret := k.rem
        state :=
          { st with
            lowmem_deathpending := k.lowmem_deathpending
            lowmem_deathpending_timeout := k.lowmem_deathpending_timeout
            s_reclaim := { st.s_reclaim with lmk_running := 0 } }
        force_sig := k.force_sig
        visited := c.tasks.map (·.task)
        lmk_running_writes := [1, 0]
        printk := lowmem_print P 4 (.done c.nr_to_scan c.gfp_mask k.rem) k.log }

/-! ## task_notify_func -/

/-- The function `task_notify_func` (lines 119-136) as compiled.  `data` is the
address of the task being freed (`none` for a null pointer); the value returned is
the constant `NOTIFY_OK` in every case and is left out. -/
def task_notify_func (st : State) (data : Option Nat) : State :=
  let task := data
  if task = st.lowmem_deathpending then { st with lowmem_deathpending := none } else st

/-- The function `task_notify_func` with `ENHANCED_LMK_ROUTINE` defined (lines
124-130): the loop over the slots is left, by `break`, at the first slot that holds
`task`, after that slot is set to `NULL`. -/
def task_notify_func_enhanced (st : EState) (data : Option Nat) : EState :=
  let task := data
  match (List.range LOWMEM_DEATHPENDING_DEPTH).find?
      (fun i => decide (task = st.lowmem_deathpending.getD i none)) with
  | some i => { st with lowmem_deathpending := st.lowmem_deathpending.set i none }
  | none => st

/-! ## Soft reclaim (CONFIG_ZRAM_FOR_ANDROID) -/

/-- The module parameters of the soft reclaim (lines 73-76), all `uint32_t`. -/
structure SoftParams where
  number_of_reclaim_pages : Nat
  minimum_freeswap_pages : Nat
  minimum_reclaim_pages : Nat
  minimum_interval_time : Nat
deriving DecidableEq

/-- The initial values of lines 51-55 and 73-76: `CONFIG_SMP` is set and `NR_CPUS`
is `CONFIG_NR_CPUS = 2`. -/
def default_soft_params (K : Kernel) : SoftParams :=
  { number_of_reclaim_pages := 1024 * 2
    minimum_freeswap_pages := 1024 * 2 * 2 * 2
    minimum_reclaim_pages := 1024 * 2 / 8
    minimum_interval_time := 5 * K.HZ }

/-- The C comparison `a < b` of a `long` with a `uint32_t` on this target: both are
32 bits wide, so the `long` is converted to `unsigned long` first. -/
def long_lt_uint (a : Int) (b : Nat) : Bool := decide (to_ulong a < b)

/-- Lines 356-359: `need_soft_reclaim`. -/
def need_soft_reclaim (st : State) : State :=
  { st with s_reclaim := { st.s_reclaim with need_to_reclaim := 1 } }

/-- Lines 361-364: `cancel_soft_reclaim`. -/
def cancel_soft_reclaim (st : State) : State :=
  { st with s_reclaim := { st.s_reclaim with need_to_reclaim := 0 } }

/-- Lines 366-370: `get_soft_reclaim_status`. -/
def get_soft_reclaim_status (st : State) : Int := st.s_reclaim.kcompcached_running

/-- What `could_cswap` reads from the kernel: `jiffies`, the flag
`kswapd_thread_on`, the counter `nr_swap_pages` (a `long`), whether
`idle_cpu(task_cpu(s_reclaim.kcompcached))` is non-zero, and the value of
`this_cpu_loadx(4)`. -/
structure Idle where
  jiffies : Nat
  kswapd_thread_on : Int
  nr_swap_pages : Int
  idle_cpu : Bool
  this_cpu_loadx : Int
deriving DecidableEq

/-- What one call of `could_cswap` does: the static variables afterwards and
whether `wake_up_process(s_reclaim.kcompcached)` was called. -/
structure CswapResult where
  state : State
  wake_up_process : Bool
deriving DecidableEq

/-- The function `could_cswap` (lines 333-354).  The macro `time_before` of
`linux/jiffies.h` is a parameter. -/
def could_cswap (time_before : Nat → Nat → Bool) (S : SoftParams) (st : State) (e : Idle) :
    CswapResult :=
  if st.s_reclaim.need_to_reclaim = 0 then { state := st, wake_up_process := false }
  else if time_before e.jiffies
      (to_ulong ((st.prev_jiffy : Int) + S.minimum_interval_time)) then
    { state := st, wake_up_process := false }
  else if st.s_reclaim.lmk_running = 1 ∨ e.kswapd_thread_on = 1 then
    { state := st, wake_up_process := false }
  else if long_lt_uint e.nr_swap_pages S.minimum_freeswap_pages then
    { state := st, wake_up_process := false }
  else if e.idle_cpu ∧ e.this_cpu_loadx = 0 then
    if st.s_reclaim.kcompcached_running = 0 then
      { state :=
          { st with
            s_reclaim := { st.s_reclaim with kcompcached_running := 1 }
            prev_jiffy := e.jiffies }
        wake_up_process := true }
    else { state := st, wake_up_process := false }
  else { state := st, wake_up_process := false }

/-- Successive calls of `could_cswap`, each on the static variables the previous
one left. -/
def could_cswap_seq (time_before : Nat → Nat → Bool) (S : SoftParams) :
    State → List Idle → List CswapResult
  | _, [] => []
  | st, e :: rest =>
    could_cswap time_before S st e ::
      could_cswap_seq time_before S (could_cswap time_before S st e).state rest

/-- What one pass through the loop of `do_compcache` does: the static variables
afterwards, the arguments `rtcc_reclaim_pages` was called with, and whether the
thread goes on (it leaves the loop when `kthread_should_stop()` holds). -/
structure CompcacheResult where
  state : State
  rtcc_reclaim_pages : List Int
  goes_on : Bool
deriving DecidableEq

/-- One pass through the loop of `do_compcache` (lines 378-392), from
`try_to_freeze` to `schedule`.  The reclaim primitive `rtcc_reclaim_pages` (a `long`
for a `long`) and the answer of `kthread_should_stop()` are parameters. -/
def do_compcache (S : SoftParams) (rtcc_reclaim_pages : Int → Int)
    (kthread_should_stop : Bool) (st : State) : CompcacheResult :=
  if kthread_should_stop then { state := st, rtcc_reclaim_pages := [], goes_on := false }
  else if st.s_reclaim.kcompcached_running = 1 then
    let nr_to_reclaim := to_int S.number_of_reclaim_pages
    let st :=
      if long_lt_uint (rtcc_reclaim_pages nr_to_reclaim) S.minimum_reclaim_pages then
        cancel_soft_reclaim st
      else st
    { state := { st with s_reclaim := { st.s_reclaim with kcompcached_running := 0 } }
      rtcc_reclaim_pages := [nr_to_reclaim]
      goes_on := true }
  else { state := st, rtcc_reclaim_pages := [], goes_on := true }

/-- What one call of `rtcc_trigger_store` does: the value returned, the static
variables afterwards, and whether "Invalid command." was printed. -/
structure StoreResult where
  ret : Int
  state : State
  pr_warning : Bool
deriving DecidableEq

/-- The function `rtcc_trigger_store` (lines 397-413).  `sscanf` stands for the
library call `sscanf(buf, "%ld,%ld", ...)`: it gives the `long` values converted, in
order (none, one or two), and a variable it does not reach keeps what it held, which
for these uninitialised locals is whatever the stack held, `val0` and
`magic_sign0`. -/
def rtcc_trigger_store (sscanf : String → List Int) (st : State) (val0 magic_sign0 : Int)
    (buf : String) (count : Nat) : StoreResult :=
  let val := (sscanf buf).getD 0 val0
  let magic_sign := (sscanf buf).getD 1 magic_sign0
  if val < 0 ∨ to_int (to_int (val * val) - 1) ≠ magic_sign then
    { ret := to_int count, state := st, pr_warning := true }
  else { ret := to_int count, state := need_soft_reclaim st, pr_warning := false }

/-! ## The order of the selection and what the slots hold -/

/-- The comparison of lines 256-258 and 272-276: the pair `x` (an `oom_adj` and a
`tasksize`) is beaten by `y`, which has a higher `oom_adj`, or the same `oom_adj`
and a larger `tasksize`. -/
def lex_lt (x y : Int × Int) : Prop := x.1 < y.1 ∨ (x.1 = y.1 ∧ x.2 < y.2)

instance lex_lt_decidable : DecidableRel lex_lt := fun x y =>
  inferInstanceAs (Decidable (x.1 < y.1 ∨ (x.1 = y.1 ∧ x.2 < y.2)))

/-- The pair recorded for slot `i`: `selected_oom_adj[i]` and
`selected_tasksize[i]`. -/
def slot_pair (s : ESelection) (i : Nat) : Int × Int :=
  (s.selected_oom_adj.getD i 0, s.selected_tasksize.getD i 0)

/-- The pairs recorded for the occupied slots (`selected[i]` not `NULL`), in the
order of the slots. -/
def held_pairs (s : ESelection) : List (Int × Int) :=
  (List.range LOWMEM_DEATHPENDING_DEPTH).filterMap fun i =>
    if (s.selected.getD i none).isSome then some (slot_pair s i) else none

/-- Specification side: `x` is at least `y` in the lexicographic order, priority
first, resident pages second. -/
def lex_ge (x y : Int × Int) : Prop := y.1 < x.1 ∨ (y.1 = x.1 ∧ y.2 ≤ x.2)

instance lex_ge_decidable : DecidableRel lex_ge := fun x y =>
  inferInstanceAs (Decidable (y.1 < x.1 ∨ (y.1 = x.1 ∧ y.2 ≤ x.2)))

/-- Specification side: the three lexicographically largest pairs of a sequence,
the first three of the sequence sorted in descending order. -/
def spec_three_largest (l : List (Int × Int)) : List (Int × Int) :=
  (l.insertionSort lex_ge).take 3

/-- The invariant of the enhanced process loop once three candidates have been
seen: all three slots are occupied by candidates seen, recorded with their own
pairs; `max_selected_oom_idx` points at a slot that no slot is below; and the
candidates seen that are not held are not above that slot. -/
def full_slots (m : Int) (s : ESelection) (seen : List task_struct) : Prop :=
  s.all_selected_oom = 3 ∧ s.max_selected_oom_idx < 3 ∧
  ∃ p0 p1 p2 a0 a1 a2 z0 z1 z2,
    s.selected = [some p0, some p1, some p2] ∧
    s.selected_oom_adj = [a0, a1, a2] ∧ s.selected_tasksize = [z0, z1, z2] ∧
    (p0 ∈ seen ∧ p1 ∈ seen ∧ p2 ∈ seen) ∧
    (candidate m p0 = some (a0, z0) ∧ candidate m p1 = some (a1, z1) ∧
      candidate m p2 = some (a2, z2)) ∧
    (∀ i, i < 3 → ¬ lex_lt (slot_pair s i) (slot_pair s s.max_selected_oom_idx)) ∧
    ∃ rest, (seen.filterMap (candidate m)).Perm ([(a0, z0), (a1, z1), (a2, z2)] ++ rest) ∧
      ∀ r ∈ rest, ¬ lex_lt (slot_pair s s.max_selected_oom_idx) r

/-! ## Concrete kernel values used in the examples -/

/-- The usual `time_before_eq(a, b)`, that is `(long)(a) - (long)(b) <= 0`. -/
def jiffies_before_eq (a b : Nat) : Bool := decide (to_int ((a : Int) - b) ≤ 0)

/-- A kernel with `OOM_ADJUST_MAX = 15`, `HZ = CONFIG_HZ = 100` and the usual
`time_before_eq`. -/
def linux : Kernel := { OOM_ADJUST_MAX := 15, HZ := 100, time_before_eq := jiffies_before_eq }


/-- The usual `time_before(a, b)`, that is `(long)(a) - (long)(b) < 0`. -/
def jiffies_before (a b : Nat) : Bool := decide (to_int ((a : Int) - b) < 0)

/-- Modelled from the spec: the white space that the reading of a trigger input
skips (the library's `isspace`, not among the sources). -/
def isspace (c : Char) : Bool :=
  c = ' ' || c = '\t' || c = '\n' || c = '\r' || c.toNat = 11 || c.toNat = 12

/-- Modelled from the spec: the decimal digits of one number of a trigger input (the
library's `simple_strtoul`, not among the sources), with what follows them. -/
def strtoul_digits (acc : Nat) : List Char → Nat × List Char
  | [] => (acc, [])
  | c :: cs =>
    if c.isDigit then strtoul_digits (acc * 10 + (c.toNat - 48)) cs else (acc, c :: cs)

/-- Modelled from the spec: the reading of one number of a trigger input (one `%ld`
conversion of the library's `sscanf`, not among the sources): white space is skipped,
then an optional minus sign and at least one digit are read. -/
def scan_ld (s : List Char) : Option (Int × List Char) :=
  match s.dropWhile isspace with
  | [] => none
  | c :: cs =>
    if c = '-' then
      match cs with
      | [] => none
      | d :: ds =>
        if d.isDigit then
          some (to_int (-((strtoul_digits 0 (d :: ds)).1 : Int)), (strtoul_digits 0 (d :: ds)).2)
        else none
    else if c.isDigit then
      some (to_int ((strtoul_digits 0 (c :: cs)).1 : Int), (strtoul_digits 0 (c :: cs)).2)
    else none

/-- Modelled from the spec: the reading of a trigger input of the form
"<value>,<proof>", that is the library call `sscanf(buf, "%ld,%ld", ...)`, whose code
is not among the sources.  It gives the values converted: the conversion stops at the
first thing that is not a number, or when the comma is missing. -/
def sscanf_ld_ld (buf : String) : List Int :=
  match scan_ld buf.data with
  | none => []
  | some (val, rest) =>
    match rest with
    | ',' :: rest =>
      match scan_ld rest with
      | none => [val]
      | some (magic_sign, _) => [val, magic_sign]
    | _ => [val]

/-! ## Repeated calls -/

/-- Successive calls of `lowmem_shrink`, each made on the static variables the
previous one left; between calls the module parameters may have been rewritten, so
every call comes with its own. -/
def lowmem_shrink_seq (K : Kernel) : State → List (Params × Call) → List Result
  | _, [] => []
  | st, (P, c) :: rest =>
    lowmem_shrink K P st c :: lowmem_shrink_seq K (lowmem_shrink K P st c).state rest

/-- Successive calls of the enhanced `lowmem_shrink`. -/
def lowmem_shrink_enhanced_seq (K : Kernel) : EState → List (Params × Call) → List EResult
  | _, [] => []
  | st, (P, c) :: rest =>
    lowmem_shrink_enhanced K P st c ::
      lowmem_shrink_enhanced_seq K (lowmem_shrink_enhanced K P st c).state rest

/-! ## The classification the specification describes, and example inputs -/

/-- Specification side: the effective length, the smaller of the two configured
lengths, clamped to the capacity of six. -/
def spec_effective_length (P : Params) : Nat :=
  min (min P.lowmem_adj_size.toNat P.lowmem_minfree_size.toNat) 6

/-- Specification side: the single estimate `free_pages + reclaimable_file_pages -
pages_pinned_in_compressed_swap`. -/
def spec_free_estimate (vm : vm_stat) : Int :=
  (vm.NR_FREE_PAGES : Int) + ((vm.NR_FILE_PAGES : Int) - vm.NR_SHMEM) -
    vm.total_swapcache_pages

/-- Specification side: `classify(free_estimate)`, the priority threshold at the
first index below the effective length where `free_estimate < floor[index]`, and
`none` when no index matches. -/
def spec_classify (P : Params) (free_estimate : Int) : Option Int :=
  match (List.range (spec_effective_length P)).find?
      (fun i => decide (free_estimate < (P.lowmem_minfree.getD i 0 : Int))) with
  | some i => some (P.lowmem_adj.getD i 0)
  | none => none

/-- The table of the example in the file header: "0,8" written to `adj` and
"1024,4096" written to `minfree`. -/
def header_example (K : Kernel) : Params :=
  { default_params K with
    lowmem_adj := [0, 8, 6, 12]
    lowmem_adj_size := 2
    lowmem_minfree := [1024, 4096, 4 * 1024, 16 * 1024]
    lowmem_minfree_size := 2 }

/-- Page counters with 1000 free pages, 1000 file pages, nothing else. -/
def vm_1000_1000 : vm_stat :=
  { NR_FREE_PAGES := 1000, NR_FILE_PAGES := 1000, NR_SHMEM := 0, NR_ACTIVE_ANON := 0,
    NR_ACTIVE_FILE := 0, NR_INACTIVE_ANON := 0, NR_INACTIVE_FILE := 0,
    total_swapcache_pages := 0 }

/-- A process with the given address, `oom_adj` and resident pages (and with both
a memory image and a signal context). -/
def task_of (task : Nat) (oom_adj : Int) (rss : Nat) : task_struct :=
  { task := task, pid := task, comm := "app", mm := some rss, signal := some oom_adj }

/-- Static variables with no death pending and all flags clear. -/
def state_idle : State :=
  { lowmem_deathpending := none
    lowmem_deathpending_timeout := 0
    s_reclaim := { kcompcached_running := 0, need_to_reclaim := 0, lmk_running := 0 }
    prev_jiffy := 0 }

/-- Page counters under pressure: 1000 free pages, 1000 file pages, and LRU lists
of 10, 20, 30 and 40 pages. -/
def vm_pressure : vm_stat :=
  { NR_FREE_PAGES := 1000, NR_FILE_PAGES := 1000, NR_SHMEM := 0, NR_ACTIVE_ANON := 10,
    NR_ACTIVE_FILE := 20, NR_INACTIVE_ANON := 30, NR_INACTIVE_FILE := 40,
    total_swapcache_pages := 0 }

/-- A call under pressure at time 5000 with a budget of 128 over the given
process list. -/
def call_pressure (tasks : List task_struct) : Call :=
  { nr_to_scan := 128, gfp_mask := 0, jiffies := 5000, vm := vm_pressure, tasks := tasks }

/-- The first selection example: candidates (5, 100) and (5, 200). -/
def call_tie : Call := call_pressure [task_of 1 5 100, task_of 2 5 200]

/-- The second selection example: candidates (5, 500) and (8, 10). -/
def call_priority : Call := call_pressure [task_of 1 5 500, task_of 2 8 10]

/-- A call with candidates (5, 30) and (8, 10). -/
def call_kill : Call := call_pressure [task_of 1 5 30, task_of 2 8 10]

/-- Static variables with the death of task 7 pending until time 6000. -/
def state_pending : State :=
  { state_idle with lowmem_deathpending := some 7, lowmem_deathpending_timeout := 6000 }

/-- Static variables of the enhanced build with task 7 pending in slot 1 until
time 6000. -/
def estate_pending : EState :=
  { EState.init with
    lowmem_deathpending := [none, some 7, none], lowmem_deathpending_timeout := 6000 }

/-- A call with a zero budget. -/
def call_no_budget : Call := { call_kill with nr_to_scan := 0 }

/-- A call with plenty of free memory: 20000 free pages. -/
def call_no_pressure : Call :=
  { call_kill with vm := { vm_pressure with NR_FREE_PAGES := 20000 } }

/-- Three calls in a row at time 5000, with different budgets, tables and
process lists. -/
def calls_during_debounce : List (Params × Call) :=
  [(default_params linux, call_kill), (header_example linux, call_tie),
    (default_params linux, call_no_budget)]

/-- The example with four candidates: priorities 3, 5, 5, 9 and sizes 10, 10, 20, 1,
in that order. -/
def call_four : Call :=
  call_pressure [task_of 1 3 10, task_of 2 5 10, task_of 3 5 20, task_of 4 9 1]

/-- A call at time 5050, before the deadline 5100 that a kill at time 5000 sets,
over a list with one candidate. -/
def call_again : Call := { call_pressure [task_of 1 5 30] with jiffies := 5050 }

/-- A call at time 7000 over candidates (5, 30) and (8, 10). -/
def call_late : Call := { call_kill with jiffies := 7000 }

/-- The enhanced build after a first scan at time 5000 over candidates 1 and 2: both
are killed and recorded in slots 0 and 1. -/
def estate_two_killed : EState :=
  (lowmem_shrink_enhanced linux (default_params linux) EState.init call_kill).state

/-- Then task 1 is freed and its exit is notified. -/
def estate_one_left : EState := task_notify_func_enhanced estate_two_killed (some 1)

/-- Then, at time 5200 (the deadline 5100 has passed) and with task 2 still in the
process list, a second scan runs and selects task 2 again, now into slot 0. -/
def estate_twice_held : EState :=
  (lowmem_shrink_enhanced linux (default_params linux) estate_one_left
    { call_pressure [task_of 2 8 10] with jiffies := 5200 }).state

/-- Module parameters with the debounce window set to 500 jiffies. -/
def params_timeout_500 : Params := { default_params linux with timeout := 500 }

/-- Static variables with a reclaim requested, the last wake at time 1000 and
nothing running. -/
def state_requested : State :=
  { state_idle with
    s_reclaim := { kcompcached_running := 0, need_to_reclaim := 1, lmk_running := 0 }
    prev_jiffy := 1000 }

/-- An idle moment at time 4000: `kswapd` is not active, 10000 swap pages are free,
the processor is idle and its load reading is zero. -/
def idle_moment : Idle :=
  { jiffies := 4000, kswapd_thread_on := 0, nr_swap_pages := 10000, idle_cpu := true,
    this_cpu_loadx := 0 }

/-- An idle moment at exact equality of both numeric conditions, for the last wake
at time 1000 and the initial parameters: time 1500, that is 1000 plus the interval
of 500, and 8192 free swap pages, the minimum. -/
def idle_at_equality : Idle := { idle_moment with jiffies := 1500, nr_swap_pages := 8192 }

/-- The worker flagged as running, after a wake. -/
def state_worker_running : State :=
  { state_requested with
    s_reclaim := { kcompcached_running := 1, need_to_reclaim := 1, lmk_running := 0 } }

/-- A reclaim primitive that reclaims 100 pages whatever it is asked for. -/
def reclaims_100 : Int → Int := fun _ => 100

/-- An idle moment while `kswapd` is active. -/
def idle_kswapd : Idle := { idle_moment with kswapd_thread_on := 1 }

/-- A reclaim primitive that reclaims 300 pages whatever it is asked for. -/
def reclaims_300 : Int → Int := fun _ => 300

/-- A call under pressure over processes none of which is a candidate: one has no
resident pages, one no memory image, one is below the threshold 0. -/
def call_no_candidate : Call :=
  { call_pressure [task_of 1 8 0, { task_of 3 9 50 with mm := none }, task_of 5 (-1) 900] with
    jiffies := 7000 }

/-- Page counters with more swap-cache pages than file pages: `other_file` is -1. -/
def vm_negative_file : vm_stat :=
  { vm_pressure with NR_FILE_PAGES := 0, total_swapcache_pages := 1 }

/-- A call with candidates (5, 30) and (8, 10) and with `other_file` being -1. -/
def call_negative_file : Call := { call_kill with vm := vm_negative_file }

/-- Page counters with more free and more file pages than `vm_pressure`. -/
def vm_relieved : vm_stat := { vm_pressure with NR_FREE_PAGES := 3000, NR_FILE_PAGES := 5000 }

/-- Module parameters whose last priority threshold, 17, is above
`OOM_ADJUST_MAX + 1 = 16`; the thresholds 0, 1, 6, 17 do not decrease. -/
def params_high_threshold : Params := { default_params linux with lowmem_adj := [0, 1, 6, 17] }

/-- Page counters with 5000 free and 5000 file pages. -/
def vm_5000 : vm_stat := { vm_pressure with NR_FREE_PAGES := 5000, NR_FILE_PAGES := 5000 }

/-- Page counters with 20000 free and 20000 file pages. -/
def vm_20000 : vm_stat := { vm_pressure with NR_FREE_PAGES := 20000, NR_FILE_PAGES := 20000 }

/-- Page counters with 1500 free pages and 1500 file pages: their sum is 3000. -/
def vm_1500_1500 : vm_stat :=
  { vm_pressure with NR_FREE_PAGES := 1500, NR_FILE_PAGES := 1500 }

/-- Page counters with 10000 free pages and 10000 file pages: their sum is 20000. -/
def vm_10000_10000 : vm_stat :=
  { vm_pressure with NR_FREE_PAGES := 10000, NR_FILE_PAGES := 10000 }

/-- A call with 10000 free and 10000 file pages over one process of `oom_adj` 12
with 100 resident pages. -/
def call_sum_20000 : Call :=
  { call_pressure [task_of 1 12 100] with vm := vm_10000_10000 }

/-- Soft-reclaim parameters with an interval of 3000000000 jiffies, above 2^31. -/
def soft_params_long_interval : SoftParams :=
  { default_soft_params linux with minimum_interval_time := 3000000000 }

/-- An idle moment at time 1000, the time of the last wake of `state_requested`: no
time has passed. -/
def idle_no_time_passed : Idle := { idle_moment with jiffies := 1000 }

/-- An idle moment with `nr_swap_pages` at -1. -/
def idle_negative_swap : Idle := { idle_moment with nr_swap_pages := -1 }

/-! ## Callbacks in sequence -/

/-- The entry points of the file that change or read the static variables, each with
what it is given and what it reads from the kernel while it runs. -/
inductive Callback where
  /-- The shrinker `lowmem_shrink`, with the module parameters at that time. -/
  | shrink (P : Params) (c : Call)
  /-- The notifier `task_notify_func`. -/
  | notify (data : Option Nat)
  /-- The idle notifier `kcompcache_idle_notifier`, which calls `could_cswap`. -/
  | idle (S : SoftParams) (e : Idle)
  /-- One pass through the loop of the thread `do_compcache`. -/
  | worker (S : SoftParams) (rtcc_reclaim_pages : Int → Int) (kthread_should_stop : Bool)
  /-- A write to the class attribute, `rtcc_trigger_store`. -/
  | store (val0 magic_sign0 : Int) (buf : String) (count : Nat)
  /-- The function `need_soft_reclaim`. -/
  | need
  /-- The function `cancel_soft_reclaim`. -/
  | cancel

/-- One callback run to its end on the static variables: those it leaves. -/
def Callback.run (K : Kernel) (time_before : Nat → Nat → Bool)
    (sscanf : String → List Int) (st : State) : Callback → State
  | .shrink P c => (lowmem_shrink K P st c).state
  | .notify data => task_notify_func st data
  | .idle S e => (could_cswap time_before S st e).state
  | .worker S rtcc_reclaim_pages kthread_should_stop =>
    (do_compcache S rtcc_reclaim_pages kthread_should_stop st).state
  | .store val0 magic_sign0 buf count =>
    (rtcc_trigger_store sscanf st val0 magic_sign0 buf count).state
  | .need => need_soft_reclaim st
  | .cancel => cancel_soft_reclaim st

/-- Callbacks run one after the other, each to its end: every callback with the
static variables it starts on. -/
def callbacks_seq (K : Kernel) (time_before : Nat → Nat → Bool)
    (sscanf : String → List Int) : State → List Callback → List (State × Callback)
  | _, [] => []
  | st, cb :: rest =>
    (st, cb) :: callbacks_seq K time_before sscanf (Callback.run K time_before sscanf st cb) rest

/-- The static variables after callbacks run one after the other. -/
def callbacks_end (K : Kernel) (time_before : Nat → Nat → Bool)
    (sscanf : String → List Int) (st : State) (l : List Callback) : State :=
  l.foldl (Callback.run K time_before sscanf) st

/-- A sequence of callbacks: a write that requests a reclaim, a scan that kills, the
exit of the victim, an idle moment that wakes the worker, a pass of the worker, a scan
that returns early and another idle moment. -/
def callbacks_example : List Callback :=
  [.store 0 0 "4,15" 4, .shrink (default_params linux) call_kill, .notify (some 2),
    .idle (default_soft_params linux) idle_moment,
    .worker (default_soft_params linux) (fun _ => 300) false,
    .shrink (default_params linux) call_no_budget,
    .idle (default_soft_params linux) idle_moment]

/-- A call over two candidates with the same pair (5, 100), task 1 first. -/
def call_exact_tie : Call := call_pressure [task_of 1 5 100, task_of 2 5 100]

/-- The same call with the process list in the other order, task 2 first. -/
def call_exact_tie_swapped : Call := call_pressure [task_of 2 5 100, task_of 1 5 100]

/-- The shape of the local arrays of the enhanced loop: three entries each, the
slots fill from the first to the last, `all_selected_oom` counts the occupied ones,
and once all are occupied `max_selected_oom_idx` is a slot index. -/
def slots_shape (s : ESelection) : Prop :=
  s.selected_oom_adj.length = 3 ∧ s.selected_tasksize.length = 3 ∧
  ((s.all_selected_oom = 0 ∧ s.selected = [none, none, none]) ∨
    (s.all_selected_oom = 1 ∧ ∃ p0, s.selected = [some p0, none, none]) ∨
    (s.all_selected_oom = 2 ∧ ∃ p0 p1, s.selected = [some p0, some p1, none]) ∨
    (s.all_selected_oom = 3 ∧ s.max_selected_oom_idx < 3 ∧
      ∃ p0 p1 p2, s.selected = [some p0, some p1, some p2]))

/-- Some slot holds the process `v`, recorded with the pair `x`. -/
def slot_holds (s : ESelection) (v : task_struct) (x : Int × Int) : Prop :=
  ∃ j, j < 3 ∧ s.selected.getD j none = some v ∧ slot_pair s j = x

/-- Every occupied slot is recorded with a pair strictly below `x`. -/
def slots_below (s : ESelection) (x : Int × Int) : Prop :=
  ∀ i, i < 3 → (s.selected.getD i none).isSome = true → lex_lt (slot_pair s i) x

/-! ## Machine integers: basic facts -/

theorem to_int_of_range (x : Int) (h0 : -2147483648 ≤ x) (h1 : x < 2147483648) :
    to_int x = x := by
  unfold to_int; omega

theorem to_ulong_of_range (x : Int) (h0 : 0 ≤ x) (h1 : x < 4294967296) :
    (to_ulong x : Int) = x := by
  unfold to_ulong; omega

theorem to_ulong_of_neg (x : Int) (h0 : -2147483648 ≤ x) (h1 : x < 0) :
    (to_ulong x : Int) = x + 4294967296 := by
  unfold to_ulong; omega

/-- For a non-negative `int` the C comparison with a `size_t` is the numeric one. -/
theorem int_lt_size_t_of_nonneg (a : Int) (b : Nat) (h0 : 0 ≤ a) (h1 : a < 2147483648) :
    int_lt_size_t a b = true ↔ a < (b : Int) := by
  have := to_ulong_of_range a h0 (by omega)
  simp only [int_lt_size_t, decide_eq_true_eq]
  omega

/-! ## The classification loop -/

theorem first_below_some (P : Params) (a b : Int) (n i k : Nat) :
    first_below P a b n i = some k ↔
      (i ≤ k ∧ k < i + n ∧ below_minfree P a b k = true ∧
        ∀ j, i ≤ j → j < k → below_minfree P a b j = false) := by
  induction n generalizing i with
  | zero => simp [first_below]; omega
  | succ n ih =>
    unfold first_below
    by_cases h : below_minfree P a b i = true
    · simp only [h, if_true, Option.some.injEq]
      constructor
      · rintro rfl
        exact ⟨le_refl _, by omega, h, fun j h1 h2 => by omega⟩
      · rintro ⟨h1, _, _, h4⟩
        by_contra hne
        have := h4 i (le_refl _) (by omega)
        simp [h] at this
    · have hf : below_minfree P a b i = false := by simpa using h
      rw [if_neg h, ih]
      constructor
      · rintro ⟨h1, h2, h3, h4⟩
        refine ⟨by omega, by omega, h3, fun j hj1 hj2 => ?_⟩
        by_cases hji : j = i
        · subst hji; exact hf
        · exact h4 j (by omega) hj2
      · rintro ⟨h1, h2, h3, h4⟩
        have hik : i ≠ k := by
          rintro rfl
          rw [h3] at hf; cases hf
        exact ⟨by omega, by omega, h3, fun j hj1 hj2 => h4 j (by omega) hj2⟩

theorem first_below_none (P : Params) (a b : Int) (n i : Nat) :
    first_below P a b n i = none ↔
      ∀ j, i ≤ j → j < i + n → below_minfree P a b j = false := by
  induction n generalizing i with
  | zero => simp [first_below]; intro j h1 h2; omega
  | succ n ih =>
    unfold first_below
    by_cases h : below_minfree P a b i = true
    · simp only [h, if_true]
      constructor
      · intro h'; cases h'
      · intro h'
        have := h' i (le_refl _) (by omega)
        rw [h] at this; cases this
    · have hf : below_minfree P a b i = false := by simpa using h
      rw [if_neg h, ih]
      constructor
      · intro h' j hj1 hj2
        by_cases hji : j = i
        · subst hji; exact hf
        · exact h' j (by omega) (by omega)
      · intro h' j hj1 hj2
        exact h' j (by omega) (by omega)

/-- The value of `min_adj` when the loop breaks at index `i`. -/
theorem lowmem_min_adj_at (K : Kernel) (P : Params) (a b : Int) (i : Nat)
    (hi : (i : Int) < array_size P) (h : below_minfree P a b i = true)
    (hfirst : ∀ j, j < i → below_minfree P a b j = false) :
    lowmem_min_adj K P a b = P.lowmem_adj.getD i 0 := by
  have : first_below P a b (array_size P).toNat 0 = some i :=
    (first_below_some P a b _ 0 i).2 ⟨Nat.zero_le _, by omega, h, fun j _ hj => hfirst j hj⟩
  simp [lowmem_min_adj, this]

/-- The value of `min_adj` when the loop runs to its end. -/
theorem lowmem_min_adj_none (K : Kernel) (P : Params) (a b : Int)
    (h : ∀ i : Nat, (i : Int) < array_size P → below_minfree P a b i = false) :
    lowmem_min_adj K P a b = K.OOM_ADJUST_MAX + 1 := by
  have : first_below P a b (array_size P).toNat 0 = none :=
    (first_below_none P a b _ 0).2 fun j _ hj => h j (by omega)
  simp [lowmem_min_adj, this]

theorem to_int_sub_to_int (x y : Int) : to_int (to_int x - y) = to_int (x - y) := by
  unfold to_int; omega

theorem array_size_eq (P : Params) :
    array_size P = min (min P.lowmem_adj_size P.lowmem_minfree_size) 6 := by
  unfold array_size
  simp only
  split_ifs <;> omega

theorem below_minfree_iff (P : Params) (a b : Int) (i : Nat) :
    below_minfree P a b i = true ↔
      (int_lt_size_t a (P.lowmem_minfree.getD i 0) = true ∧
        int_lt_size_t b (P.lowmem_minfree.getD i 0) = true) := by
  simp [below_minfree]

/-! ## Claims about classification -/

/-- C1 (as amended): the threshold `lowmem_shrink` uses comes from two separate
counters, `other_free = NR_FREE_PAGES` and `other_file = NR_FILE_PAGES - NR_SHMEM -
total_swapcache_pages` (each converted to `int`), which are never added: it is
`lowmem_adj[i]` at the smallest index `i < array_size` at which `other_free <
lowmem_minfree[i]` and `other_file < lowmem_minfree[i]` both hold, and it stays
`OOM_ADJUST_MAX + 1` when no index matches. -/
theorem lowmem_shrink_threshold_two_counters (K : Kernel) (P : Params) (vm : vm_stat) :
    other_free vm = to_int vm.NR_FREE_PAGES ∧
    other_file vm =
      to_int ((vm.NR_FILE_PAGES : Int) - vm.NR_SHMEM - vm.total_swapcache_pages) ∧
    (∀ i : Nat, (i : Int) < array_size P →
      (int_lt_size_t (other_free vm) (P.lowmem_minfree.getD i 0) = true ∧
        int_lt_size_t (other_file vm) (P.lowmem_minfree.getD i 0) = true) →
      (∀ j : Nat, j < i →
        ¬ (int_lt_size_t (other_free vm) (P.lowmem_minfree.getD j 0) = true ∧
          int_lt_size_t (other_file vm) (P.lowmem_minfree.getD j 0) = true)) →
      lowmem_min_adj K P (other_free vm) (other_file vm) = P.lowmem_adj.getD i 0) ∧
    ((∀ i : Nat, (i : Int) < array_size P →
        ¬ (int_lt_size_t (other_free vm) (P.lowmem_minfree.getD i 0) = true ∧
          int_lt_size_t (other_file vm) (P.lowmem_minfree.getD i 0) = true)) →
      lowmem_min_adj K P (other_free vm) (other_file vm) = K.OOM_ADJUST_MAX + 1) := by
  refine ⟨rfl, ?_, ?_, ?_⟩
  · unfold other_file; rw [to_int_sub_to_int]
  · intro i hi h hfirst
    refine lowmem_min_adj_at K P _ _ i hi ((below_minfree_iff P _ _ i).2 h) fun j hj => ?_
    have := hfirst j hj
    rw [← below_minfree_iff] at this
    simpa using this
  · intro h
    refine lowmem_min_adj_none K P _ _ fun i hi => ?_
    have := h i hi
    rw [← below_minfree_iff] at this
    simpa using this

/-- C1, witness: 1000 free pages and 1000 file pages with the compiled-in table give
threshold 0, the entry of index 0. -/
theorem lowmem_shrink_threshold_two_counters_witness :
    lowmem_min_adj linux (default_params linux) (other_free vm_1000_1000)
      (other_file vm_1000_1000) = 0 :=
  (lowmem_shrink_threshold_two_counters linux (default_params linux) vm_1000_1000).2.2.1 0
    (by decide) (by decide) (by decide)

/-- C1, counterexample: with the compiled-in table, 1000 free pages and 1000 file
pages, the summed estimate is 2000 and classifies to threshold 1 (the first floor
above 2000 is 2048), while `lowmem_shrink` uses threshold 0 (both counters are
below 1536). -/
theorem summed_estimate_counterexample :
    spec_free_estimate vm_1000_1000 = 2000 ∧
    spec_classify (default_params linux) (spec_free_estimate vm_1000_1000) = some 1 ∧
    lowmem_min_adj linux (default_params linux) (other_free vm_1000_1000)
      (other_file vm_1000_1000) = 0 := by
  decide

/-- C2: for every table and every pair of counters, `min_adj` is `lowmem_adj[i]` at
the smallest index `i < array_size` at which both `other_free < lowmem_minfree[i]`
and `other_file < lowmem_minfree[i]` hold as C evaluates them (the `int` counter
converted to `size_t`), and `OOM_ADJUST_MAX + 1` when there is no such index; for
non-negative counters the C comparison is the numeric one. -/
theorem lowmem_min_adj_first_both_below (K : Kernel) (P : Params)
    (other_free other_file : Int) :
    (∀ i : Nat, (i : Int) < array_size P →
      (int_lt_size_t other_free (P.lowmem_minfree.getD i 0) = true ∧
        int_lt_size_t other_file (P.lowmem_minfree.getD i 0) = true) →
      (∀ j : Nat, j < i →
        ¬ (int_lt_size_t other_free (P.lowmem_minfree.getD j 0) = true ∧
          int_lt_size_t other_file (P.lowmem_minfree.getD j 0) = true)) →
      lowmem_min_adj K P other_free other_file = P.lowmem_adj.getD i 0) ∧
    ((∀ i : Nat, (i : Int) < array_size P →
        ¬ (int_lt_size_t other_free (P.lowmem_minfree.getD i 0) = true ∧
          int_lt_size_t other_file (P.lowmem_minfree.getD i 0) = true)) →
      lowmem_min_adj K P other_free other_file = K.OOM_ADJUST_MAX + 1) ∧
    (0 ≤ other_free ∧ other_free < 2147483648 →
      0 ≤ other_file ∧ other_file < 2147483648 →
      (∀ i : Nat, (i : Int) < array_size P →
        (other_free < (P.lowmem_minfree.getD i 0 : Int) ∧
          other_file < (P.lowmem_minfree.getD i 0 : Int)) →
        (∀ j : Nat, j < i →
          ¬ (other_free < (P.lowmem_minfree.getD j 0 : Int) ∧
            other_file < (P.lowmem_minfree.getD j 0 : Int))) →
        lowmem_min_adj K P other_free other_file = P.lowmem_adj.getD i 0) ∧
      ((∀ i : Nat, (i : Int) < array_size P →
          ¬ (other_free < (P.lowmem_minfree.getD i 0 : Int) ∧
            other_file < (P.lowmem_minfree.getD i 0 : Int))) →
        lowmem_min_adj K P other_free other_file = K.OOM_ADJUST_MAX + 1)) := by
  have hnum : ∀ i : Nat, 0 ≤ other_free ∧ other_free < 2147483648 →
      0 ≤ other_file ∧ other_file < 2147483648 →
      (below_minfree P other_free other_file i = true ↔
        (other_free < (P.lowmem_minfree.getD i 0 : Int) ∧
          other_file < (P.lowmem_minfree.getD i 0 : Int))) := by
    intro i ha hb
    rw [below_minfree_iff, int_lt_size_t_of_nonneg _ _ ha.1 ha.2,
      int_lt_size_t_of_nonneg _ _ hb.1 hb.2]
  refine ⟨?_, ?_, ?_⟩
  · intro i hi h hfirst
    refine lowmem_min_adj_at K P _ _ i hi ((below_minfree_iff P _ _ i).2 h) fun j hj => ?_
    have := hfirst j hj
    rw [← below_minfree_iff] at this
    simpa using this
  · intro h
    refine lowmem_min_adj_none K P _ _ fun i hi => ?_
    have := h i hi
    rw [← below_minfree_iff] at this
    simpa using this
  · intro ha hb
    refine ⟨?_, ?_⟩
    · intro i hi h hfirst
      refine lowmem_min_adj_at K P _ _ i hi ((hnum i ha hb).2 h) fun j hj => ?_
      have := hfirst j hj
      rw [← hnum j ha hb] at this
      simpa using this
    · intro h
      refine lowmem_min_adj_none K P _ _ fun i hi => ?_
      have := h i hi
      rw [← hnum i ha hb] at this
      simpa using this

/-- C2, witness: the example of the file header.  With `adj = 0,8` and `minfree =
1024,4096`, free memory of 2000 pages (below 4096, not below 1024) gives `min_adj =
8`, free memory of 500 pages gives `min_adj = 0`, and 5000 pages give no threshold. -/
theorem lowmem_min_adj_first_both_below_witness :
    lowmem_min_adj linux (header_example linux) 2000 2000 = 8 ∧
    lowmem_min_adj linux (header_example linux) 500 500 = 0 ∧
    lowmem_min_adj linux (header_example linux) 5000 5000 = 15 + 1 :=
  ⟨((lowmem_min_adj_first_both_below linux (header_example linux) 2000 2000).2.2
      (by decide) (by decide)).1 1 (by decide) (by decide) (by decide),
    (lowmem_min_adj_first_both_below linux (header_example linux) 500 500).1 0
      (by decide) (by decide) (by decide),
    ((lowmem_min_adj_first_both_below linux (header_example linux) 5000 5000).2.2
      (by decide) (by decide)).2 (by
        intro i hi
        have hi2 : i < 2 := by
          have : array_size (header_example linux) = 2 := by decide
          omega
        interval_cases i <;> decide)⟩

/-- The C test at index `i` for non-negative counters, through the larger counter. -/
theorem below_minfree_iff_max (P : Params) (a b : Int) (i : Nat)
    (ha : 0 ≤ a ∧ a < 2147483648) (hb : 0 ≤ b ∧ b < 2147483648) :
    below_minfree P a b i = true ↔ max a b < (P.lowmem_minfree.getD i 0 : Int) := by
  rw [below_minfree_iff, int_lt_size_t_of_nonneg _ _ ha.1 ha.2,
    int_lt_size_t_of_nonneg _ _ hb.1 hb.2, max_lt_iff]

/-- C3 (as amended): the level classified is the larger of the two counters that
`lowmem_shrink` tests, `other_free` and `other_file`, both non-negative `int`s (both
must be below a floor for it to match); the counters are not added.  With the
compiled-in table (thresholds 0, 1, 6, 12, floors 1536, 2048, 4096, 16384, both sizes
4) a level of 1000 pages classifies to threshold 0, of 3000 pages to 6, and of 20000
pages to no threshold; for every table, a level below `lowmem_minfree[0]` gives
`lowmem_adj[0]` and a level at or above every floor gives no threshold. -/
theorem classification_examples (K : Kernel) (P : Params) (other_free other_file : Int)
    (hfree : 0 ≤ other_free ∧ other_free < 2147483648)
    (hfile : 0 ≤ other_file ∧ other_file < 2147483648) :
    (max other_free other_file = 1000 →
      lowmem_min_adj K (default_params K) other_free other_file = 0) ∧
    (max other_free other_file = 3000 →
      lowmem_min_adj K (default_params K) other_free other_file = 6) ∧
    (max other_free other_file = 20000 →
      lowmem_min_adj K (default_params K) other_free other_file = K.OOM_ADJUST_MAX + 1) ∧
    (0 < array_size P → max other_free other_file < (P.lowmem_minfree.getD 0 0 : Int) →
      lowmem_min_adj K P other_free other_file = P.lowmem_adj.getD 0 0) ∧
    ((∀ i : Nat, (i : Int) < array_size P →
        (P.lowmem_minfree.getD i 0 : Int) ≤ max other_free other_file) →
      lowmem_min_adj K P other_free other_file = K.OOM_ADJUST_MAX + 1) := by
  have hsize : array_size (default_params K) = 4 := by
    simp [array_size, default_params]
  have hfloor : ∀ i : Nat, (i : Int) < 4 →
      ((default_params K).lowmem_minfree.getD i 0 : Int) =
        if i = 0 then 1536 else if i = 1 then 2048 else if i = 2 then 4096 else 16384 := by
    intro i hi
    have : i < 4 := by omega
    interval_cases i <;> simp [default_params]
  refine ⟨?_, ?_, ?_, ?_, ?_⟩
  · intro h
    have := lowmem_min_adj_at K (default_params K) other_free other_file 0
      (by rw [hsize]; decide)
      ((below_minfree_iff_max _ _ _ 0 hfree hfile).2 (by rw [hfloor 0 (by decide), h]; decide))
      (fun j hj => by omega)
    simpa [default_params] using this
  · intro h
    have := lowmem_min_adj_at K (default_params K) other_free other_file 2
      (by rw [hsize]; decide)
      ((below_minfree_iff_max _ _ _ 2 hfree hfile).2 (by rw [hfloor 2 (by decide), h]; decide))
      (fun j hj => by
        have hj4 : (j : Int) < 4 := by omega
        have hn := below_minfree_iff_max (default_params K) other_free other_file j hfree hfile
        rw [hfloor j hj4, h] at hn
        have : ¬ below_minfree (default_params K) other_free other_file j = true := by
          rw [hn]
          interval_cases j <;> decide
        simpa using this)
    simpa [default_params] using this
  · intro h
    refine lowmem_min_adj_none K _ _ _ fun i hi => ?_
    rw [hsize] at hi
    have hn := below_minfree_iff_max (default_params K) other_free other_file i hfree hfile
    rw [hfloor i hi, h] at hn
    have : ¬ below_minfree (default_params K) other_free other_file i = true := by
      rw [hn]
      have : i < 4 := by omega
      interval_cases i <;> decide
    simpa using this
  · intro hpos h
    exact lowmem_min_adj_at K P other_free other_file 0 (by exact_mod_cast hpos)
      ((below_minfree_iff_max _ _ _ 0 hfree hfile).2 h) (fun j hj => by omega)
  · intro h
    refine lowmem_min_adj_none K P _ _ fun i hi => ?_
    have hn := below_minfree_iff_max P other_free other_file i hfree hfile
    have : ¬ below_minfree P other_free other_file i = true := by
      rw [hn]
      exact not_lt.mpr (h i hi)
    simpa using this

/-- C3, witness: the three examples with both counters at the stated level, and
with one counter at the level and the other lower. -/
theorem classification_examples_witness :
    lowmem_min_adj linux (default_params linux) 1000 1000 = 0 ∧
    lowmem_min_adj linux (default_params linux) 3000 3000 = 6 ∧
    lowmem_min_adj linux (default_params linux) 20000 20000 = 15 + 1 ∧
    lowmem_min_adj linux (default_params linux) 3000 100 = 6 ∧
    lowmem_min_adj linux (header_example linux) 1000 1000 = 0 ∧
    lowmem_min_adj linux (header_example linux) 4096 9000 = 15 + 1 :=
  ⟨(classification_examples linux (default_params linux) 1000 1000
      (by decide) (by decide)).1 (by decide),
    (classification_examples linux (default_params linux) 3000 3000
      (by decide) (by decide)).2.1 (by decide),
    (classification_examples linux (default_params linux) 20000 20000
      (by decide) (by decide)).2.2.1 (by decide),
    (classification_examples linux (default_params linux) 3000 100
      (by decide) (by decide)).2.1 (by decide),
    (classification_examples linux (header_example linux) 1000 1000
      (by decide) (by decide)).2.2.2.1 (by decide) (by decide),
    (classification_examples linux (header_example linux) 4096 9000
      (by decide) (by decide)).2.2.2.2 (by
        intro i hi
        have hi2 : i < 2 := by
          have : array_size (header_example linux) = 2 := by decide
          omega
        interval_cases i <;> decide)⟩

/-- C3, counterexample: with the compiled-in table and the estimate taken as the
specification's sum.  With 1500 free and 1500 file pages the estimate is 3000, which
classifies to threshold 6, while `lowmem_shrink` uses threshold 0 (both counters are
below 1536).  With 10000 of each the estimate is 20000, which classifies to no
threshold, while `lowmem_shrink` uses threshold 12 (both counters are below 16384)
and kills a process of `oom_adj` 12. -/
theorem summed_examples_counterexample :
    spec_free_estimate vm_1500_1500 = 3000 ∧
    spec_classify (default_params linux) (spec_free_estimate vm_1500_1500) = some 6 ∧
    lowmem_min_adj linux (default_params linux) (other_free vm_1500_1500)
      (other_file vm_1500_1500) = 0 ∧
    spec_free_estimate vm_10000_10000 = 20000 ∧
    spec_classify (default_params linux) (spec_free_estimate vm_10000_10000) = none ∧
    lowmem_min_adj linux (default_params linux) (other_free vm_10000_10000)
      (other_file vm_10000_10000) = 12 ∧
    (lowmem_shrink linux (default_params linux) state_idle call_sum_20000).force_sig = [1] := by
  decide

/-- C4: the number of table entries `lowmem_shrink` consults, `array_size`, is the
smaller of `lowmem_adj_size` and `lowmem_minfree_size`, clamped to the capacity 6;
two configurations with the same sizes that agree on every entry below that length
give the same threshold, whatever their entries at or beyond it. -/
theorem array_size_clamped (K : Kernel) (P Q : Params) (other_free other_file : Int) :
    array_size P = min (min P.lowmem_adj_size P.lowmem_minfree_size) 6 ∧
    (Q.lowmem_adj_size = P.lowmem_adj_size →
      Q.lowmem_minfree_size = P.lowmem_minfree_size →
      (∀ i : Nat, (i : Int) < array_size P →
        Q.lowmem_adj.getD i 0 = P.lowmem_adj.getD i 0 ∧
          Q.lowmem_minfree.getD i 0 = P.lowmem_minfree.getD i 0) →
      lowmem_min_adj K Q other_free other_file = lowmem_min_adj K P other_free other_file) := by
  refine ⟨array_size_eq P, ?_⟩
  intro h1 h2 h
  have hsz : array_size Q = array_size P := by simp [array_size, h1, h2]
  have hbelow : ∀ i : Nat, (i : Int) < array_size P →
      below_minfree Q other_free other_file i = below_minfree P other_free other_file i := by
    intro i hi
    unfold below_minfree
    rw [(h i hi).2]
  have hfirst : first_below Q other_free other_file (array_size Q).toNat 0 =
      first_below P other_free other_file (array_size P).toNat 0 := by
    rw [hsz]
    cases hP : first_below P other_free other_file (array_size P).toNat 0 with
    | none =>
      rw [first_below_none] at hP ⊢
      intro j hj1 hj2
      rw [hbelow j (by omega)]
      exact hP j hj1 hj2
    | some k =>
      rw [first_below_some] at hP ⊢
      obtain ⟨h1, h2, h3, h4⟩ := hP
      refine ⟨h1, h2, ?_, fun j hj1 hj2 => ?_⟩
      · rw [hbelow k (by omega)]; exact h3
      · rw [hbelow j (by omega)]; exact h4 j hj1 hj2
  unfold lowmem_min_adj
  rw [hfirst]
  cases hP : first_below P other_free other_file (array_size P).toNat 0 with
  | none => rfl
  | some k =>
    have := (first_below_some P other_free other_file _ 0 k).1 hP
    exact (h k (by omega)).1

/-- C4, witness: with sizes 2 and 4 only two entries are consulted; the compiled-in
table cut to two entries and a table with other entries from index 2 on classify
20000 free pages alike (no threshold), although the latter has a floor 30000 at
index 2. -/
theorem array_size_clamped_witness :
    array_size { default_params linux with lowmem_adj_size := 2 } = 2 ∧
    lowmem_min_adj linux
      { default_params linux with
        lowmem_adj_size := 2, lowmem_adj := [0, 1, 9, 9, 9, 9],
        lowmem_minfree := [1536, 2048, 30000, 30000, 30000, 30000] } 20000 20000 =
    lowmem_min_adj linux { default_params linux with lowmem_adj_size := 2 } 20000 20000 :=
  ⟨by decide,
    (array_size_clamped linux { default_params linux with lowmem_adj_size := 2 }
      { default_params linux with
        lowmem_adj_size := 2, lowmem_adj := [0, 1, 9, 9, 9, 9],
        lowmem_minfree := [1536, 2048, 30000, 30000, 30000, 30000] } 20000 20000).2
      rfl rfl (by
        intro i hi
        have hi2 : i < 2 := by
          have : array_size { default_params linux with lowmem_adj_size := 2 } = 2 := by
            decide
          omega
        interval_cases i <;> decide)⟩

/-! ## The process loop, basic mode -/

theorem candidate_eq_some (m : Int) (p : task_struct) (a z : Int) :
    candidate m p = some (a, z) ↔
      ∃ rss, p.mm = some rss ∧ p.signal = some a ∧ m ≤ a ∧ z = to_int rss ∧ 0 < z := by
  unfold candidate
  cases hmm : p.mm with
  | none => simp
  | some rss =>
    cases hsig : p.signal with
    | none => simp
    | some adj =>
      simp only
      split_ifs with h1 h2
      · simp; intros; omega
      · simp; intros; omega
      · simp only [Option.some.injEq, Prod.mk.injEq, exists_eq_left']
        constructor
        · intro h
          exact ⟨h.1, by omega, h.2.symm, by omega⟩
        · intro h
          exact ⟨h.1, h.2.2.1.symm⟩

/-- The invariant of the basic process loop over the processes seen so far:
nothing is held and nothing seen was a candidate, or the held process is a
candidate seen, recorded with its own values, which no candidate seen beats. -/
theorem scan_body_invariant (P : Params) (m : Int) (s : Selection)
    (seen : List task_struct) (p : task_struct)
    (h : (s.selected = none ∧ ∀ q ∈ seen, candidate m q = none) ∨
      (∃ v, s.selected = some v ∧ v ∈ seen ∧
        candidate m v = some (s.selected_oom_adj, s.selected_tasksize) ∧
        ∀ q ∈ seen, ∀ a z, candidate m q = some (a, z) →
          a < s.selected_oom_adj ∨ (a = s.selected_oom_adj ∧ z ≤ s.selected_tasksize))) :
    ((scan_body P m s p).selected = none ∧ ∀ q ∈ seen ++ [p], candidate m q = none) ∨
      (∃ v, (scan_body P m s p).selected = some v ∧ v ∈ seen ++ [p] ∧
        candidate m v =
          some ((scan_body P m s p).selected_oom_adj, (scan_body P m s p).selected_tasksize) ∧
        ∀ q ∈ seen ++ [p], ∀ a z, candidate m q = some (a, z) →
          a < (scan_body P m s p).selected_oom_adj ∨
            (a = (scan_body P m s p).selected_oom_adj ∧
              z ≤ (scan_body P m s p).selected_tasksize)) := by
  unfold scan_body
  cases hc : candidate m p with
  | none =>
    simp only
    rcases h with ⟨hs, hn⟩ | ⟨v, hv, hmem, hcv, hmax⟩
    · left
      refine ⟨hs, fun q hq => ?_⟩
      rcases List.mem_append.1 hq with hq | hq
      · exact hn q hq
      · rw [List.mem_singleton.1 hq]; exact hc
    · right
      refine ⟨v, hv, List.mem_append_left _ hmem, hcv, fun q hq a z hqc => ?_⟩
      rcases List.mem_append.1 hq with hq | hq
      · exact hmax q hq a z hqc
      · rw [List.mem_singleton.1 hq, hc] at hqc; cases hqc
  | some az =>
    obtain ⟨a0, z0⟩ := az
    simp only
    rcases h with ⟨hs, hn⟩ | ⟨v, hv, hmem, hcv, hmax⟩
    · right
      simp only [hs, Option.isSome_none, Bool.false_eq_true, false_and, if_false]
      refine ⟨p, rfl, List.mem_append_right _ (List.mem_singleton.2 rfl), hc,
        fun q hq a z hqc => ?_⟩
      rcases List.mem_append.1 hq with hq | hq
      · rw [hn q hq] at hqc; cases hqc
      · rw [List.mem_singleton.1 hq, hc] at hqc
        simp only [Option.some.injEq, Prod.mk.injEq] at hqc
        right; exact ⟨hqc.1.symm, by omega⟩
    · right
      simp only [hv, Option.isSome_some, true_and]
      split_ifs with h1 h2
      · refine ⟨v, hv, List.mem_append_left _ hmem, hcv, fun q hq a z hqc => ?_⟩
        rcases List.mem_append.1 hq with hq | hq
        · exact hmax q hq a z hqc
        · rw [List.mem_singleton.1 hq, hc] at hqc
          simp only [Option.some.injEq, Prod.mk.injEq] at hqc
          left; omega
      · refine ⟨v, hv, List.mem_append_left _ hmem, hcv, fun q hq a z hqc => ?_⟩
        rcases List.mem_append.1 hq with hq | hq
        · exact hmax q hq a z hqc
        · rw [List.mem_singleton.1 hq, hc] at hqc
          simp only [Option.some.injEq, Prod.mk.injEq] at hqc
          right; omega
      · refine ⟨p, rfl, List.mem_append_right _ (List.mem_singleton.2 rfl), hc,
          fun q hq a z hqc => ?_⟩
        rcases List.mem_append.1 hq with hq | hq
        · have := hmax q hq a z hqc
          simp only [not_and, not_le] at h2
          dsimp only
          omega
        · rw [List.mem_singleton.1 hq, hc] at hqc
          simp only [Option.some.injEq, Prod.mk.injEq] at hqc
          dsimp only
          right; omega

theorem scan_foldl_invariant (P : Params) (m : Int) (l : List task_struct) :
    ∀ (s : Selection) (seen : List task_struct),
      ((s.selected = none ∧ ∀ q ∈ seen, candidate m q = none) ∨
        (∃ v, s.selected = some v ∧ v ∈ seen ∧
          candidate m v = some (s.selected_oom_adj, s.selected_tasksize) ∧
          ∀ q ∈ seen, ∀ a z, candidate m q = some (a, z) →
            a < s.selected_oom_adj ∨ (a = s.selected_oom_adj ∧ z ≤ s.selected_tasksize))) →
      (((l.foldl (scan_body P m) s).selected = none ∧
          ∀ q ∈ seen ++ l, candidate m q = none) ∨
        (∃ v, (l.foldl (scan_body P m) s).selected = some v ∧ v ∈ seen ++ l ∧
          candidate m v = some ((l.foldl (scan_body P m) s).selected_oom_adj,
            (l.foldl (scan_body P m) s).selected_tasksize) ∧
          ∀ q ∈ seen ++ l, ∀ a z, candidate m q = some (a, z) →
            a < (l.foldl (scan_body P m) s).selected_oom_adj ∨
              (a = (l.foldl (scan_body P m) s).selected_oom_adj ∧
                z ≤ (l.foldl (scan_body P m) s).selected_tasksize))) := by
  induction l with
  | nil => intro s seen h; simpa using h
  | cons p l ih =>
    intro s seen h
    have := ih (scan_body P m s p) (seen ++ [p]) (scan_body_invariant P m s seen p h)
    simpa [List.foldl_cons, List.append_assoc] using this

/-- What the basic process loop holds at its end. -/
theorem scan_spec (P : Params) (m : Int) (log : List LogMsg) (tasks : List task_struct) :
    ((scan P m log tasks).selected = none ∧ ∀ q ∈ tasks, candidate m q = none) ∨
      (∃ v, (scan P m log tasks).selected = some v ∧ v ∈ tasks ∧
        candidate m v =
          some ((scan P m log tasks).selected_oom_adj, (scan P m log tasks).selected_tasksize) ∧
        ∀ q ∈ tasks, ∀ a z, candidate m q = some (a, z) →
          a < (scan P m log tasks).selected_oom_adj ∨
            (a = (scan P m log tasks).selected_oom_adj ∧
              z ≤ (scan P m log tasks).selected_tasksize)) := by
  have := scan_foldl_invariant P m tasks
    { selected := none, selected_tasksize := 0, selected_oom_adj := m, log := log } []
    (Or.inl ⟨rfl, fun q hq => by cases hq⟩)
  simpa [scan] using this

/-! ## lowmem_shrink past its early returns, basic mode -/

/-- Past the two early returns the result is determined by what the process loop
holds at its end. -/
theorem lowmem_shrink_scan_cases (K : Kernel) (P : Params) (st : State) (c : Call)
    (hblock : death_outstanding K st c.jiffies = false)
    (hscan : 0 < c.nr_to_scan)
    (hadj : lowmem_min_adj K P (other_free c.vm) (other_file c.vm) ≠ K.OOM_ADJUST_MAX + 1) :
    ∃ log,
      ((scan P (lowmem_min_adj K P (other_free c.vm) (other_file c.vm)) log c.tasks).selected
          = none ∧
        (lowmem_shrink K P st c).force_sig = [] ∧
        (lowmem_shrink K P st c).state =
          { st with s_reclaim := { st.s_reclaim with lmk_running := 0 } } ∧
        (lowmem_shrink K P st c).ret = lowmem_rem c.vm) ∨
      (∃ v,
        (scan P (lowmem_min_adj K P (other_free c.vm) (other_file c.vm)) log c.tasks).selected
          = some v ∧
        (lowmem_shrink K P st c).force_sig = [v.task] ∧
        (lowmem_shrink K P st c).state =
          { st with
            lowmem_deathpending := some v.task
            lowmem_deathpending_timeout := to_ulong ((c.jiffies : Int) + P.timeout)
            s_reclaim := { st.s_reclaim with lmk_running := 0 } } ∧
        (lowmem_shrink K P st c).ret =
          to_int (lowmem_rem c.vm -
            (scan P (lowmem_min_adj K P (other_free c.vm) (other_file c.vm)) log
              c.tasks).selected_tasksize)) := by
  have hnr : ¬ c.nr_to_scan ≤ 0 := by omega
  refine ⟨lowmem_print P 3 (.shrink c.nr_to_scan c.gfp_mask (other_free c.vm)
    (other_file c.vm) (lowmem_min_adj K P (other_free c.vm) (other_file c.vm))) [], ?_⟩
  unfold lowmem_shrink
  simp only [hblock, Bool.false_eq_true, if_false, hscan, gt_iff_lt, if_true, hnr, hadj,
    or_self]
  cases hsel : (scan P (lowmem_min_adj K P (other_free c.vm) (other_file c.vm))
    (lowmem_print P 3 (.shrink c.nr_to_scan c.gfp_mask (other_free c.vm)
      (other_file c.vm) (lowmem_min_adj K P (other_free c.vm) (other_file c.vm))) [])
    c.tasks).selected with
  | none => left; simp
  | some v => right; exact ⟨v, rfl, by simp⟩

/-- Past the two early returns with a candidate in the process list: the one task
`SIGKILL` is forced on, with what is recorded and returned. -/
theorem lowmem_shrink_victim (K : Kernel) (P : Params) (st : State) (c : Call)
    (hblock : death_outstanding K st c.jiffies = false)
    (hscan : 0 < c.nr_to_scan)
    (hadj : lowmem_min_adj K P (other_free c.vm) (other_file c.vm) ≠ K.OOM_ADJUST_MAX + 1)
    (hcand : ∃ p ∈ c.tasks,
      (candidate (lowmem_min_adj K P (other_free c.vm) (other_file c.vm)) p).isSome = true) :
    ∃ v ∈ c.tasks, ∃ adj size,
      candidate (lowmem_min_adj K P (other_free c.vm) (other_file c.vm)) v = some (adj, size) ∧
      (∀ q ∈ c.tasks, ∀ a z,
        candidate (lowmem_min_adj K P (other_free c.vm) (other_file c.vm)) q = some (a, z) →
          a < adj ∨ (a = adj ∧ z ≤ size)) ∧
      (lowmem_shrink K P st c).force_sig = [v.task] ∧
      (lowmem_shrink K P st c).state =
        { st with
          lowmem_deathpending := some v.task
          lowmem_deathpending_timeout := to_ulong ((c.jiffies : Int) + P.timeout)
          s_reclaim := { st.s_reclaim with lmk_running := 0 } } ∧
      (lowmem_shrink K P st c).ret = to_int (lowmem_rem c.vm - size) := by
  obtain ⟨log, h⟩ := lowmem_shrink_scan_cases K P st c hblock hscan hadj
  obtain ⟨p, hp, hpc⟩ := hcand
  rcases scan_spec P (lowmem_min_adj K P (other_free c.vm) (other_file c.vm)) log c.tasks
    with ⟨_, hnone⟩ | ⟨v, hv, hmem, hcv, hmax⟩
  · rw [hnone p hp] at hpc; cases hpc
  · rcases h with ⟨hsel, _⟩ | ⟨w, hw, hf, hs, hr⟩
    · rw [hsel] at hv; cases hv
    · have hwv : w = v := by rw [hw] at hv; exact Option.some.inj hv
      subst hwv
      exact ⟨w, hmem, _, _, hcv, hmax, hf, hs, hr⟩

/-! ## Claims about selection, basic mode -/

/-- C5: in basic mode, when the scan runs over a process list with at least one
eligible candidate (memory image and signal context present, `oom_adj >= min_adj`,
`tasksize > 0`), `SIGKILL` is forced on exactly one task, an eligible candidate whose
pair (`oom_adj`, `tasksize`) is lexicographically maximal among all eligible
candidates: no candidate has a higher `oom_adj`, and none with the same `oom_adj`
has a larger `tasksize`. -/
theorem basic_victim_lexicographic_max (K : Kernel) (P : Params) (st : State) (c : Call)
    (hblock : death_outstanding K st c.jiffies = false)
    (hscan : 0 < c.nr_to_scan)
    (hadj : lowmem_min_adj K P (other_free c.vm) (other_file c.vm) ≠ K.OOM_ADJUST_MAX + 1)
    (hcand : ∃ p ∈ c.tasks, ∃ rss adj, p.mm = some rss ∧ p.signal = some adj ∧
      lowmem_min_adj K P (other_free c.vm) (other_file c.vm) ≤ adj ∧ 0 < to_int rss) :
    ∃ v ∈ c.tasks, ∃ rss adj, v.mm = some rss ∧ v.signal = some adj ∧
      lowmem_min_adj K P (other_free c.vm) (other_file c.vm) ≤ adj ∧ 0 < to_int rss ∧
      (lowmem_shrink K P st c).force_sig = [v.task] ∧
      ∀ q ∈ c.tasks, ∀ r a, q.mm = some r → q.signal = some a →
        lowmem_min_adj K P (other_free c.vm) (other_file c.vm) ≤ a → 0 < to_int r →
        a < adj ∨ (a = adj ∧ to_int r ≤ to_int rss) := by
  obtain ⟨p, hp, rss0, adj0, h1, h2, h3, h4⟩ := hcand
  have hpc : (candidate (lowmem_min_adj K P (other_free c.vm) (other_file c.vm)) p).isSome
      = true := by
    rw [(candidate_eq_some _ p adj0 (to_int rss0)).2 ⟨rss0, h1, h2, h3, rfl, h4⟩]
    rfl
  obtain ⟨v, hmem, adj, size, hcv, hmax, hf, _, _⟩ :=
    lowmem_shrink_victim K P st c hblock hscan hadj ⟨p, hp, hpc⟩
  obtain ⟨rss, hv1, hv2, hv3, hv4, hv5⟩ := (candidate_eq_some _ v adj size).1 hcv
  rw [hv4] at hv5 hmax
  refine ⟨v, hmem, rss, adj, hv1, hv2, hv3, hv5, hf, fun q hq r a hq1 hq2 hq3 hq4 => ?_⟩
  exact hmax q hq a (to_int r) ((candidate_eq_some _ q a (to_int r)).2 ⟨r, hq1, hq2, hq3, rfl, hq4⟩)

/-- C5, witness: the two examples.  Candidates (5, 100) and (5, 200): the task of
size 200 is killed; candidates (5, 500) and (8, 10): the task of priority 8 is
killed.  The threshold is 0 in both. -/
theorem basic_victim_lexicographic_max_witness :
    (∃ v ∈ call_tie.tasks, ∃ rss adj,
      v.mm = some rss ∧ v.signal = some adj ∧
      lowmem_min_adj linux (default_params linux) (other_free call_tie.vm)
        (other_file call_tie.vm) ≤ adj ∧ 0 < to_int rss ∧
      (lowmem_shrink linux (default_params linux) state_idle call_tie).force_sig = [v.task] ∧
      ∀ q ∈ call_tie.tasks, ∀ r a,
        q.mm = some r → q.signal = some a →
        lowmem_min_adj linux (default_params linux) (other_free call_tie.vm)
          (other_file call_tie.vm) ≤ a → 0 < to_int r →
        a < adj ∨ (a = adj ∧ to_int r ≤ to_int rss)) ∧
    (lowmem_shrink linux (default_params linux) state_idle call_tie).force_sig = [2] ∧
    (lowmem_shrink linux (default_params linux) state_idle call_priority).force_sig = [2] ∧
    (lowmem_shrink linux (default_params linux) state_idle
      (call_pressure [task_of 2 5 200, task_of 1 5 100])).force_sig = [2] :=
  ⟨basic_victim_lexicographic_max linux (default_params linux) state_idle call_tie
      (by decide) (by decide) (by decide)
      ⟨task_of 1 5 100, List.mem_cons_self _ _, 100, 5, rfl, rfl, by decide, by decide⟩,
    by decide, by decide, by decide⟩

/-- C7: in basic mode, whenever the scan runs and there is an eligible candidate, so
that a victim `v` is selected: `SIGKILL` is forced on `v` and on no other task,
`lowmem_deathpending` becomes `v`, `lowmem_deathpending_timeout` becomes `jiffies +
timeout` (in `unsigned long` arithmetic) and the value returned is `rem -
tasksize(v)` (in `int` arithmetic), where `rem` is `NR_ACTIVE_ANON + NR_ACTIVE_FILE +
NR_INACTIVE_ANON + NR_INACTIVE_FILE` as an `int`; when nothing overflows these are the
plain sum and difference. -/
theorem basic_kill_effects (K : Kernel) (P : Params) (st : State) (c : Call)
    (hblock : death_outstanding K st c.jiffies = false)
    (hscan : 0 < c.nr_to_scan)
    (hadj : lowmem_min_adj K P (other_free c.vm) (other_file c.vm) ≠ K.OOM_ADJUST_MAX + 1)
    (hcand : ∃ p ∈ c.tasks, ∃ rss adj, p.mm = some rss ∧ p.signal = some adj ∧
      lowmem_min_adj K P (other_free c.vm) (other_file c.vm) ≤ adj ∧ 0 < to_int rss) :
    ∃ v ∈ c.tasks, ∃ rss, v.mm = some rss ∧
      (lowmem_shrink K P st c).force_sig = [v.task] ∧
      (lowmem_shrink K P st c).state.lowmem_deathpending = some v.task ∧
      (lowmem_shrink K P st c).state.lowmem_deathpending_timeout =
        to_ulong ((c.jiffies : Int) + P.timeout) ∧
      (c.jiffies + P.timeout < 4294967296 →
        (lowmem_shrink K P st c).state.lowmem_deathpending_timeout = c.jiffies + P.timeout) ∧
      (lowmem_shrink K P st c).ret =
        to_int (to_int ((c.vm.NR_ACTIVE_ANON : Int) + c.vm.NR_ACTIVE_FILE +
          c.vm.NR_INACTIVE_ANON + c.vm.NR_INACTIVE_FILE) - to_int rss) ∧
      (c.vm.NR_ACTIVE_ANON + c.vm.NR_ACTIVE_FILE + c.vm.NR_INACTIVE_ANON +
          c.vm.NR_INACTIVE_FILE < 2147483648 → rss < 2147483648 →
        (lowmem_shrink K P st c).ret =
          ((c.vm.NR_ACTIVE_ANON : Int) + c.vm.NR_ACTIVE_FILE + c.vm.NR_INACTIVE_ANON +
            c.vm.NR_INACTIVE_FILE) - rss) := by
  obtain ⟨p, hp, rss0, adj0, h1, h2, h3, h4⟩ := hcand
  have hpc : (candidate (lowmem_min_adj K P (other_free c.vm) (other_file c.vm)) p).isSome
      = true := by
    rw [(candidate_eq_some _ p adj0 (to_int rss0)).2 ⟨rss0, h1, h2, h3, rfl, h4⟩]
    rfl
  obtain ⟨v, hmem, adj, size, hcv, _, hf, hs, hr⟩ :=
    lowmem_shrink_victim K P st c hblock hscan hadj ⟨p, hp, hpc⟩
  obtain ⟨rss, hv1, _, _, hv4, _⟩ := (candidate_eq_some _ v adj size).1 hcv
  rw [hv4] at hr
  have hret : (lowmem_shrink K P st c).ret =
      to_int (to_int ((c.vm.NR_ACTIVE_ANON : Int) + c.vm.NR_ACTIVE_FILE +
        c.vm.NR_INACTIVE_ANON + c.vm.NR_INACTIVE_FILE) - to_int rss) := by
    rw [hr]; rfl
  refine ⟨v, hmem, rss, hv1, hf, by rw [hs], by rw [hs], ?_, hret, ?_⟩
  · intro hlt
    rw [hs]
    have := to_ulong_of_range ((c.jiffies : Int) + P.timeout) (by omega) (by omega)
    show to_ulong ((c.jiffies : Int) + P.timeout) = c.jiffies + P.timeout
    omega
  · intro hsum hrss
    rw [hret, to_int_of_range (rss : Int) (by omega) (by omega),
      to_int_of_range ((c.vm.NR_ACTIVE_ANON : Int) + c.vm.NR_ACTIVE_FILE +
        c.vm.NR_INACTIVE_ANON + c.vm.NR_INACTIVE_FILE) (by omega) (by omega),
      to_int_of_range _ (by omega) (by omega)]

/-- C7, witness: at time 5000 with `timeout = 100`, LRU lists of 10 + 20 + 30 + 40
pages and candidates (5, 30) and (8, 10), task 2 is killed and recorded, the
deadline is 5100 and the value returned is 100 - 10 = 90. -/
theorem basic_kill_effects_witness :
    (lowmem_shrink linux (default_params linux) state_idle
      call_kill).force_sig = [2] ∧
    (lowmem_shrink linux (default_params linux) state_idle
      call_kill).state.lowmem_deathpending = some 2 ∧
    (lowmem_shrink linux (default_params linux) state_idle
      call_kill).state.lowmem_deathpending_timeout
        = 5100 ∧
    (lowmem_shrink linux (default_params linux) state_idle
      call_kill).ret = 90 := by
  obtain ⟨v, hv, rss, hmm, hf, hdp, _, hto, _, hret⟩ :=
    basic_kill_effects linux (default_params linux) state_idle
      call_kill (by decide) (by decide) (by decide)
      ⟨task_of 1 5 30, List.mem_cons_self _ _, 30, 5, rfl, rfl, by decide, by decide⟩
  have h2 : (lowmem_shrink linux (default_params linux) state_idle
      call_kill).force_sig = [2] := by decide
  have hvt : v.task = 2 := by
    rw [h2] at hf
    exact (List.cons.inj hf).1.symm
  have hrss : rss = 10 := by
    simp only [call_kill, call_pressure, List.mem_cons, List.mem_singleton,
      List.not_mem_nil, or_false] at hv
    rcases hv with rfl | rfl
    · simp [task_of] at hvt
    · simp only [task_of, Option.some.injEq] at hmm; omega
  refine ⟨h2, by rw [hdp, hvt], hto (by decide), ?_⟩
  rw [hret (by decide) (by omega), hrss]
  decide

/-! ## The early returns -/

theorem lowmem_shrink_blocked (K : Kernel) (P : Params) (st : State) (c : Call)
    (h : death_outstanding K st c.jiffies = true) :
    lowmem_shrink K P st c =
      { ret := 0, state := st, force_sig := [], visited := [], lmk_running_writes := [],
        printk := [] } := by
  unfold lowmem_shrink
  simp only [h, if_true]

theorem lowmem_shrink_enhanced_blocked (K : Kernel) (P : Params) (st : EState) (c : Call)
    (h : death_outstanding_enhanced K st c.jiffies = true) :
    lowmem_shrink_enhanced K P st c =
      { ret := 0, state := st, force_sig := [], visited := [], lmk_running_writes := [],
        printk := [] } := by
  unfold lowmem_shrink_enhanced
  simp only [h, if_true]

theorem death_outstanding_iff (K : Kernel) (st : State) (jiffies : Nat) :
    death_outstanding K st jiffies = true ↔
      (st.lowmem_deathpending.isSome = true ∧
        K.time_before_eq jiffies st.lowmem_deathpending_timeout = true) := by
  simp [death_outstanding]

theorem death_outstanding_enhanced_iff (K : Kernel) (st : EState) (jiffies : Nat) :
    death_outstanding_enhanced K st jiffies = true ↔
      ((∃ i, i < LOWMEM_DEATHPENDING_DEPTH ∧
          (st.lowmem_deathpending.getD i none).isSome = true) ∧
        K.time_before_eq jiffies st.lowmem_deathpending_timeout = true) := by
  unfold death_outstanding_enhanced
  rw [List.any_eq_true]
  constructor
  · rintro ⟨i, hi, h⟩
    rw [Bool.and_eq_true] at h
    exact ⟨⟨i, List.mem_range.1 hi, h.1⟩, h.2⟩
  · rintro ⟨⟨i, hi, h⟩, ht⟩
    exact ⟨i, List.mem_range.2 hi, by rw [Bool.and_eq_true]; exact ⟨h, ht⟩⟩

theorem lowmem_shrink_early (K : Kernel) (P : Params) (st : State) (c : Call)
    (hblock : death_outstanding K st c.jiffies = false)
    (h : c.nr_to_scan = 0 ∨
      lowmem_min_adj K P (other_free c.vm) (other_file c.vm) = K.OOM_ADJUST_MAX + 1) :
    (lowmem_shrink K P st c).ret = lowmem_rem c.vm ∧
      (lowmem_shrink K P st c).state = st ∧
      (lowmem_shrink K P st c).force_sig = [] ∧
      (lowmem_shrink K P st c).visited = [] ∧
      (lowmem_shrink K P st c).lmk_running_writes = [] := by
  have h' : c.nr_to_scan ≤ 0 ∨
      lowmem_min_adj K P (other_free c.vm) (other_file c.vm) = K.OOM_ADJUST_MAX + 1 := by
    rcases h with h | h
    · left; omega
    · right; exact h
  unfold lowmem_shrink
  simp only [hblock, Bool.false_eq_true, if_false, h', if_true, and_self]

theorem lowmem_shrink_enhanced_early (K : Kernel) (P : Params) (st : EState) (c : Call)
    (hblock : death_outstanding_enhanced K st c.jiffies = false)
    (h : c.nr_to_scan = 0 ∨
      lowmem_min_adj K P (other_free c.vm) (other_file c.vm) = K.OOM_ADJUST_MAX + 1) :
    (lowmem_shrink_enhanced K P st c).ret = lowmem_rem c.vm ∧
      (lowmem_shrink_enhanced K P st c).state = st ∧
      (lowmem_shrink_enhanced K P st c).force_sig = [] ∧
      (lowmem_shrink_enhanced K P st c).visited = [] ∧
      (lowmem_shrink_enhanced K P st c).lmk_running_writes = [] := by
  have h' : c.nr_to_scan ≤ 0 ∨
      lowmem_min_adj K P (other_free c.vm) (other_file c.vm) = K.OOM_ADJUST_MAX + 1 := by
    rcases h with h | h
    · left; omega
    · right; exact h
  unfold lowmem_shrink_enhanced
  simp only [hblock, Bool.false_eq_true, if_false, h', if_true, and_self]

theorem lowmem_shrink_seq_blocked (K : Kernel) (st : State) (calls : List (Params × Call))
    (hocc : st.lowmem_deathpending.isSome = true)
    (htime : ∀ pc ∈ calls,
      K.time_before_eq pc.2.jiffies st.lowmem_deathpending_timeout = true) :
    lowmem_shrink_seq K st calls =
      List.replicate calls.length
        { ret := 0, state := st, force_sig := [], visited := [], lmk_running_writes := [],
          printk := [] } := by
  induction calls with
  | nil => rfl
  | cons pc rest ih =>
    obtain ⟨P, c⟩ := pc
    have hb : death_outstanding K st c.jiffies = true :=
      (death_outstanding_iff K st c.jiffies).2 ⟨hocc, htime (P, c) (List.mem_cons_self _ _)⟩
    have hrest := ih fun pc hpc => htime pc (List.mem_cons_of_mem _ hpc)
    simp only [lowmem_shrink_seq, lowmem_shrink_blocked K P st c hb, hrest,
      List.length_cons, List.replicate_succ]

theorem lowmem_shrink_enhanced_seq_blocked (K : Kernel) (st : EState)
    (calls : List (Params × Call))
    (hocc : ∃ i, i < LOWMEM_DEATHPENDING_DEPTH ∧
      (st.lowmem_deathpending.getD i none).isSome = true)
    (htime : ∀ pc ∈ calls,
      K.time_before_eq pc.2.jiffies st.lowmem_deathpending_timeout = true) :
    lowmem_shrink_enhanced_seq K st calls =
      List.replicate calls.length
        { ret := 0, state := st, force_sig := [], visited := [], lmk_running_writes := [],
          printk := [] } := by
  induction calls with
  | nil => rfl
  | cons pc rest ih =>
    obtain ⟨P, c⟩ := pc
    have hb : death_outstanding_enhanced K st c.jiffies = true :=
      (death_outstanding_enhanced_iff K st c.jiffies).2
        ⟨hocc, htime (P, c) (List.mem_cons_self _ _)⟩
    have hrest := ih fun pc hpc => htime pc (List.mem_cons_of_mem _ hpc)
    simp only [lowmem_shrink_enhanced_seq, lowmem_shrink_enhanced_blocked K P st c hb, hrest,
      List.length_cons, List.replicate_succ]

/-! ## Claims about the debounce check and the early return -/

/-- C8: debounce exclusivity.  If `lowmem_deathpending` is occupied (in the enhanced
build: any of the three slots) and `time_before_eq(jiffies, lowmem_deathpending_timeout)`
holds at every call, then in any sequence of calls, whatever the budgets, tables and
process lists, every call answers, forces `SIGKILL` on no task, visits no process,
writes no flag and leaves all static variables (slots, deadline, `lmk_running`)
as they were. -/
theorem debounce_exclusivity (K : Kernel) (st : State) (est : EState)
    (calls : List (Params × Call)) :
    (st.lowmem_deathpending.isSome = true →
      (∀ pc ∈ calls,
        K.time_before_eq pc.2.jiffies st.lowmem_deathpending_timeout = true) →
      (lowmem_shrink_seq K st calls).length = calls.length ∧
      ∀ r ∈ lowmem_shrink_seq K st calls,
        r.force_sig = [] ∧ r.state = st ∧ r.visited = [] ∧ r.lmk_running_writes = []) ∧
    ((∃ i, i < LOWMEM_DEATHPENDING_DEPTH ∧
        (est.lowmem_deathpending.getD i none).isSome = true) →
      (∀ pc ∈ calls,
        K.time_before_eq pc.2.jiffies est.lowmem_deathpending_timeout = true) →
      (lowmem_shrink_enhanced_seq K est calls).length = calls.length ∧
      ∀ r ∈ lowmem_shrink_enhanced_seq K est calls,
        r.force_sig = [] ∧ r.state = est ∧ r.visited = [] ∧ r.lmk_running_writes = []) := by
  constructor
  · intro hocc htime
    rw [lowmem_shrink_seq_blocked K st calls hocc htime]
    refine ⟨List.length_replicate _ _, fun r hr => ?_⟩
    rw [List.eq_of_mem_replicate hr]
    exact ⟨rfl, rfl, rfl, rfl⟩
  · intro hocc htime
    rw [lowmem_shrink_enhanced_seq_blocked K est calls hocc htime]
    refine ⟨List.length_replicate _ _, fun r hr => ?_⟩
    rw [List.eq_of_mem_replicate hr]
    exact ⟨rfl, rfl, rfl, rfl⟩

/-- C8, witness: with task 7 pending until time 6000, three calls at time 5000 (two
of which would otherwise kill) all leave the state alone and kill nothing, in both
builds. -/
theorem debounce_exclusivity_witness :
    ((lowmem_shrink_seq linux state_pending calls_during_debounce).length = 3 ∧
      ∀ r ∈ lowmem_shrink_seq linux state_pending calls_during_debounce,
        r.force_sig = [] ∧ r.state = state_pending ∧ r.visited = [] ∧
          r.lmk_running_writes = []) ∧
    ((lowmem_shrink_enhanced_seq linux estate_pending calls_during_debounce).length = 3 ∧
      ∀ r ∈ lowmem_shrink_enhanced_seq linux estate_pending calls_during_debounce,
        r.force_sig = [] ∧ r.state = estate_pending ∧ r.visited = [] ∧
          r.lmk_running_writes = []) ∧
    (lowmem_shrink linux (default_params linux) state_idle call_kill).force_sig = [2] :=
  ⟨(debounce_exclusivity linux state_pending estate_pending calls_during_debounce).1
      (by decide) (by decide),
    (debounce_exclusivity linux state_pending estate_pending calls_during_debounce).2
      ⟨1, by decide, by decide⟩ (by decide),
    by decide⟩

/-- C9 (as amended): a debounce-blocked call returns 0, whatever the page counters,
in both builds. -/
theorem debounce_blocked_returns_zero (K : Kernel) (P : Params) (st : State) (est : EState)
    (c : Call) :
    (st.lowmem_deathpending.isSome = true →
      K.time_before_eq c.jiffies st.lowmem_deathpending_timeout = true →
      (lowmem_shrink K P st c).ret = 0) ∧
    ((∃ i, i < LOWMEM_DEATHPENDING_DEPTH ∧
        (est.lowmem_deathpending.getD i none).isSome = true) →
      K.time_before_eq c.jiffies est.lowmem_deathpending_timeout = true →
      (lowmem_shrink_enhanced K P est c).ret = 0) := by
  constructor
  · intro hocc htime
    rw [lowmem_shrink_blocked K P st c ((death_outstanding_iff K st c.jiffies).2 ⟨hocc, htime⟩)]
  · intro hocc htime
    rw [lowmem_shrink_enhanced_blocked K P est c
      ((death_outstanding_enhanced_iff K est c.jiffies).2 ⟨hocc, htime⟩)]

/-- C9, witness: blocked calls in both builds return 0. -/
theorem debounce_blocked_returns_zero_witness :
    (lowmem_shrink linux (default_params linux) state_pending call_kill).ret = 0 ∧
    (lowmem_shrink_enhanced linux (default_params linux) estate_pending call_kill).ret = 0 :=
  ⟨(debounce_blocked_returns_zero linux (default_params linux) state_pending estate_pending
      call_kill).1 (by decide) (by decide),
    (debounce_blocked_returns_zero linux (default_params linux) state_pending estate_pending
      call_kill).2 ⟨1, by decide, by decide⟩ (by decide)⟩

/-- C9, counterexample: task 7 is pending until time 6000 and the call comes at time
5000, so the call is blocked; the LRU counters sum to 100, and the value returned
is 0, not 100. -/
theorem debounce_blocked_estimate_counterexample :
    state_pending.lowmem_deathpending = some 7 ∧
    linux.time_before_eq call_kill.jiffies state_pending.lowmem_deathpending_timeout = true ∧
    (call_kill.vm.NR_ACTIVE_ANON + call_kill.vm.NR_ACTIVE_FILE +
      call_kill.vm.NR_INACTIVE_ANON + call_kill.vm.NR_INACTIVE_FILE = 100) ∧
    lowmem_rem call_kill.vm = 100 ∧
    (lowmem_shrink linux (default_params linux) state_pending call_kill).ret = 0 := by
  decide

/-- C10: when the call is not debounce-blocked and either the budget `nr_to_scan` is
zero or no threshold applies (`min_adj` is `OOM_ADJUST_MAX + 1`), `lowmem_shrink`
returns `NR_ACTIVE_ANON + NR_ACTIVE_FILE + NR_INACTIVE_ANON + NR_INACTIVE_FILE` (as an
`int`; the plain sum when it fits), visits no process, forces `SIGKILL` on no task
and leaves every static variable as it was; so does the enhanced build. -/
theorem early_return_estimate (K : Kernel) (P : Params) (st : State) (est : EState)
    (c : Call)
    (h : c.nr_to_scan = 0 ∨
      lowmem_min_adj K P (other_free c.vm) (other_file c.vm) = K.OOM_ADJUST_MAX + 1) :
    (death_outstanding K st c.jiffies = false →
      (lowmem_shrink K P st c).ret =
        to_int ((c.vm.NR_ACTIVE_ANON : Int) + c.vm.NR_ACTIVE_FILE + c.vm.NR_INACTIVE_ANON +
          c.vm.NR_INACTIVE_FILE) ∧
      (c.vm.NR_ACTIVE_ANON + c.vm.NR_ACTIVE_FILE + c.vm.NR_INACTIVE_ANON +
          c.vm.NR_INACTIVE_FILE < 2147483648 →
        (lowmem_shrink K P st c).ret =
          (c.vm.NR_ACTIVE_ANON : Int) + c.vm.NR_ACTIVE_FILE + c.vm.NR_INACTIVE_ANON +
            c.vm.NR_INACTIVE_FILE) ∧
      (lowmem_shrink K P st c).visited = [] ∧
      (lowmem_shrink K P st c).force_sig = [] ∧
      (lowmem_shrink K P st c).state = st ∧
      (lowmem_shrink K P st c).lmk_running_writes = []) ∧
    (death_outstanding_enhanced K est c.jiffies = false →
      (lowmem_shrink_enhanced K P est c).ret =
        to_int ((c.vm.NR_ACTIVE_ANON : Int) + c.vm.NR_ACTIVE_FILE + c.vm.NR_INACTIVE_ANON +
          c.vm.NR_INACTIVE_FILE) ∧
      (c.vm.NR_ACTIVE_ANON + c.vm.NR_ACTIVE_FILE + c.vm.NR_INACTIVE_ANON +
          c.vm.NR_INACTIVE_FILE < 2147483648 →
        (lowmem_shrink_enhanced K P est c).ret =
          (c.vm.NR_ACTIVE_ANON : Int) + c.vm.NR_ACTIVE_FILE + c.vm.NR_INACTIVE_ANON +
            c.vm.NR_INACTIVE_FILE) ∧
      (lowmem_shrink_enhanced K P est c).visited = [] ∧
      (lowmem_shrink_enhanced K P est c).force_sig = [] ∧
      (lowmem_shrink_enhanced K P est c).state = est ∧
      (lowmem_shrink_enhanced K P est c).lmk_running_writes = []) := by
  constructor
  · intro hblock
    obtain ⟨h1, h2, h3, h4, h5⟩ := lowmem_shrink_early K P st c hblock h
    refine ⟨by rw [h1]; rfl, fun hsum => ?_, h4, h3, h2, h5⟩
    rw [h1]
    exact to_int_of_range _ (by omega) (by omega)
  · intro hblock
    obtain ⟨h1, h2, h3, h4, h5⟩ := lowmem_shrink_enhanced_early K P est c hblock h
    refine ⟨by rw [h1]; rfl, fun hsum => ?_, h4, h3, h2, h5⟩
    rw [h1]
    exact to_int_of_range _ (by omega) (by omega)

/-- C10, witness: a zero budget under pressure, and a positive budget with 20000
free pages (no threshold), both return 10 + 20 + 30 + 40 = 100 and change nothing,
although the process list holds candidates. -/
theorem early_return_estimate_witness :
    (lowmem_shrink linux (default_params linux) state_idle call_no_budget).ret = 100 ∧
    (lowmem_shrink linux (default_params linux) state_idle call_no_budget).state
      = state_idle ∧
    (lowmem_shrink linux (default_params linux) state_idle call_no_pressure).ret = 100 ∧
    (lowmem_shrink linux (default_params linux) state_idle call_no_pressure).force_sig = [] ∧
    (lowmem_shrink_enhanced linux (default_params linux) EState.init call_no_pressure).ret
      = 100 :=
  ⟨((early_return_estimate linux (default_params linux) state_idle EState.init call_no_budget
      (Or.inl rfl)).1 (by decide)).2.1 (by decide),
    ((early_return_estimate linux (default_params linux) state_idle EState.init call_no_budget
      (Or.inl rfl)).1 (by decide)).2.2.2.2.1,
    ((early_return_estimate linux (default_params linux) state_idle EState.init
      call_no_pressure (Or.inr (by decide))).1 (by decide)).2.1 (by decide),
    ((early_return_estimate linux (default_params linux) state_idle EState.init
      call_no_pressure (Or.inr (by decide))).1 (by decide)).2.2.2.1,
    ((early_return_estimate linux (default_params linux) state_idle EState.init
      call_no_pressure (Or.inr (by decide))).2 (by decide)).2.1 (by decide)⟩

/-! ## The process loop and the kill loop, enhanced build -/

theorem scan_body_enhanced_selected (P : Params) (m : Int) (s : ESelection) (p : task_struct)
    (x : Option task_struct) (hx : x ∈ (scan_body_enhanced P m s p).selected) :
    x ∈ s.selected ∨ (x = some p ∧ (candidate m p).isSome = true) := by
  unfold scan_body_enhanced at hx
  cases hc : candidate m p with
  | none =>
    rw [hc] at hx
    exact Or.inl hx
  | some az =>
    rw [hc] at hx
    simp only at hx
    split at hx
    · rcases List.mem_or_eq_of_mem_set hx with h | h
      · exact Or.inl h
      · exact Or.inr ⟨h, rfl⟩
    · exact Or.inl hx

theorem scan_enhanced_foldl_selected (P : Params) (m : Int) (l : List task_struct) :
    ∀ (s : ESelection) (x : Option task_struct),
      x ∈ (l.foldl (scan_body_enhanced P m) s).selected →
      x ∈ s.selected ∨ ∃ p ∈ l, x = some p ∧ (candidate m p).isSome = true := by
  induction l with
  | nil => intro s x hx; exact Or.inl hx
  | cons p l ih =>
    intro s x hx
    rcases ih (scan_body_enhanced P m s p) x hx with h | ⟨q, hq, h⟩
    · rcases scan_body_enhanced_selected P m s p x h with h | h
      · exact Or.inl h
      · exact Or.inr ⟨p, List.mem_cons_self _ _, h⟩
    · exact Or.inr ⟨q, List.mem_cons_of_mem _ hq, h⟩

theorem scan_enhanced_selected (P : Params) (m : Int) (log : List LogMsg)
    (tasks : List task_struct) (p : task_struct)
    (h : some p ∈ (scan_enhanced P m log tasks).selected) :
    p ∈ tasks ∧ (candidate m p).isSome = true := by
  rcases scan_enhanced_foldl_selected P m tasks _ (some p) h with h | ⟨q, hq, h1, h2⟩
  · simp at h
  · cases h1; exact ⟨hq, h2⟩

theorem kill_enhanced_foldl_force_sig (K : Kernel) (P : Params) (jiffies : Nat)
    (s : ESelection) (l : List Nat) :
    ∀ (k : EKill) (t : Nat), t ∈ (l.foldl (kill_body_enhanced K P jiffies s) k).force_sig →
      t ∈ k.force_sig ∨ ∃ p, some p ∈ s.selected ∧ p.task = t := by
  induction l with
  | nil => intro k t ht; exact Or.inl ht
  | cons i l ih =>
    intro k t ht
    rcases ih (kill_body_enhanced K P jiffies s k i) t ht with h | h
    · unfold kill_body_enhanced at h
      cases hsel : s.selected.getD i none with
      | none => rw [hsel] at h; exact Or.inl h
      | some p =>
        rw [hsel] at h
        simp only [List.mem_append, List.mem_singleton] at h
        rcases h with h | h
        · exact Or.inl h
        · refine Or.inr ⟨p, ?_, h.symm⟩
          rw [List.getD_eq_getElem?_getD] at hsel
          cases hget : s.selected[i]? with
          | none => rw [hget] at hsel; cases hsel
          | some y =>
            rw [hget] at hsel
            simp only [Option.getD_some] at hsel
            rw [← hsel]
            exact List.getElem?_mem hget
    · exact Or.inr h

theorem eligible_of_candidate (m : Int) (p : task_struct)
    (h : (candidate m p).isSome = true) :
    ∃ rss adj, p.mm = some rss ∧ p.signal = some adj ∧ m ≤ adj ∧ 0 < to_int rss ∧ 0 < rss := by
  cases hc : candidate m p with
  | none => rw [hc] at h; cases h
  | some az =>
    obtain ⟨a, z⟩ := az
    obtain ⟨rss, h1, h2, h3, h4, h5⟩ := (candidate_eq_some m p a z).1 hc
    rw [h4] at h5
    refine ⟨rss, a, h1, h2, h3, h5, ?_⟩
    unfold to_int at h5
    omega

/-- Past the two early returns the enhanced result is determined by the process
loop and the kill loop. -/
theorem lowmem_shrink_enhanced_scan_cases (K : Kernel) (P : Params) (st : EState) (c : Call)
    (hblock : death_outstanding_enhanced K st c.jiffies = false)
    (hscan : 0 < c.nr_to_scan)
    (hadj : lowmem_min_adj K P (other_free c.vm) (other_file c.vm) ≠ K.OOM_ADJUST_MAX + 1) :
    ∃ log,
      (lowmem_shrink_enhanced K P st c).force_sig =
        ((List.range LOWMEM_DEATHPENDING_DEPTH).foldl
          (kill_body_enhanced K P c.jiffies
            (scan_enhanced P (lowmem_min_adj K P (other_free c.vm) (other_file c.vm)) log
              c.tasks))
          { lowmem_deathpending := st.lowmem_deathpending
            lowmem_deathpending_timeout := st.lowmem_deathpending_timeout
            force_sig := []
            rem := lowmem_rem c.vm
            log := (scan_enhanced P (lowmem_min_adj K P (other_free c.vm) (other_file c.vm))
              log c.tasks).log }).force_sig := by
  have hnr : ¬ c.nr_to_scan ≤ 0 := by omega
  refine ⟨lowmem_print P 3 (.shrink c.nr_to_scan c.gfp_mask (other_free c.vm)
    (other_file c.vm) (lowmem_min_adj K P (other_free c.vm) (other_file c.vm))) [], ?_⟩
  unfold lowmem_shrink_enhanced
  simp only [hblock, Bool.false_eq_true, if_false, hscan, gt_iff_lt, if_true, hnr, hadj,
    or_self]

/-! ## Claim about the candidate filter -/

/-- C6: in both builds, every task `lowmem_shrink` forces `SIGKILL` on is a process
of the list that has a memory image (`mm`) and a signal context, whose `oom_adj` is
at least the classified threshold `min_adj`, and whose `tasksize` (`get_mm_rss` as an
`int`) is positive; so a process with `tasksize <= 0` or `oom_adj < min_adj` is never
selected. -/
theorem victims_are_eligible (K : Kernel) (P : Params) (st : State) (est : EState)
    (c : Call) (t : Nat) :
    (t ∈ (lowmem_shrink K P st c).force_sig →
      ∃ p ∈ c.tasks, p.task = t ∧ ∃ rss adj, p.mm = some rss ∧ p.signal = some adj ∧
        lowmem_min_adj K P (other_free c.vm) (other_file c.vm) ≤ adj ∧
        0 < to_int rss ∧ 0 < rss) ∧
    (t ∈ (lowmem_shrink_enhanced K P est c).force_sig →
      ∃ p ∈ c.tasks, p.task = t ∧ ∃ rss adj, p.mm = some rss ∧ p.signal = some adj ∧
        lowmem_min_adj K P (other_free c.vm) (other_file c.vm) ≤ adj ∧
        0 < to_int rss ∧ 0 < rss) := by
  constructor
  · intro ht
    by_cases hb : death_outstanding K st c.jiffies = true
    · rw [lowmem_shrink_blocked K P st c hb] at ht; cases ht
    · have hb' : death_outstanding K st c.jiffies = false := by simpa using hb
      by_cases he : c.nr_to_scan = 0 ∨
          lowmem_min_adj K P (other_free c.vm) (other_file c.vm) = K.OOM_ADJUST_MAX + 1
      · rw [(lowmem_shrink_early K P st c hb' he).2.2.1] at ht; cases ht
      · rw [not_or] at he
        obtain ⟨log, h⟩ := lowmem_shrink_scan_cases K P st c hb' (by omega) he.2
        rcases h with ⟨_, hf, _⟩ | ⟨v, hv, hf, _⟩
        · rw [hf] at ht; cases ht
        · rw [hf, List.mem_singleton] at ht
          rcases scan_spec P (lowmem_min_adj K P (other_free c.vm) (other_file c.vm)) log
            c.tasks with ⟨hnone, _⟩ | ⟨w, hw, hmem, hcw, _⟩
          · rw [hnone] at hv; cases hv
          · have hwv : w = v := by rw [hw] at hv; exact Option.some.inj hv
            rw [hwv] at hmem hcw
            exact ⟨v, hmem, ht.symm, eligible_of_candidate _ v (by rw [hcw]; rfl)⟩
  · intro ht
    by_cases hb : death_outstanding_enhanced K est c.jiffies = true
    · rw [lowmem_shrink_enhanced_blocked K P est c hb] at ht; cases ht
    · have hb' : death_outstanding_enhanced K est c.jiffies = false := by simpa using hb
      by_cases he : c.nr_to_scan = 0 ∨
          lowmem_min_adj K P (other_free c.vm) (other_file c.vm) = K.OOM_ADJUST_MAX + 1
      · rw [(lowmem_shrink_enhanced_early K P est c hb' he).2.2.1] at ht; cases ht
      · rw [not_or] at he
        obtain ⟨log, h⟩ := lowmem_shrink_enhanced_scan_cases K P est c hb' (by omega) he.2
        rw [h] at ht
        rcases kill_enhanced_foldl_force_sig K P c.jiffies _ _ _ t ht with h | ⟨p, hp, hpt⟩
        · cases h
        · obtain ⟨hmem, hc⟩ := scan_enhanced_selected P _ _ c.tasks p hp
          exact ⟨p, hmem, hpt, eligible_of_candidate _ p hc⟩

/-- C6, witness: in the basic build task 2 (priority 8, size 10) is killed, in the
enhanced build task 4 (priority 9, size 1) is among those killed; each is in the
list with a memory image, a signal context, priority at least the threshold and
positive size.  A process of priority 8 with no resident pages, one with no memory
image and one below the threshold are passed over. -/
theorem victims_are_eligible_witness :
    (∃ p ∈ call_kill.tasks, p.task = 2 ∧ ∃ rss adj, p.mm = some rss ∧ p.signal = some adj ∧
      lowmem_min_adj linux (default_params linux) (other_free call_kill.vm)
        (other_file call_kill.vm) ≤ adj ∧ 0 < to_int rss ∧ 0 < rss) ∧
    (∃ p ∈ call_four.tasks, p.task = 4 ∧ ∃ rss adj, p.mm = some rss ∧ p.signal = some adj ∧
      lowmem_min_adj linux (default_params linux) (other_free call_four.vm)
        (other_file call_four.vm) ≤ adj ∧ 0 < to_int rss ∧ 0 < rss) ∧
    (lowmem_shrink linux (default_params linux) state_idle
      (call_pressure [task_of 1 8 0, { task_of 3 9 50 with mm := none },
        { task_of 4 9 50 with signal := none }, task_of 2 5 10, task_of 5 (-1) 900])).force_sig
      = [2] :=
  ⟨(victims_are_eligible linux (default_params linux) state_idle EState.init call_kill 2).1
      (by decide),
    (victims_are_eligible linux (default_params linux) state_idle EState.init call_four 4).2
      (by decide),
    by decide⟩

/-! ## Claims about the exit notification and the debounce deadline -/

/-- C12: exit-notification idempotence, basic build.  For a handle that is not the
one held in `lowmem_deathpending`, `task_notify_func` changes nothing; for the held
handle it empties the slot and changes nothing else; a second call with the same
handle gives the state the first call gave; the deadline is never modified. -/
theorem task_notify_func_idempotent (st : State) (h : Option Nat) :
    (h ≠ st.lowmem_deathpending → task_notify_func st h = st) ∧
    (h = st.lowmem_deathpending →
      task_notify_func st h = { st with lowmem_deathpending := none }) ∧
    ((task_notify_func st h).lowmem_deathpending = none ∨
      ((task_notify_func st h).lowmem_deathpending = st.lowmem_deathpending ∧
        st.lowmem_deathpending ≠ h)) ∧
    task_notify_func (task_notify_func st h) h = task_notify_func st h ∧
    (task_notify_func st h).lowmem_deathpending_timeout = st.lowmem_deathpending_timeout ∧
    (task_notify_func st h).s_reclaim = st.s_reclaim ∧
    (task_notify_func st h).prev_jiffy = st.prev_jiffy := by
  unfold task_notify_func
  by_cases hh : h = st.lowmem_deathpending
  · subst hh
    simp
  · have hne : ¬ st.lowmem_deathpending = h := fun e => hh e.symm
    simp [hh, hne]

/-- C12, witness: with task 7 pending until time 6000, the exit of task 9 changes
nothing, the exit of task 7 empties the slot and keeps the deadline 6000, and a
second notification of task 7 changes nothing more. -/
theorem task_notify_func_idempotent_witness :
    task_notify_func state_pending (some 9) = state_pending ∧
    task_notify_func state_pending (some 7) =
      { state_pending with lowmem_deathpending := none } ∧
    (task_notify_func state_pending (some 7)).lowmem_deathpending_timeout = 6000 ∧
    task_notify_func (task_notify_func state_pending (some 7)) (some 7) =
      task_notify_func state_pending (some 7) :=
  ⟨(task_notify_func_idempotent state_pending (some 9)).1 (by decide),
    (task_notify_func_idempotent state_pending (some 7)).2.1 (by decide),
    (task_notify_func_idempotent state_pending (some 7)).2.2.2.2.1,
    (task_notify_func_idempotent state_pending (some 7)).2.2.2.1⟩

theorem lowmem_shrink_scan_visited (K : Kernel) (P : Params) (st : State) (c : Call)
    (hblock : death_outstanding K st c.jiffies = false)
    (hscan : 0 < c.nr_to_scan)
    (hadj : lowmem_min_adj K P (other_free c.vm) (other_file c.vm) ≠ K.OOM_ADJUST_MAX + 1) :
    (lowmem_shrink K P st c).visited = c.tasks.map (·.task) ∧
      (lowmem_shrink K P st c).lmk_running_writes = [1, 0] := by
  have hnr : ¬ c.nr_to_scan ≤ 0 := by omega
  unfold lowmem_shrink
  simp only [hblock, Bool.false_eq_true, if_false, hscan, gt_iff_lt, if_true, hnr, hadj,
    or_self]
  split <;> exact ⟨rfl, rfl⟩

/-- A kill records its victim in `lowmem_deathpending`. -/
theorem lowmem_shrink_records_victim (K : Kernel) (P : Params) (st : State) (c : Call)
    (v : Nat) (hkill : (lowmem_shrink K P st c).force_sig = [v]) :
    (lowmem_shrink K P st c).state.lowmem_deathpending = some v := by
  by_cases hb : death_outstanding K st c.jiffies = true
  · rw [lowmem_shrink_blocked K P st c hb] at hkill; cases hkill
  · have hb' : death_outstanding K st c.jiffies = false := by simpa using hb
    by_cases he : c.nr_to_scan = 0 ∨
        lowmem_min_adj K P (other_free c.vm) (other_file c.vm) = K.OOM_ADJUST_MAX + 1
    · rw [(lowmem_shrink_early K P st c hb' he).2.2.1] at hkill; cases hkill
    · rw [not_or] at he
      obtain ⟨log, h⟩ := lowmem_shrink_scan_cases K P st c hb' (by omega) he.2
      rcases h with ⟨_, hf, _⟩ | ⟨w, _, hf, hs, _⟩
      · rw [hf] at hkill; cases hkill
      · rw [hf] at hkill
        rw [hs, ← (List.cons.inj hkill).1]

/-- A call that gets past the early returns visits every process and, when there is
an eligible candidate, kills one process of the list. -/
theorem lowmem_shrink_scans (K : Kernel) (P : Params) (st : State) (c : Call)
    (hblock : death_outstanding K st c.jiffies = false)
    (hscan : 0 < c.nr_to_scan)
    (hadj : lowmem_min_adj K P (other_free c.vm) (other_file c.vm) ≠ K.OOM_ADJUST_MAX + 1) :
    (lowmem_shrink K P st c).visited = c.tasks.map (·.task) ∧
    ((∃ p ∈ c.tasks, ∃ rss adj, p.mm = some rss ∧ p.signal = some adj ∧
        lowmem_min_adj K P (other_free c.vm) (other_file c.vm) ≤ adj ∧ 0 < to_int rss) →
      ∃ w ∈ c.tasks, (lowmem_shrink K P st c).force_sig = [w.task]) := by
  refine ⟨(lowmem_shrink_scan_visited K P st c hblock hscan hadj).1, ?_⟩
  rintro ⟨p, hp, rss0, adj0, h1, h2, h3, h4⟩
  have hpc : (candidate (lowmem_min_adj K P (other_free c.vm) (other_file c.vm)) p).isSome
      = true := by
    rw [(candidate_eq_some _ p adj0 (to_int rss0)).2 ⟨rss0, h1, h2, h3, rfl, h4⟩]
    rfl
  obtain ⟨w, hmem, _, _, _, _, hf, _, _⟩ :=
    lowmem_shrink_victim K P st c hblock hscan hadj ⟨p, hp, hpc⟩
  exact ⟨w, hmem, hf⟩

/-- C13: a call is debounce-blocked exactly when a slot is occupied and
`time_before_eq(jiffies, lowmem_deathpending_timeout)` holds (both builds).  In the
basic build: after a kill of `v`, once `task_notify_func(v)` has run, a call with a
positive budget and an applicable threshold is not blocked, whatever the time, and
scans and selects as usual (it visits every process and kills a process when there
is an eligible candidate); and a call made when `time_before_eq` no longer holds is
not blocked either, although the slot is still occupied. -/
theorem blocked_iff_occupied_and_within_deadline (K : Kernel) (P Q : Params) (st : State)
    (est : EState) (c d : Call) (v : Nat) :
    (death_outstanding K st c.jiffies = true ↔
      (st.lowmem_deathpending.isSome = true ∧
        K.time_before_eq c.jiffies st.lowmem_deathpending_timeout = true)) ∧
    (death_outstanding_enhanced K est c.jiffies = true ↔
      ((∃ i, i < LOWMEM_DEATHPENDING_DEPTH ∧
          (est.lowmem_deathpending.getD i none).isSome = true) ∧
        K.time_before_eq c.jiffies est.lowmem_deathpending_timeout = true)) ∧
    ((lowmem_shrink K P st c).force_sig = [v] → 0 < d.nr_to_scan →
      lowmem_min_adj K Q (other_free d.vm) (other_file d.vm) ≠ K.OOM_ADJUST_MAX + 1 →
      death_outstanding K (task_notify_func (lowmem_shrink K P st c).state (some v)) d.jiffies
        = false ∧
      (lowmem_shrink K Q (task_notify_func (lowmem_shrink K P st c).state (some v)) d).visited
        = d.tasks.map (·.task) ∧
      ((∃ p ∈ d.tasks, ∃ rss adj, p.mm = some rss ∧ p.signal = some adj ∧
          lowmem_min_adj K Q (other_free d.vm) (other_file d.vm) ≤ adj ∧ 0 < to_int rss) →
        ∃ w ∈ d.tasks,
          (lowmem_shrink K Q (task_notify_func (lowmem_shrink K P st c).state (some v))
            d).force_sig = [w.task])) ∧
    (K.time_before_eq d.jiffies st.lowmem_deathpending_timeout = false → 0 < d.nr_to_scan →
      lowmem_min_adj K Q (other_free d.vm) (other_file d.vm) ≠ K.OOM_ADJUST_MAX + 1 →
      death_outstanding K st d.jiffies = false ∧
      (lowmem_shrink K Q st d).visited = d.tasks.map (·.task) ∧
      ((∃ p ∈ d.tasks, ∃ rss adj, p.mm = some rss ∧ p.signal = some adj ∧
          lowmem_min_adj K Q (other_free d.vm) (other_file d.vm) ≤ adj ∧ 0 < to_int rss) →
        ∃ w ∈ d.tasks, (lowmem_shrink K Q st d).force_sig = [w.task])) := by
  refine ⟨death_outstanding_iff K st c.jiffies, death_outstanding_enhanced_iff K est c.jiffies,
    ?_, ?_⟩
  · intro hkill hscan hadj
    have hrec := lowmem_shrink_records_victim K P st c v hkill
    have hempty :
        (task_notify_func (lowmem_shrink K P st c).state (some v)).lowmem_deathpending
          = none := by
      unfold task_notify_func
      simp [hrec]
    have hblock :
        death_outstanding K (task_notify_func (lowmem_shrink K P st c).state (some v))
          d.jiffies = false := by
      unfold death_outstanding
      rw [hempty]
      rfl
    exact ⟨hblock, lowmem_shrink_scans K Q _ d hblock hscan hadj⟩
  · intro htime hscan hadj
    have hblock : death_outstanding K st d.jiffies = false := by
      unfold death_outstanding
      rw [htime, Bool.and_false]
    exact ⟨hblock, lowmem_shrink_scans K Q st d hblock hscan hadj⟩

/-- C13, witness: task 2 is killed at time 5000 (deadline 5100) and its exit is
notified; a call at time 5050, still within the deadline, is not blocked and kills
task 1.  With task 7 pending until time 6000 and never notified, a call at time 7000
is not blocked and kills task 2; the same call at time 5000 is blocked. -/
theorem blocked_iff_occupied_and_within_deadline_witness :
    linux.time_before_eq call_again.jiffies
      (lowmem_shrink linux (default_params linux) state_idle
        call_kill).state.lowmem_deathpending_timeout = true ∧
    death_outstanding linux
      (task_notify_func (lowmem_shrink linux (default_params linux) state_idle call_kill).state
        (some 2)) call_again.jiffies = false ∧
    (lowmem_shrink linux (default_params linux)
      (task_notify_func (lowmem_shrink linux (default_params linux) state_idle call_kill).state
        (some 2)) call_again).force_sig = [1] ∧
    death_outstanding linux state_pending call_late.jiffies = false ∧
    (lowmem_shrink linux (default_params linux) state_pending call_late).force_sig = [2] ∧
    death_outstanding linux state_pending call_kill.jiffies = true :=
  ⟨by decide,
    ((blocked_iff_occupied_and_within_deadline linux (default_params linux)
      (default_params linux) state_idle EState.init call_kill call_again 2).2.2.1
      (by decide) (by decide) (by decide)).1,
    by decide,
    ((blocked_iff_occupied_and_within_deadline linux (default_params linux)
      (default_params linux) state_pending EState.init call_kill call_late 2).2.2.2
      (by decide) (by decide) (by decide)).1,
    by decide,
    (blocked_iff_occupied_and_within_deadline linux (default_params linux)
      (default_params linux) state_pending EState.init call_kill call_late 2).1.2
      ⟨by decide, by decide⟩⟩

/-- C14, the code at the failing input: in the enhanced build, task 2 is recorded in
slot 1 by a first scan and, the deadline having passed while it is still in the
process list, in slot 0 by a second scan; the slots then are `[2, 2, NULL]`.  When
task 2 exits, `task_notify_func` sets slot 0 to `NULL` and leaves the loop: slot 1
still holds task 2. -/
theorem task_notify_func_enhanced_first_slot_only :
    estate_two_killed.lowmem_deathpending = [some 1, some 2, none] ∧
    estate_one_left.lowmem_deathpending = [none, some 2, none] ∧
    estate_twice_held.lowmem_deathpending = [some 2, some 2, none] ∧
    (task_notify_func_enhanced estate_twice_held (some 2)).lowmem_deathpending
      = [none, some 2, none] := by
  decide

/-- C15, the code at the failing input: with the `timeout` parameter set to 500 and
`HZ = 100`, a scan at time 5000 that kills sets the deadline to 5100 in the enhanced
build (`jiffies + HZ`), where the basic build sets 5500 (`jiffies + timeout`). -/
theorem enhanced_deadline_ignores_timeout :
    params_timeout_500.timeout = 500 ∧
    (lowmem_shrink_enhanced linux params_timeout_500 EState.init call_kill).force_sig
      = [1, 2] ∧
    (lowmem_shrink_enhanced linux params_timeout_500 EState.init
      call_kill).state.lowmem_deathpending_timeout = 5100 ∧
    (lowmem_shrink linux params_timeout_500 state_idle
      call_kill).state.lowmem_deathpending_timeout = 5500 := by
  decide

/-! ## Claims about the soft-reclaim trigger, gate and worker -/

/-- For a non-negative `long` the C comparison with a `uint32_t` is the numeric
one. -/
theorem long_lt_uint_of_nonneg (a : Int) (b : Nat) (h0 : 0 ≤ a) (h1 : a < 2147483648) :
    long_lt_uint a b = true ↔ a < (b : Int) := by
  have := to_ulong_of_range a h0 (by omega)
  simp only [long_lt_uint, decide_eq_true_eq]
  omega

/-- C16 (as amended): on an input from which `sscanf` converts both numbers, `value`
and `proof`, `rtcc_trigger_store` sets `need_to_reclaim` to 1 (and prints nothing) if
`value >= 0` and `value * value - 1`, computed in 32-bit `long` arithmetic, which
wraps modulo 2^32, equals `proof`, and otherwise leaves every static variable as it
was (and prints the warning).  Whenever `value * value - 1` fits a `long` the test is
the plain `value * value - 1 == proof`. -/
theorem rtcc_trigger_store_valid_iff (sscanf : String → List Int) (st : State)
    (val0 magic_sign0 : Int) (buf : String) (count : Nat) (value proof : Int)
    (hparse : sscanf buf = [value, proof]) :
    (0 ≤ value ∧ to_int (value * value - 1) = proof →
      (rtcc_trigger_store sscanf st val0 magic_sign0 buf count).state = need_soft_reclaim st ∧
      (rtcc_trigger_store sscanf st val0 magic_sign0 buf count).state.s_reclaim.need_to_reclaim
        = 1 ∧
      (rtcc_trigger_store sscanf st val0 magic_sign0 buf count).pr_warning = false) ∧
    (¬ (0 ≤ value ∧ to_int (value * value - 1) = proof) →
      (rtcc_trigger_store sscanf st val0 magic_sign0 buf count).state = st ∧
      (rtcc_trigger_store sscanf st val0 magic_sign0 buf count).pr_warning = true) ∧
    (value * value - 1 < 2147483648 →
      ((0 ≤ value ∧ to_int (value * value - 1) = proof) ↔
        (0 ≤ value ∧ value * value - 1 = proof))) := by
  have hval : (sscanf buf).getD 0 val0 = value := by rw [hparse]; rfl
  have hmag : (sscanf buf).getD 1 magic_sign0 = proof := by rw [hparse]; rfl
  refine ⟨?_, ?_, ?_⟩
  · rintro ⟨h0, h1⟩
    have hcond : ¬ (value < 0 ∨ to_int (to_int (value * value) - 1) ≠ proof) := by
      rw [to_int_sub_to_int]
      simp only [not_or, not_lt, ne_eq, not_not]
      exact ⟨h0, h1⟩
    unfold rtcc_trigger_store
    rw [hval, hmag, if_neg hcond]
    exact ⟨rfl, rfl, rfl⟩
  · intro h
    have hcond : value < 0 ∨ to_int (to_int (value * value) - 1) ≠ proof := by
      rw [to_int_sub_to_int]
      by_cases h0 : 0 ≤ value
      · right
        intro h1
        exact h ⟨h0, h1⟩
      · left; omega
    unfold rtcc_trigger_store
    rw [hval, hmag, if_pos hcond]
    exact ⟨rfl, rfl⟩
  · intro hfit
    have hsq : 0 ≤ value * value := mul_self_nonneg value
    rw [to_int_of_range (value * value - 1) (by omega) hfit]

/-- C16, witness: "4,15" sets the flag; "4,16" is rejected and leaves the state, with
the flag clear or set, as it was. -/
theorem rtcc_trigger_store_valid_iff_witness :
    sscanf_ld_ld "4,15" = [4, 15] ∧
    (rtcc_trigger_store sscanf_ld_ld state_idle 0 0 "4,15" 4).state.s_reclaim.need_to_reclaim
      = 1 ∧
    (rtcc_trigger_store sscanf_ld_ld state_idle 0 0 "4,16" 4).state = state_idle ∧
    (rtcc_trigger_store sscanf_ld_ld state_requested 0 0 "4,16" 4).state = state_requested :=
  ⟨by decide,
    ((rtcc_trigger_store_valid_iff sscanf_ld_ld state_idle 0 0 "4,15" 4 4 15 (by decide)).1
      (by decide)).2.1,
    ((rtcc_trigger_store_valid_iff sscanf_ld_ld state_idle 0 0 "4,16" 4 4 16 (by decide)).2.1
      (by decide)).1,
    ((rtcc_trigger_store_valid_iff sscanf_ld_ld state_requested 0 0 "4,16" 4 4 16
      (by decide)).2.1 (by decide)).1⟩

/-- C16, counterexample: the input "65536,-1" is converted to the values 65536 and
-1; `65536 * 65536 - 1` is 4294967295, not -1, yet the product wraps to 0 in `long`
arithmetic, the test passes, and `need_to_reclaim` is set without a warning. -/
theorem rtcc_trigger_store_wrapped_counterexample :
    sscanf_ld_ld "65536,-1" = [65536, -1] ∧
    (65536 : Int) * 65536 - 1 = 4294967295 ∧
    ¬ ((0 : Int) ≤ 65536 ∧ (65536 : Int) * 65536 - 1 = -1) ∧
    state_idle.s_reclaim.need_to_reclaim = 0 ∧
    (rtcc_trigger_store sscanf_ld_ld state_idle 0 0 "65536,-1" 8).state.s_reclaim.need_to_reclaim
      = 1 ∧
    (rtcc_trigger_store sscanf_ld_ld state_idle 0 0 "65536,-1" 8).pr_warning = false := by
  decide

/-- C17, the code at the failing input: the result of `sscanf` is not looked at.  For
the buffer "4", which lacks the second number, `magic_sign` keeps what the stack
held; when that is 15 the check passes and the flag is set.  For the empty buffer
both locals keep what the stack held, and 4 and 15 pass as well. -/
theorem rtcc_trigger_store_accepts_malformed :
    sscanf_ld_ld "4" = [4] ∧
    state_idle.s_reclaim.need_to_reclaim = 0 ∧
    (rtcc_trigger_store sscanf_ld_ld state_idle 0 15 "4" 1).state.s_reclaim.need_to_reclaim
      = 1 ∧
    (rtcc_trigger_store sscanf_ld_ld state_idle 0 15 "4" 1).pr_warning = false ∧
    sscanf_ld_ld "" = [] ∧
    (rtcc_trigger_store sscanf_ld_ld state_idle 4 15 "" 0).state.s_reclaim.need_to_reclaim
      = 1 ∧
    sscanf_ld_ld "abc" = [] ∧
    (rtcc_trigger_store sscanf_ld_ld state_idle 4 15 "abc" 3).state.s_reclaim.need_to_reclaim
      = 1 := by
  decide

theorem could_cswap_not_requested (time_before : Nat → Nat → Bool) (S : SoftParams)
    (st : State) (e : Idle) (h : st.s_reclaim.need_to_reclaim = 0) :
    could_cswap time_before S st e = { state := st, wake_up_process := false } := by
  unfold could_cswap
  simp only [h, if_true]

theorem could_cswap_seq_not_requested (time_before : Nat → Nat → Bool) (S : SoftParams)
    (st : State) (idles : List Idle) (h : st.s_reclaim.need_to_reclaim = 0) :
    could_cswap_seq time_before S st idles =
      List.replicate idles.length { state := st, wake_up_process := false } := by
  induction idles with
  | nil => rfl
  | cons e rest ih =>
    simp only [could_cswap_seq, could_cswap_not_requested time_before S st e h, ih,
      List.length_cons, List.replicate_succ]

/-- C18: reclaim effectiveness gating.  If a pass of the worker entered with
`kcompcached_running = 1` obtains `rtcc_reclaim_pages(number_of_reclaim_pages) <
minimum_reclaim_pages` (the C comparison, with the `long` converted to unsigned; the
numeric one for a non-negative result), then afterwards `need_to_reclaim` is 0, and
in any sequence of `could_cswap` calls that follows, whatever the time, load, swap
state and parameters, every call wakes nothing and leaves all static variables as
they were. -/
theorem ineffective_reclaim_closes_gate (S T : SoftParams) (rtcc_reclaim_pages : Int → Int)
    (time_before : Nat → Nat → Bool) (st : State) (idles : List Idle)
    (hrun : st.s_reclaim.kcompcached_running = 1)
    (hlow : long_lt_uint (rtcc_reclaim_pages (to_int S.number_of_reclaim_pages))
      S.minimum_reclaim_pages = true) :
    (do_compcache S rtcc_reclaim_pages false st).state.s_reclaim.need_to_reclaim = 0 ∧
    (could_cswap_seq time_before T (do_compcache S rtcc_reclaim_pages false st).state
      idles).length = idles.length ∧
    ∀ r ∈ could_cswap_seq time_before T (do_compcache S rtcc_reclaim_pages false st).state
        idles,
      r.wake_up_process = false ∧
        r.state = (do_compcache S rtcc_reclaim_pages false st).state := by
  have hflag :
      (do_compcache S rtcc_reclaim_pages false st).state.s_reclaim.need_to_reclaim = 0 := by
    unfold do_compcache
    simp only [Bool.false_eq_true, if_false, hrun, if_true, hlow]
    rfl
  refine ⟨hflag, ?_, ?_⟩
  · rw [could_cswap_seq_not_requested time_before T _ idles hflag]
    exact List.length_replicate _ _
  · intro r hr
    rw [could_cswap_seq_not_requested time_before T _ idles hflag] at hr
    rw [List.eq_of_mem_replicate hr]
    exact ⟨rfl, rfl⟩

/-- C18, witness: the worker runs and reclaims 100 pages, fewer than the minimum of
256; the flag is cleared and two idle moments that would otherwise open the gate
wake nothing.  Before the attempt the same idle moment wakes the worker, and so it
does again once `need_soft_reclaim` has set the flag. -/
theorem ineffective_reclaim_closes_gate_witness :
    (do_compcache (default_soft_params linux) reclaims_100 false
      state_worker_running).state.s_reclaim.need_to_reclaim = 0 ∧
    (∀ r ∈ could_cswap_seq jiffies_before (default_soft_params linux)
        (do_compcache (default_soft_params linux) reclaims_100 false
          state_worker_running).state [idle_moment, idle_at_equality],
      r.wake_up_process = false ∧
        r.state = (do_compcache (default_soft_params linux) reclaims_100 false
          state_worker_running).state) ∧
    (could_cswap jiffies_before (default_soft_params linux) state_requested
      idle_moment).wake_up_process = true ∧
    (could_cswap jiffies_before (default_soft_params linux)
      (need_soft_reclaim (do_compcache (default_soft_params linux) reclaims_100 false
        state_worker_running).state) idle_moment).wake_up_process = true :=
  ⟨(ineffective_reclaim_closes_gate (default_soft_params linux) (default_soft_params linux)
      reclaims_100 jiffies_before state_worker_running [idle_moment, idle_at_equality]
      (by decide) (by decide)).1,
    (ineffective_reclaim_closes_gate (default_soft_params linux) (default_soft_params linux)
      reclaims_100 jiffies_before state_worker_running [idle_moment, idle_at_equality]
      (by decide) (by decide)).2.2,
    by decide, by decide⟩

/-- When `could_cswap` wakes the worker, every test on its way was passed. -/
theorem could_cswap_wake_conditions (time_before : Nat → Nat → Bool) (S : SoftParams)
    (st : State) (e : Idle)
    (h : (could_cswap time_before S st e).wake_up_process = true) :
    st.s_reclaim.need_to_reclaim ≠ 0 ∧
    time_before e.jiffies (to_ulong ((st.prev_jiffy : Int) + S.minimum_interval_time))
      = false ∧
    st.s_reclaim.lmk_running ≠ 1 ∧ e.kswapd_thread_on ≠ 1 ∧
    long_lt_uint e.nr_swap_pages S.minimum_freeswap_pages = false ∧
    e.idle_cpu = true ∧ e.this_cpu_loadx = 0 ∧
    st.s_reclaim.kcompcached_running = 0 := by
  unfold could_cswap at h
  split_ifs at h with h1 h2 h3 h4 h5 h6
  exact ⟨h1, by simpa using h2, fun h' => h3 (Or.inl h'), fun h' => h3 (Or.inr h'),
    by simpa using h4, h5.1, h5.2, h6⟩

/-- When every test is passed, `could_cswap` wakes the worker. -/
theorem could_cswap_wakes (time_before : Nat → Nat → Bool) (S : SoftParams)
    (st : State) (e : Idle)
    (h1 : st.s_reclaim.need_to_reclaim ≠ 0)
    (h2 : time_before e.jiffies (to_ulong ((st.prev_jiffy : Int) + S.minimum_interval_time))
      = false)
    (h3 : st.s_reclaim.lmk_running ≠ 1) (h4 : e.kswapd_thread_on ≠ 1)
    (h5 : long_lt_uint e.nr_swap_pages S.minimum_freeswap_pages = false)
    (h6 : e.idle_cpu = true) (h7 : e.this_cpu_loadx = 0)
    (h8 : st.s_reclaim.kcompcached_running = 0) :
    (could_cswap time_before S st e).wake_up_process = true := by
  unfold could_cswap
  simp [h1, h2, h3, h4, h5, h6, h7, h8]

/-- C19: the soft-reclaim gate.  `could_cswap` wakes the worker only if
`need_to_reclaim` is set, `lmk_running` is not 1, `kswapd_thread_on` is not 1, the
processor is idle with a load reading of zero, and `kcompcached_running` is 0; if
any one of these fails, no wake occurs. -/
theorem soft_reclaim_gate (time_before : Nat → Nat → Bool) (S : SoftParams) (st : State)
    (e : Idle) :
    ((could_cswap time_before S st e).wake_up_process = true →
      st.s_reclaim.need_to_reclaim ≠ 0 ∧ st.s_reclaim.lmk_running ≠ 1 ∧
      e.kswapd_thread_on ≠ 1 ∧ e.idle_cpu = true ∧ e.this_cpu_loadx = 0 ∧
      st.s_reclaim.kcompcached_running = 0) ∧
    ((st.s_reclaim.need_to_reclaim = 0 ∨ st.s_reclaim.lmk_running = 1 ∨
        e.kswapd_thread_on = 1 ∨ e.idle_cpu = false ∨ e.this_cpu_loadx ≠ 0 ∨
        st.s_reclaim.kcompcached_running ≠ 0) →
      (could_cswap time_before S st e).wake_up_process = false) := by
  constructor
  · intro h
    obtain ⟨h1, _, h3, h4, _, h6, h7, h8⟩ := could_cswap_wake_conditions time_before S st e h
    exact ⟨h1, h3, h4, h6, h7, h8⟩
  · intro h
    by_contra hw
    have hw' : (could_cswap time_before S st e).wake_up_process = true := by simpa using hw
    obtain ⟨h1, _, h3, h4, _, h6, h7, h8⟩ := could_cswap_wake_conditions time_before S st e hw'
    rcases h with h | h | h | h | h | h
    · exact h1 h
    · exact h3 h
    · exact h4 h
    · rw [h6] at h; cases h
    · exact h h7
    · exact h h8

/-- C19, witness: with the flag set and nothing running, an idle moment wakes the
worker; with the selector running, with `kswapd` active, with a busy processor, with
a non-zero load, with the worker already running or with the flag clear it does
not. -/
theorem soft_reclaim_gate_witness :
    (could_cswap jiffies_before (default_soft_params linux) state_requested
      idle_moment).wake_up_process = true ∧
    (state_requested.s_reclaim.need_to_reclaim ≠ 0 ∧ state_requested.s_reclaim.lmk_running ≠ 1 ∧
      idle_moment.kswapd_thread_on ≠ 1 ∧ idle_moment.idle_cpu = true ∧
      idle_moment.this_cpu_loadx = 0 ∧ state_requested.s_reclaim.kcompcached_running = 0) ∧
    (could_cswap jiffies_before (default_soft_params linux)
      { state_requested with
        s_reclaim := { state_requested.s_reclaim with lmk_running := 1 } }
      idle_moment).wake_up_process = false ∧
    (could_cswap jiffies_before (default_soft_params linux) state_requested
      { idle_moment with kswapd_thread_on := 1 }).wake_up_process = false ∧
    (could_cswap jiffies_before (default_soft_params linux) state_requested
      { idle_moment with idle_cpu := false }).wake_up_process = false ∧
    (could_cswap jiffies_before (default_soft_params linux) state_requested
      { idle_moment with this_cpu_loadx := 3 }).wake_up_process = false ∧
    (could_cswap jiffies_before (default_soft_params linux) state_worker_running
      idle_moment).wake_up_process = false ∧
    (could_cswap jiffies_before (default_soft_params linux) state_idle
      idle_moment).wake_up_process = false :=
  ⟨by decide,
    (soft_reclaim_gate jiffies_before (default_soft_params linux) state_requested
      idle_moment).1 (by decide),
    (soft_reclaim_gate jiffies_before (default_soft_params linux) _ idle_moment).2
      (Or.inr (Or.inl rfl)),
    (soft_reclaim_gate jiffies_before (default_soft_params linux) state_requested _).2
      (Or.inr (Or.inr (Or.inl rfl))),
    (soft_reclaim_gate jiffies_before (default_soft_params linux) state_requested _).2
      (Or.inr (Or.inr (Or.inr (Or.inl rfl)))),
    (soft_reclaim_gate jiffies_before (default_soft_params linux) state_requested _).2
      (Or.inr (Or.inr (Or.inr (Or.inr (Or.inl (by decide)))))),
    (soft_reclaim_gate jiffies_before (default_soft_params linux) state_worker_running
      idle_moment).2 (Or.inr (Or.inr (Or.inr (Or.inr (Or.inr (by decide)))))),
    (soft_reclaim_gate jiffies_before (default_soft_params linux) state_idle idle_moment).2
      (Or.inl rfl)⟩

/-- The comparison of line 344 fails exactly when `minimum_freeswap_pages` is at most
`nr_swap_pages` taken modulo 2^32. -/
theorem long_lt_uint_eq_false_iff (a : Int) (b : Nat) :
    long_lt_uint a b = false ↔ (b : Int) ≤ a % 4294967296 := by
  unfold long_lt_uint to_ulong
  simp only [decide_eq_false_iff_not, not_lt]
  omega

/-- The usual `time_before` fails exactly when the distance, modulo 2^32, is below
2^31. -/
theorem jiffies_before_eq_false_iff (a : Nat) (b : Int) :
    jiffies_before a (to_ulong b) = false ↔
      ((a : Int) - b) % 4294967296 < 2147483648 := by
  unfold jiffies_before to_ulong to_int
  simp only [decide_eq_false_iff_not, not_lt]
  omega

/-- C20 (as amended): the numeric conditions of the gate are not strict, and they
are the code's 32-bit comparisons.  `could_cswap` wakes the worker only if `jiffies` is
not before `prev_jiffy + minimum_interval_time` and `nr_swap_pages`, converted to
`unsigned long`, is not below `minimum_freeswap_pages`, that is
`nr_swap_pages mod 2^32 >= minimum_freeswap_pages`; for a non-negative count this is
`nr_swap_pages >= minimum_freeswap_pages`.  With the usual `time_before`, not before
is `(jiffies - prev_jiffy - minimum_interval_time) mod 2^32 < 2^31`; when `jiffies`
and `prev_jiffy + minimum_interval_time` are both below 2^31 this is
`jiffies - prev_jiffy >= minimum_interval_time`.  When these two conditions hold,
also with equality, and the other conditions of the gate hold, the worker is
woken. -/
theorem gate_numeric_conditions (time_before : Nat → Nat → Bool) (S : SoftParams)
    (st : State) (e : Idle) :
    ((could_cswap time_before S st e).wake_up_process = true →
      time_before e.jiffies (to_ulong ((st.prev_jiffy : Int) + S.minimum_interval_time))
        = false ∧
      long_lt_uint e.nr_swap_pages S.minimum_freeswap_pages = false ∧
      (S.minimum_freeswap_pages : Int) ≤ e.nr_swap_pages % 4294967296 ∧
      (0 ≤ e.nr_swap_pages → (S.minimum_freeswap_pages : Int) ≤ e.nr_swap_pages)) ∧
    (time_before e.jiffies (to_ulong ((st.prev_jiffy : Int) + S.minimum_interval_time))
        = false →
      (S.minimum_freeswap_pages : Int) ≤ e.nr_swap_pages % 4294967296 →
      st.s_reclaim.need_to_reclaim ≠ 0 → st.s_reclaim.lmk_running ≠ 1 →
      e.kswapd_thread_on ≠ 1 → e.idle_cpu = true → e.this_cpu_loadx = 0 →
      st.s_reclaim.kcompcached_running = 0 →
      (could_cswap time_before S st e).wake_up_process = true) ∧
    ((could_cswap jiffies_before S st e).wake_up_process = true →
      ((e.jiffies : Int) - ((st.prev_jiffy : Int) + S.minimum_interval_time)) % 4294967296
        < 2147483648 ∧
      (st.prev_jiffy + S.minimum_interval_time < 2147483648 → e.jiffies < 2147483648 →
        st.prev_jiffy + S.minimum_interval_time ≤ e.jiffies)) ∧
    (((e.jiffies : Int) - ((st.prev_jiffy : Int) + S.minimum_interval_time)) % 4294967296
        < 2147483648 →
      (S.minimum_freeswap_pages : Int) ≤ e.nr_swap_pages % 4294967296 →
      st.s_reclaim.need_to_reclaim ≠ 0 → st.s_reclaim.lmk_running ≠ 1 →
      e.kswapd_thread_on ≠ 1 → e.idle_cpu = true → e.this_cpu_loadx = 0 →
      st.s_reclaim.kcompcached_running = 0 →
      (could_cswap jiffies_before S st e).wake_up_process = true) := by
  refine ⟨?_, ?_, ?_, ?_⟩
  · intro h
    obtain ⟨_, h2, _, _, h5, _⟩ := could_cswap_wake_conditions time_before S st e h
    have hmod := (long_lt_uint_eq_false_iff _ _).1 h5
    refine ⟨h2, h5, hmod, fun h0 => ?_⟩
    omega
  · intro h2 hswap h1 h3 h4 h6 h7 h8
    exact could_cswap_wakes time_before S st e h1 h2 h3 h4
      ((long_lt_uint_eq_false_iff _ _).2 hswap) h6 h7 h8
  · intro h
    obtain ⟨_, h2, _⟩ := could_cswap_wake_conditions jiffies_before S st e h
    have hmod := (jiffies_before_eq_false_iff _ _).1 h2
    refine ⟨hmod, fun hsum hj => ?_⟩
    omega
  · intro h2 hswap h1 h3 h4 h6 h7 h8
    exact could_cswap_wakes jiffies_before S st e h1
      ((jiffies_before_eq_false_iff _ _).2 h2) h3 h4
      ((long_lt_uint_eq_false_iff _ _).2 hswap) h6 h7 h8

/-- C20, witness: at exact equality, time 1500 for a last wake at 1000 and an
interval of 500, and 8192 free swap pages for a minimum of 8192, the worker is
woken; one jiffy earlier, or with one swap page less, it is not.  It is also woken
with `nr_swap_pages = -1`, which converts to 4294967295, and with no time passed when
the interval is 3000000000, since the sum is then more than 2^31 away. -/
theorem gate_numeric_conditions_witness :
    (could_cswap jiffies_before (default_soft_params linux) state_requested
      idle_at_equality).wake_up_process = true ∧
    (could_cswap jiffies_before (default_soft_params linux) state_requested
      { idle_at_equality with jiffies := 1499 }).wake_up_process = false ∧
    (could_cswap jiffies_before (default_soft_params linux) state_requested
      { idle_at_equality with nr_swap_pages := 8191 }).wake_up_process = false ∧
    (could_cswap jiffies_before (default_soft_params linux) state_requested
      idle_negative_swap).wake_up_process = true ∧
    (could_cswap jiffies_before soft_params_long_interval state_requested
      idle_no_time_passed).wake_up_process = true :=
  ⟨(gate_numeric_conditions jiffies_before (default_soft_params linux) state_requested
      idle_at_equality).2.1 (by decide) (by decide) (by decide) (by decide) (by decide)
      (by decide) (by decide) (by decide),
    by decide, by decide,
    (gate_numeric_conditions jiffies_before (default_soft_params linux) state_requested
      idle_negative_swap).2.2.2 (by decide) (by decide) (by decide) (by decide) (by decide)
      (by decide) (by decide) (by decide),
    (gate_numeric_conditions jiffies_before soft_params_long_interval state_requested
      idle_no_time_passed).2.2.2 (by decide) (by decide) (by decide) (by decide) (by decide)
      (by decide) (by decide) (by decide)⟩

/-- C20, counterexample: the last wake was at time 1000, the interval is 500 and the
minimum of free swap pages is 8192.  At time 1500 with 8192 free swap pages, so that
`jiffies - prev_jiffy` equals the interval and `nr_swap_pages` equals the minimum,
the worker is woken.  It is also woken with `nr_swap_pages = -1`, below the minimum,
and, with an interval of 3000000000, at time 1000, when no time has passed. -/
theorem gate_equality_counterexample :
    state_requested.prev_jiffy = 1000 ∧
    (default_soft_params linux).minimum_interval_time = 500 ∧
    (default_soft_params linux).minimum_freeswap_pages = 8192 ∧
    idle_at_equality.jiffies - state_requested.prev_jiffy =
      (default_soft_params linux).minimum_interval_time ∧
    idle_at_equality.nr_swap_pages = (default_soft_params linux).minimum_freeswap_pages ∧
    (could_cswap jiffies_before (default_soft_params linux) state_requested
      idle_at_equality).wake_up_process = true ∧
    (could_cswap jiffies_before (default_soft_params linux) state_requested
      idle_at_equality).state.s_reclaim.kcompcached_running = 1 ∧
    (idle_negative_swap.nr_swap_pages = -1 ∧
      (could_cswap jiffies_before (default_soft_params linux) state_requested
        idle_negative_swap).wake_up_process = true) ∧
    (soft_params_long_interval.minimum_interval_time = 3000000000 ∧
      idle_no_time_passed.jiffies - state_requested.prev_jiffy = 0 ∧
      (could_cswap jiffies_before soft_params_long_interval state_requested
        idle_no_time_passed).wake_up_process = true) := by
  decide

/-! ## The enhanced process loop: the order of the selection -/

theorem lex_ge_iff_not_lt (x y : Int × Int) : lex_ge x y ↔ ¬ lex_lt x y := by
  unfold lex_ge lex_lt
  omega

theorem lex_ge_total (x y : Int × Int) : lex_ge x y ∨ lex_ge y x := by
  unfold lex_ge
  omega

theorem lex_ge_trans (x y z : Int × Int) (h1 : lex_ge x y) (h2 : lex_ge y z) : lex_ge x z := by
  unfold lex_ge at *
  omega

theorem lex_ge_antisymm (x y : Int × Int) (h1 : lex_ge x y) (h2 : lex_ge y x) : x = y := by
  unfold lex_ge at *
  exact Prod.ext (by omega) (by omega)

theorem weakest_foldl_min (adj size : List Int) (l : List Nat) :
    ∀ idx : Nat,
      (l.foldl (weakest_step adj size) idx = idx ∨
        l.foldl (weakest_step adj size) idx ∈ l) ∧
      ¬ lex_lt (adj.getD idx 0, size.getD idx 0)
        (adj.getD (l.foldl (weakest_step adj size) idx) 0,
          size.getD (l.foldl (weakest_step adj size) idx) 0) ∧
      ∀ i ∈ l, ¬ lex_lt (adj.getD i 0, size.getD i 0)
        (adj.getD (l.foldl (weakest_step adj size) idx) 0,
          size.getD (l.foldl (weakest_step adj size) idx) 0) := by
  induction l with
  | nil =>
    intro idx
    refine ⟨Or.inl rfl, ?_, fun i hi => by cases hi⟩
    simp only [List.foldl_nil, lex_lt]
    omega
  | cons j l ih =>
    intro idx
    simp only [List.foldl_cons]
    have hstep : (weakest_step adj size idx j = j ∧
        lex_lt (adj.getD j 0, size.getD j 0) (adj.getD idx 0, size.getD idx 0)) ∨
        (weakest_step adj size idx j = idx ∧
          ¬ lex_lt (adj.getD j 0, size.getD j 0) (adj.getD idx 0, size.getD idx 0)) := by
      unfold weakest_step lex_lt
      split_ifs with c1 c2
      · exact Or.inl ⟨rfl, Or.inl c1⟩
      · exact Or.inl ⟨rfl, Or.inr c2⟩
      · right
        refine ⟨rfl, ?_⟩
        simp only at c1 c2 ⊢
        omega
    generalize weakest_step adj size idx j = w at hstep ⊢
    obtain ⟨h1, h2, h3⟩ := ih w
    generalize List.foldl (weakest_step adj size) w l = r at h1 h2 h3 ⊢
    unfold lex_lt at *
    simp only at *
    refine ⟨?_, ?_, ?_⟩
    · rcases h1 with h1 | h1
      · rcases hstep with ⟨hs, _⟩ | ⟨hs, _⟩
        · right; rw [h1, hs]; exact List.mem_cons_self _ _
        · left; rw [h1, hs]
      · right; exact List.mem_cons_of_mem _ h1
    · rcases hstep with ⟨rfl, hlt⟩ | ⟨rfl, hlt⟩
      · omega
      · exact h2
    · intro i hi
      rcases List.mem_cons.1 hi with rfl | hi
      · rcases hstep with ⟨rfl, hlt⟩ | ⟨rfl, hlt⟩
        · exact h2
        · omega
      · exact h3 i hi

theorem find_slot_full (s : ESelection) (a z : Int) (hall : s.all_selected_oom = 3) :
    find_slot s a z =
      (decide (lex_lt (slot_pair s s.max_selected_oom_idx) (a, z)), s.max_selected_oom_idx) := by
  unfold find_slot lex_lt slot_pair
  have h3 : ¬ (s.all_selected_oom < (LOWMEM_DEATHPENDING_DEPTH : Int)) := by
    rw [hall]; decide
  rw [if_neg h3]
  split_ifs with h
  · rw [decide_eq_true h]
  · rw [decide_eq_false h]

theorem full_slots_skip (m : Int) (s : ESelection) (seen : List task_struct) (p : task_struct)
    (hc : candidate m p = none) (h : full_slots m s seen) : full_slots m s (seen ++ [p]) := by
  obtain ⟨hall, hidx, p0, p1, p2, a0, a1, a2, z0, z1, z2, hsel, hadj, hsize, hmem, hcand, hmin,
    rest, hperm, hrest⟩ := h
  refine ⟨hall, hidx, p0, p1, p2, a0, a1, a2, z0, z1, z2, hsel, hadj, hsize,
    ⟨List.mem_append_left _ hmem.1, List.mem_append_left _ hmem.2.1,
      List.mem_append_left _ hmem.2.2⟩, hcand, hmin, rest, ?_, hrest⟩
  rw [List.filterMap_append]
  simpa [hc] using hperm

theorem scan_body_enhanced_full (P : Params) (m : Int) (s : ESelection)
    (seen : List task_struct) (p : task_struct) (h : full_slots m s seen) :
    full_slots m (scan_body_enhanced P m s p) (seen ++ [p]) := by
  cases hc : candidate m p with
  | none =>
    have : scan_body_enhanced P m s p = s := by
      unfold scan_body_enhanced; rw [hc]
    rw [this]
    exact full_slots_skip m s seen p hc h
  | some az =>
    obtain ⟨a, z⟩ := az
    obtain ⟨hall, hidx, p0, p1, p2, a0, a1, a2, z0, z1, z2, hsel, hadj, hsize, hmem, hcand,
      hmin, rest, hperm, hrest⟩ := h
    have hseen : ((seen ++ [p]).filterMap (candidate m)).Perm
        ((a, z) :: ([(a0, z0), (a1, z1), (a2, z2)] ++ rest)) := by
      rw [List.filterMap_append]
      simp only [List.filterMap_cons, hc, List.filterMap_nil]
      exact (List.perm_append_comm).trans (List.Perm.cons _ hperm)
    by_cases hlt : lex_lt (slot_pair s s.max_selected_oom_idx) (a, z)
    · have hmin0 := hmin 0 (by decide)
      have hmin1 := hmin 1 (by decide)
      have hmin2 := hmin 2 (by decide)
      have hw := weakest_foldl_min (s.selected_oom_adj.set s.max_selected_oom_idx a)
        (s.selected_tasksize.set s.max_selected_oom_idx z) [0, 1, 2] s.max_selected_oom_idx
      have hbody : scan_body_enhanced P m s p =
          { selected := s.selected.set s.max_selected_oom_idx (some p)
            selected_tasksize := s.selected_tasksize.set s.max_selected_oom_idx z
            selected_oom_adj := s.selected_oom_adj.set s.max_selected_oom_idx a
            all_selected_oom := 3
            max_selected_oom_idx :=
              [0, 1, 2].foldl
                (weakest_step (s.selected_oom_adj.set s.max_selected_oom_idx a)
                  (s.selected_tasksize.set s.max_selected_oom_idx z)) s.max_selected_oom_idx
            log := lowmem_print P 2 (.select p.pid p.comm a z) s.log } := by
        unfold scan_body_enhanced
        rw [hc]
        simp only [find_slot_full s a z hall, hlt, decide_True, if_true, hall]
        rfl
      rw [hbody]
      generalize hwdef : [0, 1, 2].foldl
        (weakest_step (s.selected_oom_adj.set s.max_selected_oom_idx a)
          (s.selected_tasksize.set s.max_selected_oom_idx z)) s.max_selected_oom_idx = w
        at hw ⊢
      obtain ⟨hw1, hw2, hw3⟩ := hw
      have hw0 := hw3 0 (by decide)
      have hw1' := hw3 1 (by decide)
      have hw2' := hw3 2 (by decide)
      have hwlt : w < 3 := by
        rcases hw1 with h | h
        · omega
        · simp only [List.mem_cons, List.mem_singleton, List.not_mem_nil, or_false] at h
          omega
      generalize hidx' : s.max_selected_oom_idx = idx at *
      unfold full_slots slot_pair
      unfold slot_pair lex_lt at hmin0 hmin1 hmin2 hlt hrest
      unfold lex_lt at hw0 hw1' hw2'
      rw [hadj, hsize] at hmin0 hmin1 hmin2 hlt hrest hw0 hw1' hw2'
      refine ⟨rfl, hwlt, ?_⟩
      dsimp only
      rw [hsel, hadj, hsize]
      interval_cases idx
      · rcases (show w = 0 ∨ w = 1 ∨ w = 2 by omega) with rfl | rfl | rfl
        all_goals
          simp only [List.getD_cons_zero, List.getD_cons_succ, List.set_cons_zero,
            List.set_cons_succ] at hw0 hw1' hw2' hmin0 hmin1 hmin2 hlt hrest ⊢
          refine ⟨p, p1, p2, a, a1, a2, z, z1, z2, rfl, rfl, rfl,
            ⟨List.mem_append_right _ (List.mem_singleton.2 rfl),
              List.mem_append_left _ hmem.2.1,
              List.mem_append_left _ hmem.2.2⟩,
            ⟨hc, hcand.2.1, hcand.2.2⟩, ?_, (a0, z0) :: rest, ?_, ?_⟩
          · intro i hi
            unfold lex_lt
            interval_cases i <;>
              simp only [List.getD_cons_zero, List.getD_cons_succ] <;> omega
          · rw [List.perm_iff_count]
            intro x
            have := hseen.count_eq x
            simp only [List.count_cons, List.count_append, List.count_nil] at this ⊢
            omega
          · intro r hr
            unfold lex_lt
            rcases List.mem_cons.1 hr with rfl | hr
            · simp only [List.getD_cons_zero, List.getD_cons_succ]
              omega
            · have := hrest r hr
              simp only [List.getD_cons_zero, List.getD_cons_succ]
              omega
      · rcases (show w = 0 ∨ w = 1 ∨ w = 2 by omega) with rfl | rfl | rfl
        all_goals
          simp only [List.getD_cons_zero, List.getD_cons_succ, List.set_cons_zero,
            List.set_cons_succ] at hw0 hw1' hw2' hmin0 hmin1 hmin2 hlt hrest ⊢
          refine ⟨p0, p, p2, a0, a, a2, z0, z, z2, rfl, rfl, rfl,
            ⟨List.mem_append_left _ hmem.1,
              List.mem_append_right _ (List.mem_singleton.2 rfl),
              List.mem_append_left _ hmem.2.2⟩,
            ⟨hcand.1, hc, hcand.2.2⟩, ?_, (a1, z1) :: rest, ?_, ?_⟩
          · intro i hi
            unfold lex_lt
            interval_cases i <;>
              simp only [List.getD_cons_zero, List.getD_cons_succ] <;> omega
          · rw [List.perm_iff_count]
            intro x
            have := hseen.count_eq x
            simp only [List.count_cons, List.count_append, List.count_nil] at this ⊢
            omega
          · intro r hr
            unfold lex_lt
            rcases List.mem_cons.1 hr with rfl | hr
            · simp only [List.getD_cons_zero, List.getD_cons_succ]
              omega
            · have := hrest r hr
              simp only [List.getD_cons_zero, List.getD_cons_succ]
              omega
      · rcases (show w = 0 ∨ w = 1 ∨ w = 2 by omega) with rfl | rfl | rfl
        all_goals
          simp only [List.getD_cons_zero, List.getD_cons_succ, List.set_cons_zero,
            List.set_cons_succ] at hw0 hw1' hw2' hmin0 hmin1 hmin2 hlt hrest ⊢
          refine ⟨p0, p1, p, a0, a1, a, z0, z1, z, rfl, rfl, rfl,
            ⟨List.mem_append_left _ hmem.1,
              List.mem_append_left _ hmem.2.1,
              List.mem_append_right _ (List.mem_singleton.2 rfl)⟩,
            ⟨hcand.1, hcand.2.1, hc⟩, ?_, (a2, z2) :: rest, ?_, ?_⟩
          · intro i hi
            unfold lex_lt
            interval_cases i <;>
              simp only [List.getD_cons_zero, List.getD_cons_succ] <;> omega
          · rw [List.perm_iff_count]
            intro x
            have := hseen.count_eq x
            simp only [List.count_cons, List.count_append, List.count_nil] at this ⊢
            omega
          · intro r hr
            unfold lex_lt
            rcases List.mem_cons.1 hr with rfl | hr
            · simp only [List.getD_cons_zero, List.getD_cons_succ]
              omega
            · have := hrest r hr
              simp only [List.getD_cons_zero, List.getD_cons_succ]
              omega
    · have : scan_body_enhanced P m s p = s := by
        unfold scan_body_enhanced
        rw [hc]
        simp only [find_slot_full s a z hall, hlt, decide_False, Bool.false_eq_true, if_false]
      rw [this]
      refine ⟨hall, hidx, p0, p1, p2, a0, a1, a2, z0, z1, z2, hsel, hadj, hsize,
        ⟨List.mem_append_left _ hmem.1, List.mem_append_left _ hmem.2.1,
          List.mem_append_left _ hmem.2.2⟩, hcand, hmin, (a, z) :: rest, ?_, ?_⟩
      · exact hseen.trans (List.perm_middle.symm)
      · intro r hr
        rcases List.mem_cons.1 hr with rfl | hr
        · exact hlt
        · exact hrest r hr

theorem scan_enhanced_foldl_full (P : Params) (m : Int) (l : List task_struct) :
    ∀ (s : ESelection) (seen : List task_struct), full_slots m s seen →
      full_slots m (l.foldl (scan_body_enhanced P m) s) (seen ++ l) := by
  induction l with
  | nil => intro s seen h; simpa using h
  | cons p l ih =>
    intro s seen h
    have := ih (scan_body_enhanced P m s p) (seen ++ [p]) (scan_body_enhanced_full P m s seen p h)
    simpa [List.foldl_cons, List.append_assoc] using this

/-- A list of three pairs that dominates the rest of a sequence is, up to order, the
three largest of the sequence. -/
theorem three_largest_of_dominating (cs held rest : List (Int × Int))
    (hlen : held.length = 3) (hperm : cs.Perm (held ++ rest))
    (hdom : ∀ h ∈ held, ∀ r ∈ rest, lex_ge h r) :
    (spec_three_largest cs).Perm held := by
  haveI : IsTotal (Int × Int) lex_ge := ⟨lex_ge_total⟩
  haveI : IsTrans (Int × Int) lex_ge := ⟨lex_ge_trans⟩
  haveI : IsAntisymm (Int × Int) lex_ge := ⟨lex_ge_antisymm⟩
  have hsorted : List.Sorted lex_ge (held.insertionSort lex_ge ++ rest.insertionSort lex_ge) := by
    unfold List.Sorted
    rw [List.pairwise_append]
    refine ⟨List.sorted_insertionSort lex_ge held, List.sorted_insertionSort lex_ge rest, ?_⟩
    intro a ha b hb
    exact hdom a ((List.perm_insertionSort lex_ge held).subset ha) b
      ((List.perm_insertionSort lex_ge rest).subset hb)
  have hp : (cs.insertionSort lex_ge).Perm
      (held.insertionSort lex_ge ++ rest.insertionSort lex_ge) :=
    ((List.perm_insertionSort lex_ge cs).trans hperm).trans
      (List.Perm.append (List.perm_insertionSort lex_ge held).symm
        (List.perm_insertionSort lex_ge rest).symm)
  have heq := List.eq_of_perm_of_sorted hp (List.sorted_insertionSort lex_ge cs) hsorted
  unfold spec_three_largest
  rw [heq]
  have hl : (held.insertionSort lex_ge).length = 3 := by
    rw [List.length_insertionSort, hlen]
  rw [List.take_left' hl]
  exact List.perm_insertionSort lex_ge held

theorem range_depth : List.range LOWMEM_DEATHPENDING_DEPTH = [0, 1, 2] := rfl

theorem weakest_eq (adj size : List Int) (idx : Nat) :
    weakest adj size idx = [0, 1, 2].foldl (weakest_step adj size) idx := rfl

theorem scan_enhanced_foldl_filter (P : Params) (m : Int) (tasks : List task_struct) :
    ∀ s : ESelection, tasks.foldl (scan_body_enhanced P m) s =
      (tasks.filter (fun p => (candidate m p).isSome)).foldl (scan_body_enhanced P m) s := by
  induction tasks with
  | nil => intro s; rfl
  | cons p l ih =>
    intro s
    cases hc : candidate m p with
    | none =>
      have hs : scan_body_enhanced P m s p = s := by
        unfold scan_body_enhanced; rw [hc]
      simp only [List.foldl_cons, hs, List.filter_cons, hc, Option.isSome_none,
        Bool.false_eq_true, if_false]
      exact ih s
    | some az =>
      simp only [List.foldl_cons, List.filter_cons, hc, Option.isSome_some, if_true]
      exact ih _

theorem scan_body_enhanced_fill0 (P : Params) (m : Int) (s : ESelection) (p : task_struct)
    (a z x0 x1 x2 y0 y1 y2 : Int) (hc : candidate m p = some (a, z))
    (hall : s.all_selected_oom = 0) (hsel : s.selected = [none, none, none])
    (hadj : s.selected_oom_adj = [x0, x1, x2]) (hsize : s.selected_tasksize = [y0, y1, y2]) :
    (scan_body_enhanced P m s p).all_selected_oom = 1 ∧
    (scan_body_enhanced P m s p).selected = [some p, none, none] ∧
    (scan_body_enhanced P m s p).selected_oom_adj = [a, x1, x2] ∧
    (scan_body_enhanced P m s p).selected_tasksize = [z, y1, y2] := by
  have hf : find_slot s a z = (true, 0) := by
    unfold find_slot
    rw [if_pos (by rw [hall]; decide), range_depth, hsel]
    rfl
  unfold scan_body_enhanced
  rw [hc]
  simp only [hf]
  simp [hall, hsel, hadj, hsize, LOWMEM_DEATHPENDING_DEPTH]

theorem scan_body_enhanced_fill1 (P : Params) (m : Int) (s : ESelection) (p p0 : task_struct)
    (a z x0 x1 x2 y0 y1 y2 : Int) (hc : candidate m p = some (a, z))
    (hall : s.all_selected_oom = 1) (hsel : s.selected = [some p0, none, none])
    (hadj : s.selected_oom_adj = [x0, x1, x2]) (hsize : s.selected_tasksize = [y0, y1, y2]) :
    (scan_body_enhanced P m s p).all_selected_oom = 2 ∧
    (scan_body_enhanced P m s p).selected = [some p0, some p, none] ∧
    (scan_body_enhanced P m s p).selected_oom_adj = [x0, a, x2] ∧
    (scan_body_enhanced P m s p).selected_tasksize = [y0, z, y2] := by
  have hf : find_slot s a z = (true, 1) := by
    unfold find_slot
    rw [if_pos (by rw [hall]; decide), range_depth, hsel]
    rfl
  unfold scan_body_enhanced
  rw [hc]
  simp only [hf]
  simp [hall, hsel, hadj, hsize, LOWMEM_DEATHPENDING_DEPTH]

theorem scan_body_enhanced_fill2 (P : Params) (m : Int) (s : ESelection)
    (p p0 p1 : task_struct)
    (a z x0 x1 x2 y0 y1 y2 : Int) (hc : candidate m p = some (a, z))
    (hall : s.all_selected_oom = 2) (hsel : s.selected = [some p0, some p1, none])
    (hadj : s.selected_oom_adj = [x0, x1, x2]) (hsize : s.selected_tasksize = [y0, y1, y2]) :
    (scan_body_enhanced P m s p).all_selected_oom = 3 ∧
    (scan_body_enhanced P m s p).selected = [some p0, some p1, some p] ∧
    (scan_body_enhanced P m s p).selected_oom_adj = [x0, x1, a] ∧
    (scan_body_enhanced P m s p).selected_tasksize = [y0, y1, z] ∧
    (scan_body_enhanced P m s p).max_selected_oom_idx =
      [0, 1, 2].foldl (weakest_step [x0, x1, a] [y0, y1, z]) 2 := by
  have hf : find_slot s a z = (true, 2) := by
    unfold find_slot
    rw [if_pos (by rw [hall]; decide), range_depth, hsel]
    rfl
  unfold scan_body_enhanced
  rw [hc]
  simp only [hf]
  simp [hall, hsel, hadj, hsize, LOWMEM_DEATHPENDING_DEPTH, weakest_eq]

theorem candidate_of_mem_filter (m : Int) (tasks : List task_struct) (p : task_struct)
    (h : p ∈ tasks.filter (fun p => (candidate m p).isSome)) :
    p ∈ tasks ∧ ∃ a z, candidate m p = some (a, z) := by
  obtain ⟨hmem, hsome⟩ := List.mem_filter.1 h
  refine ⟨hmem, ?_⟩
  cases hc : candidate m p with
  | none => rw [hc] at hsome; cases hsome
  | some az => exact ⟨az.1, az.2, rfl⟩

theorem filterMap_filter_candidate (m : Int) (tasks : List task_struct) :
    (tasks.filter (fun p => (candidate m p).isSome)).filterMap (candidate m) =
      tasks.filterMap (candidate m) := by
  induction tasks with
  | nil => rfl
  | cons p l ih =>
    cases hc : candidate m p with
    | none => simp [List.filter_cons, List.filterMap_cons, hc, ih]
    | some az => simp [List.filter_cons, List.filterMap_cons, hc, ih]

theorem length_filterMap_candidate (m : Int) (tasks : List task_struct) :
    (tasks.filterMap (candidate m)).length =
      (tasks.filter (fun p => (candidate m p).isSome)).length := by
  induction tasks with
  | nil => rfl
  | cons p l ih =>
    cases hc : candidate m p with
    | none => simp [List.filter_cons, List.filterMap_cons, hc, ih]
    | some az => simp [List.filter_cons, List.filterMap_cons, hc, ih]

/-- What the enhanced process loop holds at its end, by the number of candidates. -/
theorem scan_enhanced_cases (P : Params) (m : Int) (log : List LogMsg)
    (tasks : List task_struct) :
    (tasks.filter (fun p => (candidate m p).isSome) = [] ∧
      (scan_enhanced P m log tasks).selected = [none, none, none]) ∨
    (∃ p0 a0 z0 x1 x2 y1 y2,
      tasks.filter (fun p => (candidate m p).isSome) = [p0] ∧
      candidate m p0 = some (a0, z0) ∧
      (scan_enhanced P m log tasks).selected = [some p0, none, none] ∧
      (scan_enhanced P m log tasks).selected_oom_adj = [a0, x1, x2] ∧
      (scan_enhanced P m log tasks).selected_tasksize = [z0, y1, y2]) ∨
    (∃ p0 p1 a0 z0 a1 z1 x2 y2,
      tasks.filter (fun p => (candidate m p).isSome) = [p0, p1] ∧
      candidate m p0 = some (a0, z0) ∧ candidate m p1 = some (a1, z1) ∧
      (scan_enhanced P m log tasks).selected = [some p0, some p1, none] ∧
      (scan_enhanced P m log tasks).selected_oom_adj = [a0, a1, x2] ∧
      (scan_enhanced P m log tasks).selected_tasksize = [z0, z1, y2]) ∨
    (3 ≤ (tasks.filter (fun p => (candidate m p).isSome)).length ∧
      full_slots m (scan_enhanced P m log tasks)
        (tasks.filter (fun p => (candidate m p).isSome))) := by
  have hfold : scan_enhanced P m log tasks =
      (tasks.filter (fun p => (candidate m p).isSome)).foldl (scan_body_enhanced P m)
        { selected := [none, none, none]
          selected_tasksize := [0, 0, 0]
          selected_oom_adj := [m, m, m]
          all_selected_oom := 0
          max_selected_oom_idx := 0
          log := log } := by
    unfold scan_enhanced
    exact scan_enhanced_foldl_filter P m tasks _
  have hcand := candidate_of_mem_filter m tasks
  generalize tasks.filter (fun p => (candidate m p).isSome) = ps at hfold hcand ⊢
  rw [hfold]
  match ps, hcand with
  | [], _ => exact Or.inl ⟨rfl, rfl⟩
  | [p0], hcand =>
    obtain ⟨_, a0, z0, hc0⟩ := hcand p0 (by simp)
    obtain ⟨_, h2, h3, h4⟩ := scan_body_enhanced_fill0 P m
      { selected := [none, none, none]
        selected_tasksize := [0, 0, 0]
        selected_oom_adj := [m, m, m]
        all_selected_oom := 0
        max_selected_oom_idx := 0
        log := log } p0 a0 z0 m m m 0 0 0 hc0 rfl rfl rfl rfl
    exact Or.inr (Or.inl ⟨p0, a0, z0, m, m, 0, 0, rfl, hc0, h2, h3, h4⟩)
  | [p0, p1], hcand =>
    obtain ⟨_, a0, z0, hc0⟩ := hcand p0 (by simp)
    obtain ⟨_, a1, z1, hc1⟩ := hcand p1 (by simp)
    obtain ⟨h1, h2, h3, h4⟩ := scan_body_enhanced_fill0 P m
      { selected := [none, none, none]
        selected_tasksize := [0, 0, 0]
        selected_oom_adj := [m, m, m]
        all_selected_oom := 0
        max_selected_oom_idx := 0
        log := log } p0 a0 z0 m m m 0 0 0 hc0 rfl rfl rfl rfl
    obtain ⟨_, k2, k3, k4⟩ := scan_body_enhanced_fill1 P m _ p1 p0 a1 z1 a0 m m z0 0 0 hc1 h1 h2
      h3 h4
    exact Or.inr (Or.inr (Or.inl ⟨p0, p1, a0, z0, a1, z1, m, 0, rfl, hc0, hc1, k2, k3, k4⟩))
  | p0 :: p1 :: p2 :: rest, hcand =>
    obtain ⟨_, a0, z0, hc0⟩ := hcand p0 (by simp)
    obtain ⟨_, a1, z1, hc1⟩ := hcand p1 (by simp)
    obtain ⟨_, a2, z2, hc2⟩ := hcand p2 (by simp)
    obtain ⟨h1, h2, h3, h4⟩ := scan_body_enhanced_fill0 P m
      { selected := [none, none, none]
        selected_tasksize := [0, 0, 0]
        selected_oom_adj := [m, m, m]
        all_selected_oom := 0
        max_selected_oom_idx := 0
        log := log } p0 a0 z0 m m m 0 0 0 hc0 rfl rfl rfl rfl
    obtain ⟨k1, k2, k3, k4⟩ := scan_body_enhanced_fill1 P m _ p1 p0 a1 z1 a0 m m z0 0 0 hc1 h1
      h2 h3 h4
    obtain ⟨j1, j2, j3, j4, j5⟩ := scan_body_enhanced_fill2 P m _ p2 p0 p1 a2 z2 a0 a1 m z0 z1 0
      hc2 k1 k2 k3 k4
    refine Or.inr (Or.inr (Or.inr ⟨by simp, ?_⟩))
    have hw := weakest_foldl_min [a0, a1, a2] [z0, z1, z2] [0, 1, 2] 2
    have hfull : full_slots m
        (scan_body_enhanced P m (scan_body_enhanced P m (scan_body_enhanced P m
          { selected := [none, none, none]
            selected_tasksize := [0, 0, 0]
            selected_oom_adj := [m, m, m]
            all_selected_oom := 0
            max_selected_oom_idx := 0
            log := log } p0) p1) p2) [p0, p1, p2] := by
      unfold full_slots slot_pair
      rw [j1, j2, j3, j4, j5]
      obtain ⟨hw1, _, hw3⟩ := hw
      refine ⟨rfl, ?_, p0, p1, p2, a0, a1, a2, z0, z1, z2, rfl, rfl, rfl, by simp,
        ⟨hc0, hc1, hc2⟩, ?_, [], ?_, fun r hr => by cases hr⟩
      · rcases hw1 with h | h
        · omega
        · simp only [List.mem_cons, List.mem_singleton, List.not_mem_nil, or_false] at h
          omega
      · intro i hi
        exact hw3 i (by
          simp only [List.mem_cons, List.mem_singleton, List.not_mem_nil, or_false]
          omega)
      · simp [List.filterMap_cons, hc0, hc1, hc2]
    have := scan_enhanced_foldl_full P m rest _ [p0, p1, p2] hfull
    simpa [List.foldl_cons] using this

/-! ## Claim about the selection of the enhanced build -/

/-- C11: the enhanced process loop (three slots).  With fewer than three eligible
candidates all of them are held, in the first slots and in encounter order, the
other slots staying empty.  With three or more, all three slots are occupied and the
multiset of the pairs (`oom_adj`, `tasksize`) they hold is the multiset of the three
lexicographically largest pairs of the candidates.  In every case an occupied slot
holds a candidate of the process list together with that candidate's own pair. -/
theorem enhanced_holds_three_largest (P : Params) (m : Int) (log : List LogMsg)
    (tasks : List task_struct) :
    ((tasks.filterMap (candidate m)).length < 3 →
      (scan_enhanced P m log tasks).selected =
        (tasks.filter (fun p => (candidate m p).isSome)).map some ++
          List.replicate (3 - (tasks.filterMap (candidate m)).length) none ∧
      held_pairs (scan_enhanced P m log tasks) = tasks.filterMap (candidate m)) ∧
    (3 ≤ (tasks.filterMap (candidate m)).length →
      (held_pairs (scan_enhanced P m log tasks)).length = 3 ∧
      (↑(held_pairs (scan_enhanced P m log tasks)) : Multiset (Int × Int)) =
        ↑(spec_three_largest (tasks.filterMap (candidate m)))) ∧
    (∀ i p, (scan_enhanced P m log tasks).selected.getD i none = some p →
      p ∈ tasks ∧ candidate m p = some (slot_pair (scan_enhanced P m log tasks) i)) := by
  have hlen := length_filterMap_candidate m tasks
  have hfm := filterMap_filter_candidate m tasks
  have hcand := candidate_of_mem_filter m tasks
  rcases scan_enhanced_cases P m log tasks with ⟨hps, hsel⟩ |
    ⟨p0, a0, z0, x1, x2, y1, y2, hps, hc0, hsel, hadj, hsize⟩ |
    ⟨p0, p1, a0, z0, a1, z1, x2, y2, hps, hc0, hc1, hsel, hadj, hsize⟩ | ⟨h3, hfull⟩
  · rw [hps] at hfm hlen
    refine ⟨fun _ => ?_, fun h => ?_, fun i p h => ?_⟩
    · rw [hps, hlen, ← hfm]
      refine ⟨hsel, ?_⟩
      unfold held_pairs
      rw [range_depth, hsel]
      rfl
    · rw [hlen] at h; simp at h
    · rw [hsel] at h
      rcases i with _ | _ | _ | i <;> simp at h
  · rw [hps] at hfm hlen
    have hm0 := (hcand p0 (by rw [hps]; simp)).1
    refine ⟨fun _ => ?_, fun h => ?_, fun i p h => ?_⟩
    · rw [hps, hlen, ← hfm]
      refine ⟨hsel, ?_⟩
      unfold held_pairs slot_pair
      rw [range_depth, hsel, hadj, hsize]
      simp [List.filterMap_cons, hc0]
    · rw [hlen] at h; simp at h
    · rw [hsel] at h
      rcases i with _ | _ | _ | i <;> simp at h
      subst h
      refine ⟨hm0, ?_⟩
      unfold slot_pair
      rw [hadj, hsize]
      exact hc0
  · rw [hps] at hfm hlen
    have hm0 := (hcand p0 (by rw [hps]; simp)).1
    have hm1 := (hcand p1 (by rw [hps]; simp)).1
    refine ⟨fun _ => ?_, fun h => ?_, fun i p h => ?_⟩
    · rw [hps, hlen, ← hfm]
      refine ⟨hsel, ?_⟩
      unfold held_pairs slot_pair
      rw [range_depth, hsel, hadj, hsize]
      simp [List.filterMap_cons, hc0, hc1]
    · rw [hlen] at h; simp at h
    · rw [hsel] at h
      rcases i with _ | _ | _ | i <;> simp at h
      · subst h
        refine ⟨hm0, ?_⟩
        unfold slot_pair
        rw [hadj, hsize]
        exact hc0
      · subst h
        refine ⟨hm1, ?_⟩
        unfold slot_pair
        rw [hadj, hsize]
        exact hc1
  · obtain ⟨_, _, p0, p1, p2, a0, a1, a2, z0, z1, z2, hsel, hadj, hsize, hmem, hc, hmin, rest,
      hperm, hrest⟩ := hfull
    have hheld : held_pairs (scan_enhanced P m log tasks) = [(a0, z0), (a1, z1), (a2, z2)] := by
      unfold held_pairs slot_pair
      rw [range_depth, hsel, hadj, hsize]
      rfl
    refine ⟨fun h => ?_, fun _ => ?_, fun i p h => ?_⟩
    · rw [hlen] at h; omega
    · rw [hheld]
      refine ⟨rfl, ?_⟩
      rw [hfm] at hperm
      refine (Multiset.coe_eq_coe.2 ?_).symm
      refine three_largest_of_dominating _ _ rest rfl hperm ?_
      intro h hh r hr
      have hr' := hrest r hr
      have h0 := hmin 0 (by decide)
      have h1 := hmin 1 (by decide)
      have h2 := hmin 2 (by decide)
      unfold slot_pair lex_lt at hr' h0 h1 h2
      rw [hadj, hsize] at hr' h0 h1 h2
      unfold lex_ge
      simp only [List.getD_cons_zero, List.getD_cons_succ] at hr' h0 h1 h2
      simp only [List.mem_cons, List.mem_singleton, List.not_mem_nil, or_false] at hh
      rcases hh with rfl | rfl | rfl <;> simp only <;> omega
    · rw [hsel] at h
      rcases i with _ | _ | _ | i <;> simp at h
      · subst h
        refine ⟨(hcand _ hmem.1).1, ?_⟩
        unfold slot_pair
        rw [hadj, hsize]
        exact hc.1
      · subst h
        refine ⟨(hcand _ hmem.2.1).1, ?_⟩
        unfold slot_pair
        rw [hadj, hsize]
        exact hc.2.1
      · subst h
        refine ⟨(hcand _ hmem.2.2).1, ?_⟩
        unfold slot_pair
        rw [hadj, hsize]
        exact hc.2.2

/-- C11, witness: candidates with priorities 3, 5, 5, 9 and sizes 10, 10, 20, 1, in
that order, leave the pairs 9/1, 5/10 and 5/20 in the slots, the three largest of the
four (the candidate 3/10 is replaced by 9/1); tasks 4, 2 and 3 are recorded as
pending.  With the two candidates (5, 30) and (8, 10), both are held, in slots 0
and 1. -/
theorem enhanced_holds_three_largest_witness :
    held_pairs (scan_enhanced (default_params linux) 0 [] call_four.tasks)
      = [(9, 1), (5, 10), (5, 20)] ∧
    (↑(held_pairs (scan_enhanced (default_params linux) 0 [] call_four.tasks)) :
        Multiset (Int × Int)) =
      ↑(spec_three_largest (call_four.tasks.filterMap (candidate 0))) ∧
    spec_three_largest (call_four.tasks.filterMap (candidate 0))
      = [(9, 1), (5, 20), (5, 10)] ∧
    (scan_enhanced (default_params linux) 0 [] call_kill.tasks).selected
      = [some (task_of 1 5 30), some (task_of 2 8 10), none] ∧
    (lowmem_shrink_enhanced linux (default_params linux) EState.init
      call_four).state.lowmem_deathpending = [some 4, some 2, some 3] :=
  ⟨by decide,
    ((enhanced_holds_three_largest (default_params linux) 0 [] call_four.tasks).2.1
      (by decide)).2,
    by decide,
    ((enhanced_holds_three_largest (default_params linux) 0 [] call_kill.tasks).1
      (by decide)).1,
    by decide⟩

/-! ## Claims about the frame of the gate and of the worker -/

theorem could_cswap_no_wake_state (time_before : Nat → Nat → Bool) (S : SoftParams)
    (st : State) (e : Idle) (h : (could_cswap time_before S st e).wake_up_process = false) :
    (could_cswap time_before S st e).state = st := by
  unfold could_cswap at h ⊢
  split_ifs at h ⊢ <;> rfl

theorem could_cswap_wake_state (time_before : Nat → Nat → Bool) (S : SoftParams)
    (st : State) (e : Idle) (h : (could_cswap time_before S st e).wake_up_process = true) :
    (could_cswap time_before S st e).state =
      { st with
        s_reclaim := { st.s_reclaim with kcompcached_running := 1 }
        prev_jiffy := e.jiffies } := by
  unfold could_cswap at h ⊢
  split_ifs at h ⊢
  rfl

/-- C23: when every condition of the gate holds (`need_to_reclaim` set, `jiffies` not
before `prev_jiffy + minimum_interval_time`, `lmk_running` and `kswapd_thread_on` not
1, `nr_swap_pages` not below `minimum_freeswap_pages`, processor idle with a load
reading of zero, `kcompcached_running` 0), `could_cswap` wakes the worker, sets
`kcompcached_running` to 1 and `prev_jiffy` to `jiffies`, and changes nothing else,
`need_to_reclaim` included; when it does not wake the worker it changes no static
variable at all. -/
theorem could_cswap_frame (time_before : Nat → Nat → Bool) (S : SoftParams) (st : State)
    (e : Idle) :
    (st.s_reclaim.need_to_reclaim ≠ 0 →
      time_before e.jiffies (to_ulong ((st.prev_jiffy : Int) + S.minimum_interval_time))
        = false →
      st.s_reclaim.lmk_running ≠ 1 → e.kswapd_thread_on ≠ 1 →
      long_lt_uint e.nr_swap_pages S.minimum_freeswap_pages = false →
      e.idle_cpu = true → e.this_cpu_loadx = 0 → st.s_reclaim.kcompcached_running = 0 →
      (could_cswap time_before S st e).wake_up_process = true ∧
      (could_cswap time_before S st e).state.s_reclaim.kcompcached_running = 1 ∧
      (could_cswap time_before S st e).state.prev_jiffy = e.jiffies ∧
      (could_cswap time_before S st e).state.s_reclaim.need_to_reclaim
        = st.s_reclaim.need_to_reclaim ∧
      (could_cswap time_before S st e).state =
        { st with
          s_reclaim := { st.s_reclaim with kcompcached_running := 1 }
          prev_jiffy := e.jiffies }) ∧
    ((could_cswap time_before S st e).wake_up_process = false →
      (could_cswap time_before S st e).state = st) := by
  constructor
  · intro h1 h2 h3 h4 h5 h6 h7 h8
    have hw := could_cswap_wakes time_before S st e h1 h2 h3 h4 h5 h6 h7 h8
    have hs := could_cswap_wake_state time_before S st e hw
    refine ⟨hw, ?_, ?_, ?_, hs⟩ <;> rw [hs]
  · exact could_cswap_no_wake_state time_before S st e

/-- C23, witness: at time 4000 the gate is open; the worker is woken, flagged as
running, and `prev_jiffy` becomes 4000.  With `kswapd` active the state stays as it
was. -/
theorem could_cswap_frame_witness :
    (could_cswap jiffies_before (default_soft_params linux) state_requested
      idle_moment).wake_up_process = true ∧
    (could_cswap jiffies_before (default_soft_params linux) state_requested
      idle_moment).state =
      { state_requested with
        s_reclaim := { state_requested.s_reclaim with kcompcached_running := 1 }
        prev_jiffy := 4000 } ∧
    (could_cswap jiffies_before (default_soft_params linux) state_requested
      idle_kswapd).state = state_requested :=
  ⟨((could_cswap_frame jiffies_before (default_soft_params linux) state_requested
      idle_moment).1 (by decide) (by decide) (by decide) (by decide) (by decide) (by decide)
      (by decide) (by decide)).1,
    ((could_cswap_frame jiffies_before (default_soft_params linux) state_requested
      idle_moment).1 (by decide) (by decide) (by decide) (by decide) (by decide) (by decide)
      (by decide) (by decide)).2.2.2.2,
    (could_cswap_frame jiffies_before (default_soft_params linux) state_requested
      idle_kswapd).2 (by decide)⟩

/-- C24: one pass of the worker that is not told to stop.  Entered with
`kcompcached_running = 1` it calls `rtcc_reclaim_pages` once, with
`number_of_reclaim_pages` (converted to `long`), always ends with
`kcompcached_running = 0`, and changes nothing else, `need_to_reclaim` included,
whenever the pages reclaimed are at least `minimum_reclaim_pages`.  Entered with
`kcompcached_running = 0` it calls no reclaim and changes no static variable. -/
theorem worker_attempt_frame (S : SoftParams) (rtcc_reclaim_pages : Int → Int) (st : State) :
    (st.s_reclaim.kcompcached_running = 1 →
      (do_compcache S rtcc_reclaim_pages false st).rtcc_reclaim_pages
        = [to_int S.number_of_reclaim_pages] ∧
      (S.number_of_reclaim_pages < 2147483648 →
        (do_compcache S rtcc_reclaim_pages false st).rtcc_reclaim_pages
          = [(S.number_of_reclaim_pages : Int)]) ∧
      (do_compcache S rtcc_reclaim_pages false st).state.s_reclaim.kcompcached_running = 0 ∧
      (do_compcache S rtcc_reclaim_pages false st).goes_on = true ∧
      ((S.minimum_reclaim_pages : Int) ≤ rtcc_reclaim_pages (to_int S.number_of_reclaim_pages) →
        rtcc_reclaim_pages (to_int S.number_of_reclaim_pages) < 2147483648 →
        (do_compcache S rtcc_reclaim_pages false st).state.s_reclaim.need_to_reclaim
          = st.s_reclaim.need_to_reclaim ∧
        (do_compcache S rtcc_reclaim_pages false st).state =
          { st with s_reclaim := { st.s_reclaim with kcompcached_running := 0 } })) ∧
    (st.s_reclaim.kcompcached_running = 0 →
      (do_compcache S rtcc_reclaim_pages false st).rtcc_reclaim_pages = [] ∧
      (do_compcache S rtcc_reclaim_pages false st).state = st ∧
      (do_compcache S rtcc_reclaim_pages false st).goes_on = true) := by
  constructor
  · intro hrun
    unfold do_compcache
    rw [if_neg (by decide), if_pos hrun]
    refine ⟨rfl, fun hnr => ?_, rfl, rfl, fun hge hlong => ?_⟩
    · rw [to_int_of_range _ (by omega) (by omega)]
    · have hnot : long_lt_uint (rtcc_reclaim_pages (to_int S.number_of_reclaim_pages))
          S.minimum_reclaim_pages = false := by
        cases hlt : long_lt_uint (rtcc_reclaim_pages (to_int S.number_of_reclaim_pages))
          S.minimum_reclaim_pages with
        | false => rfl
        | true =>
          have := (long_lt_uint_of_nonneg _ _ (by omega) hlong).1 hlt
          omega
      simp only [hnot, Bool.false_eq_true, if_false, and_self]
  · intro hrun
    have h1 : ¬ st.s_reclaim.kcompcached_running = 1 := by rw [hrun]; decide
    unfold do_compcache
    rw [if_neg (by decide), if_neg h1]
    exact ⟨rfl, rfl, rfl⟩

/-- C24, witness: the worker, flagged as running, is asked for 2048 pages; when the
primitive reclaims 300, at least the minimum of 256, the running flag is cleared and
`need_to_reclaim` stays set; a pass that finds the running flag clear does
nothing. -/
theorem worker_attempt_frame_witness :
    (do_compcache (default_soft_params linux) reclaims_300 false
      state_worker_running).rtcc_reclaim_pages = [2048] ∧
    (do_compcache (default_soft_params linux) reclaims_300 false
      state_worker_running).state = state_requested ∧
    (do_compcache (default_soft_params linux) reclaims_300 false state_requested).state
      = state_requested ∧
    (do_compcache (default_soft_params linux) reclaims_300 false
      state_requested).rtcc_reclaim_pages = [] :=
  ⟨((worker_attempt_frame (default_soft_params linux) reclaims_300 state_worker_running).1
      (by decide)).2.1 (by decide),
    (((worker_attempt_frame (default_soft_params linux) reclaims_300 state_worker_running).1
      (by decide)).2.2.2.2 (by decide) (by decide)).2,
    ((worker_attempt_frame (default_soft_params linux) reclaims_300 state_requested).2
      (by decide)).2.1,
    ((worker_attempt_frame (default_soft_params linux) reclaims_300 state_requested).2
      (by decide)).1⟩

/-! ## More claims about lowmem_shrink, basic mode -/

theorem candidate_eq_none_of_not_eligible (m : Int) (p : task_struct)
    (h : ∀ rss adj, p.mm = some rss → p.signal = some adj → m ≤ adj → ¬ 0 < to_int rss) :
    candidate m p = none := by
  cases hc : candidate m p with
  | none => rfl
  | some az =>
    obtain ⟨rss, h1, h2, h3, h4, h5⟩ := (candidate_eq_some m p az.1 az.2).1 hc
    rw [h4] at h5
    exact absurd h5 (h rss az.1 h1 h2 h3)

/-- C26: if the scan runs (not debounce-blocked, positive budget, applicable
threshold) and no process is an eligible candidate, `lowmem_shrink` forces `SIGKILL`
on no task, leaves `lowmem_deathpending` and `lowmem_deathpending_timeout` exactly as
they were, also when the slot is occupied, and returns the full `rem`; every process
was visited. -/
theorem scan_without_candidate (K : Kernel) (P : Params) (st : State) (c : Call)
    (hblock : death_outstanding K st c.jiffies = false)
    (hscan : 0 < c.nr_to_scan)
    (hadj : lowmem_min_adj K P (other_free c.vm) (other_file c.vm) ≠ K.OOM_ADJUST_MAX + 1)
    (hnone : ∀ p ∈ c.tasks, ∀ rss adj, p.mm = some rss → p.signal = some adj →
      lowmem_min_adj K P (other_free c.vm) (other_file c.vm) ≤ adj → ¬ 0 < to_int rss) :
    (lowmem_shrink K P st c).force_sig = [] ∧
    (lowmem_shrink K P st c).state.lowmem_deathpending = st.lowmem_deathpending ∧
    (lowmem_shrink K P st c).state.lowmem_deathpending_timeout
      = st.lowmem_deathpending_timeout ∧
    (lowmem_shrink K P st c).ret =
      to_int ((c.vm.NR_ACTIVE_ANON : Int) + c.vm.NR_ACTIVE_FILE + c.vm.NR_INACTIVE_ANON +
        c.vm.NR_INACTIVE_FILE) ∧
    (lowmem_shrink K P st c).visited = c.tasks.map (·.task) := by
  obtain ⟨log, h⟩ := lowmem_shrink_scan_cases K P st c hblock hscan hadj
  have hvis := (lowmem_shrink_scan_visited K P st c hblock hscan hadj).1
  rcases h with ⟨_, hf, hs, hr⟩ | ⟨v, hv, _⟩
  · refine ⟨hf, by rw [hs], by rw [hs], ?_, hvis⟩
    rw [hr]; rfl
  · rcases scan_spec P (lowmem_min_adj K P (other_free c.vm) (other_file c.vm)) log c.tasks
      with ⟨hsel, _⟩ | ⟨w, _, hmem, hcw, _⟩
    · rw [hsel] at hv; cases hv
    · rw [candidate_eq_none_of_not_eligible _ w (hnone w hmem)] at hcw
      cases hcw

/-- C26, witness: task 7 is still recorded as pending, its deadline 6000 has passed,
and at time 7000 a scan runs over three processes none of which is a candidate:
nothing is killed, the slot still holds task 7 with deadline 6000, and the value
returned is 100. -/
theorem scan_without_candidate_witness :
    (lowmem_shrink linux (default_params linux) state_pending call_no_candidate).force_sig
      = [] ∧
    (lowmem_shrink linux (default_params linux) state_pending
      call_no_candidate).state.lowmem_deathpending = some 7 ∧
    (lowmem_shrink linux (default_params linux) state_pending
      call_no_candidate).state.lowmem_deathpending_timeout = 6000 ∧
    (lowmem_shrink linux (default_params linux) state_pending call_no_candidate).ret = 100 ∧
    (lowmem_shrink linux (default_params linux) state_pending call_no_candidate).visited
      = [1, 3, 5] := by
  have h := scan_without_candidate linux (default_params linux) state_pending
    call_no_candidate (by decide) (by decide) (by decide) (by
      intro p hp rss adj h1 h2 h3
      simp only [call_no_candidate, call_pressure, List.mem_cons, List.mem_singleton,
        List.not_mem_nil, or_false] at hp
      rcases hp with rfl | rfl | rfl
      · simp only [task_of, Option.some.injEq] at h1
        rw [← h1]; decide
      · simp [task_of] at h1
      · simp only [task_of, Option.some.injEq] at h2
        rw [← h2] at h3
        exact absurd h3 (by decide))
  exact ⟨h.1, h.2.1, h.2.2.1, h.2.2.2.1, h.2.2.2.2⟩

theorem to_int_range (x : Int) : -2147483648 ≤ to_int x ∧ to_int x < 2147483648 := by
  unfold to_int; omega

/-- A negative `int` is never below a floor that fits an `int`. -/
theorem int_lt_size_t_of_neg (a : Int) (b : Nat) (h0 : -2147483648 ≤ a) (h1 : a < 0)
    (hb : b ≤ 2147483647) : int_lt_size_t a b = false := by
  have := to_ulong_of_neg a h0 h1
  simp only [int_lt_size_t, decide_eq_false_iff_not, not_lt]
  omega

/-- C28: the comparison of the signed counters with the unsigned floors.  A negative
counter is converted to `size_t`, that is, 2^32 is added to it.  For every table whose
floors below `array_size` are all at most `INT_MAX`: whenever `other_free` or
`other_file` is negative, no index matches, `min_adj` stays `OOM_ADJUST_MAX + 1`, and a
call that is not debounce-blocked kills nothing, visits no process and returns
`rem`. -/
theorem negative_counter_never_matches (K : Kernel) (P : Params) (st : State) (c : Call)
    (hfloors : ∀ i : Nat, (i : Int) < array_size P → P.lowmem_minfree.getD i 0 ≤ 2147483647)
    (hneg : other_free c.vm < 0 ∨ other_file c.vm < 0) :
    (other_free c.vm < 0 → to_ulong (other_free c.vm) = other_free c.vm + 4294967296) ∧
    (other_file c.vm < 0 → to_ulong (other_file c.vm) = other_file c.vm + 4294967296) ∧
    (∀ i : Nat, (i : Int) < array_size P →
      below_minfree P (other_free c.vm) (other_file c.vm) i = false) ∧
    lowmem_min_adj K P (other_free c.vm) (other_file c.vm) = K.OOM_ADJUST_MAX + 1 ∧
    (lowmem_shrink K P st c).force_sig = [] ∧
    (lowmem_shrink K P st c).visited = [] := by
  have hfr : -2147483648 ≤ other_free c.vm := (to_int_range _).1
  have hfl : -2147483648 ≤ other_file c.vm := (to_int_range _).1
  have hno : ∀ i : Nat, (i : Int) < array_size P →
      below_minfree P (other_free c.vm) (other_file c.vm) i = false := by
    intro i hi
    unfold below_minfree
    rcases hneg with h | h
    · rw [int_lt_size_t_of_neg _ _ hfr h (hfloors i hi), Bool.false_and]
    · rw [int_lt_size_t_of_neg _ _ hfl h (hfloors i hi), Bool.and_false]
  have hadj := lowmem_min_adj_none K P _ _ hno
  refine ⟨fun h => to_ulong_of_neg _ hfr h, fun h => to_ulong_of_neg _ hfl h, hno, hadj, ?_, ?_⟩
  · by_cases hb : death_outstanding K st c.jiffies = true
    · rw [lowmem_shrink_blocked K P st c hb]
    · exact (lowmem_shrink_early K P st c (by simpa using hb) (Or.inr hadj)).2.2.1
  · by_cases hb : death_outstanding K st c.jiffies = true
    · rw [lowmem_shrink_blocked K P st c hb]
    · exact (lowmem_shrink_early K P st c (by simpa using hb) (Or.inr hadj)).2.2.2.1

/-- C28, witness: with no file pages and one swap-cache page `other_file` is -1,
which converts to 4294967295; with the compiled-in table no threshold applies and
nothing is killed, although 1000 free pages and -1 file pages are below every
floor. -/
theorem negative_counter_never_matches_witness :
    other_file call_negative_file.vm = -1 ∧
    to_ulong (other_file call_negative_file.vm) = 4294967295 ∧
    lowmem_min_adj linux (default_params linux) (other_free call_negative_file.vm)
      (other_file call_negative_file.vm) = 15 + 1 ∧
    (lowmem_shrink linux (default_params linux) state_idle call_negative_file).force_sig
      = [] ∧
    (lowmem_shrink linux (default_params linux) state_idle call_kill).force_sig = [2] := by
  have h := negative_counter_never_matches linux (default_params linux) state_idle
    call_negative_file (by
      intro i hi
      have hi4 : i < 4 := by
        have : array_size (default_params linux) = 4 := by decide
        omega
      interval_cases i <;> decide) (Or.inr (by decide))
  exact ⟨by decide, by decide, h.2.2.2.1, h.2.2.2.2.1, by decide⟩

/-! ## Monotonicity of the classification loop -/

/-- With non-negative counters the test at an index can only be lost, never won, by
raising the counters. -/
theorem below_minfree_antitone (P : Params) (a b a' b' : Int) (i : Nat)
    (ha0 : 0 ≤ a) (ha : a ≤ a') (ha' : a' < 2147483648)
    (hb0 : 0 ≤ b) (hb : b ≤ b') (hb' : b' < 2147483648)
    (h : below_minfree P a' b' i = true) : below_minfree P a b i = true := by
  rw [below_minfree_iff] at h ⊢
  rw [int_lt_size_t_of_nonneg a' _ (by omega) ha',
    int_lt_size_t_of_nonneg b' _ (by omega) hb'] at h
  rw [int_lt_size_t_of_nonneg a _ ha0 (by omega), int_lt_size_t_of_nonneg b _ hb0 (by omega)]
  omega

/-- The index at which the loop stops, the number of iterations when it runs to its
end, does not decrease when the counters are raised. -/
theorem first_below_monotone (P : Params) (a b a' b' : Int) (n : Nat)
    (ha0 : 0 ≤ a) (ha : a ≤ a') (ha' : a' < 2147483648)
    (hb0 : 0 ≤ b) (hb : b ≤ b') (hb' : b' < 2147483648) :
    (first_below P a b n 0).getD n ≤ (first_below P a' b' n 0).getD n ∧
    (∀ k', first_below P a' b' n 0 = some k' →
      ∃ k, first_below P a b n 0 = some k ∧ k ≤ k') := by
  have hmono := fun i => below_minfree_antitone P a b a' b' i ha0 ha ha' hb0 hb hb'
  have key : ∀ k', first_below P a' b' n 0 = some k' →
      ∃ k, first_below P a b n 0 = some k ∧ k ≤ k' := by
    intro k' hk'
    obtain ⟨_, hlt, hbel, _⟩ := (first_below_some P a' b' n 0 k').1 hk'
    cases hk : first_below P a b n 0 with
    | none =>
      have := (first_below_none P a b n 0).1 hk k' (Nat.zero_le _) hlt
      rw [hmono k' hbel] at this
      cases this
    | some k =>
      refine ⟨k, rfl, ?_⟩
      obtain ⟨_, _, _, hmin⟩ := (first_below_some P a b n 0 k).1 hk
      by_contra hcon
      have := hmin k' (Nat.zero_le _) (by omega)
      rw [hmono k' hbel] at this
      cases this
  refine ⟨?_, key⟩
  cases hk' : first_below P a' b' n 0 with
  | none =>
    cases hk : first_below P a b n 0 with
    | none => exact le_refl _
    | some k =>
      obtain ⟨_, hlt, _, _⟩ := (first_below_some P a b n 0 k).1 hk
      simp only [Option.getD_some, Option.getD_none]
      omega
  | some k' =>
    obtain ⟨k, hk, hle⟩ := key k' hk'
    rw [hk]
    exact hle

theorem other_free_range (vm : vm_stat) :
    -2147483648 ≤ other_free vm ∧ other_free vm < 2147483648 := to_int_range _

theorem other_file_range (vm : vm_stat) :
    -2147483648 ≤ other_file vm ∧ other_file vm < 2147483648 := to_int_range _

/-- C29 (as amended): classification is monotone in available memory, for every table.  For
non-negative counters with `other_free ≤ other_free'` and `other_file ≤ other_file'`
the index at which the loop breaks for the primed pair, counted as `array_size` when
it does not break, is at least the one for the unprimed pair.  Hence, when
`lowmem_adj` does not decrease below `array_size`, the primed pair gives either no
threshold at all (`min_adj` stays `OOM_ADJUST_MAX + 1`, nothing is killed) or a
`min_adj` at least the unprimed one; no process of `oom_adj` at most `OOM_ADJUST_MAX`
is at or above the primed `min_adj` without being at or above the unprimed one; and
`min_adj ≤ min_adj'` holds as numbers when no entry exceeds `OOM_ADJUST_MAX + 1`. -/
theorem classification_monotone (K : Kernel) (P : Params) (vm vm' : vm_stat)
    (hfree0 : 0 ≤ other_free vm) (hfree : other_free vm ≤ other_free vm')
    (hfile0 : 0 ≤ other_file vm) (hfile : other_file vm ≤ other_file vm') :
    (first_below P (other_free vm) (other_file vm) (array_size P).toNat 0).getD
        (array_size P).toNat ≤
      (first_below P (other_free vm') (other_file vm') (array_size P).toNat 0).getD
        (array_size P).toNat ∧
    ((∀ i j : Nat, i ≤ j → (j : Int) < array_size P →
        P.lowmem_adj.getD i 0 ≤ P.lowmem_adj.getD j 0) →
      (lowmem_min_adj K P (other_free vm') (other_file vm') = K.OOM_ADJUST_MAX + 1 ∨
        lowmem_min_adj K P (other_free vm) (other_file vm) ≤
          lowmem_min_adj K P (other_free vm') (other_file vm')) ∧
      (∀ oom_adj : Int, oom_adj ≤ K.OOM_ADJUST_MAX →
        lowmem_min_adj K P (other_free vm') (other_file vm') ≤ oom_adj →
        lowmem_min_adj K P (other_free vm) (other_file vm) ≤ oom_adj) ∧
      ((∀ i : Nat, (i : Int) < array_size P →
          P.lowmem_adj.getD i 0 ≤ K.OOM_ADJUST_MAX + 1) →
        lowmem_min_adj K P (other_free vm) (other_file vm) ≤
          lowmem_min_adj K P (other_free vm') (other_file vm'))) := by
  obtain ⟨hidx, hkey⟩ := first_below_monotone P (other_free vm) (other_file vm)
    (other_free vm') (other_file vm') (array_size P).toNat hfree0 hfree
    (other_free_range vm').2 hfile0 hfile (other_file_range vm').2
  refine ⟨hidx, fun hsorted => ?_⟩
  cases hk' : first_below P (other_free vm') (other_file vm') (array_size P).toNat 0 with
  | none =>
    have hmax : lowmem_min_adj K P (other_free vm') (other_file vm') = K.OOM_ADJUST_MAX + 1 := by
      simp [lowmem_min_adj, hk']
    refine ⟨Or.inl hmax, fun adj hadj hle => ?_, fun hbound => ?_⟩
    · rw [hmax] at hle; omega
    · rw [hmax]
      cases hk : first_below P (other_free vm) (other_file vm) (array_size P).toNat 0 with
      | none =>
        have : lowmem_min_adj K P (other_free vm) (other_file vm) = K.OOM_ADJUST_MAX + 1 := by
          simp [lowmem_min_adj, hk]
        rw [this]
      | some k =>
        obtain ⟨_, hlt, _, _⟩ := (first_below_some P _ _ _ 0 k).1 hk
        have : lowmem_min_adj K P (other_free vm) (other_file vm) = P.lowmem_adj.getD k 0 := by
          simp [lowmem_min_adj, hk]
        rw [this]
        exact hbound k (by omega)
  | some k' =>
    obtain ⟨k, hk, hle⟩ := hkey k' hk'
    obtain ⟨_, hlt, _, _⟩ := (first_below_some P _ _ _ 0 k').1 hk'
    have h1 : lowmem_min_adj K P (other_free vm) (other_file vm) = P.lowmem_adj.getD k 0 := by
      simp [lowmem_min_adj, hk]
    have h2 : lowmem_min_adj K P (other_free vm') (other_file vm') = P.lowmem_adj.getD k' 0 := by
      simp [lowmem_min_adj, hk']
    have h3 := hsorted k k' hle (by omega)
    rw [h1, h2]
    exact ⟨Or.inr h3, fun adj _ h => le_trans h3 h, fun _ => h3⟩

/-- C29, witness: with the compiled-in table, 1000 free and 1000 file pages stop the
loop at index 0 (`min_adj` 0), 3000 free and 5000 file pages at index 3
(`min_adj` 12). -/
theorem classification_monotone_witness :
    (first_below (default_params linux) (other_free vm_pressure) (other_file vm_pressure)
        (array_size (default_params linux)).toNat 0).getD
        (array_size (default_params linux)).toNat = 0 ∧
    (first_below (default_params linux) (other_free vm_relieved) (other_file vm_relieved)
        (array_size (default_params linux)).toNat 0).getD
        (array_size (default_params linux)).toNat = 3 ∧
    lowmem_min_adj linux (default_params linux) (other_free vm_pressure)
        (other_file vm_pressure) ≤
      lowmem_min_adj linux (default_params linux) (other_free vm_relieved)
        (other_file vm_relieved) ∧
    lowmem_min_adj linux (default_params linux) (other_free vm_relieved)
      (other_file vm_relieved) = 12 := by
  have h := classification_monotone linux (default_params linux) vm_pressure vm_relieved
    (by decide) (by decide) (by decide) (by decide)
  have hsorted : ∀ i j : Nat, i ≤ j → (j : Int) < array_size (default_params linux) →
      (default_params linux).lowmem_adj.getD i 0 ≤
        (default_params linux).lowmem_adj.getD j 0 := by
    intro i j hij hj
    have hj4 : j < 4 := by
      have : array_size (default_params linux) = 4 := by decide
      omega
    interval_cases j <;> interval_cases i <;> decide
  have hbound : ∀ i : Nat, (i : Int) < array_size (default_params linux) →
      (default_params linux).lowmem_adj.getD i 0 ≤ linux.OOM_ADJUST_MAX + 1 := by
    intro i hi
    have hi4 : i < 4 := by
      have : array_size (default_params linux) = 4 := by decide
      omega
    interval_cases i <;> decide
  exact ⟨by decide, by decide, (h.2 hsorted).2.2 hbound, by decide⟩

/-- C29, counterexample: with the thresholds 0, 1, 6, 17, which do not decrease, and
the compiled-in floors, 5000 free and 5000 file pages stop the loop at index 3 and
give `min_adj = 17`; with 20000 of each the loop does not stop and `min_adj` is
`OOM_ADJUST_MAX + 1 = 16`: more free memory, and a lower `min_adj`. -/
theorem classification_sentinel_counterexample :
    params_high_threshold.lowmem_adj = [0, 1, 6, 17] ∧
    (0 ≤ other_free vm_5000 ∧ other_free vm_5000 ≤ other_free vm_20000) ∧
    (0 ≤ other_file vm_5000 ∧ other_file vm_5000 ≤ other_file vm_20000) ∧
    lowmem_min_adj linux params_high_threshold (other_free vm_5000) (other_file vm_5000)
      = 17 ∧
    lowmem_min_adj linux params_high_threshold (other_free vm_20000) (other_file vm_20000)
      = 16 ∧
    lowmem_min_adj linux params_high_threshold (other_free vm_20000) (other_file vm_20000) <
      lowmem_min_adj linux params_high_threshold (other_free vm_5000) (other_file vm_5000) := by
  decide

/-! ## The debug level -/

/-- The local variables of the basic loop other than the messages do not depend on
the module parameters. -/
theorem scan_body_params_irrelevant (P P' : Params) (m : Int) (s s' : Selection)
    (p : task_struct)
    (h : s.selected = s'.selected ∧ s.selected_tasksize = s'.selected_tasksize ∧
      s.selected_oom_adj = s'.selected_oom_adj) :
    (scan_body P m s p).selected = (scan_body P' m s' p).selected ∧
    (scan_body P m s p).selected_tasksize = (scan_body P' m s' p).selected_tasksize ∧
    (scan_body P m s p).selected_oom_adj = (scan_body P' m s' p).selected_oom_adj := by
  obtain ⟨h1, h2, h3⟩ := h
  unfold scan_body
  cases candidate m p with
  | none => exact ⟨h1, h2, h3⟩
  | some az =>
    obtain ⟨a, z⟩ := az
    simp only [h1, h2, h3]
    split_ifs
    · exact ⟨h1, h2, h3⟩
    · exact ⟨h1, h2, h3⟩
    · exact ⟨rfl, rfl, rfl⟩

theorem scan_foldl_params_irrelevant (P P' : Params) (m : Int) (l : List task_struct) :
    ∀ s s' : Selection,
      (s.selected = s'.selected ∧ s.selected_tasksize = s'.selected_tasksize ∧
        s.selected_oom_adj = s'.selected_oom_adj) →
      (l.foldl (scan_body P m) s).selected = (l.foldl (scan_body P' m) s').selected ∧
      (l.foldl (scan_body P m) s).selected_tasksize =
        (l.foldl (scan_body P' m) s').selected_tasksize ∧
      (l.foldl (scan_body P m) s).selected_oom_adj =
        (l.foldl (scan_body P' m) s').selected_oom_adj := by
  induction l with
  | nil => intro s s' h; exact h
  | cons p l ih =>
    intro s s' h
    simp only [List.foldl_cons]
    exact ih _ _ (scan_body_params_irrelevant P P' m s s' p h)

/-- The selection of the basic loop depends neither on the module parameters nor on
the messages printed before it. -/
theorem scan_params_irrelevant (P P' : Params) (m : Int) (log log' : List LogMsg)
    (tasks : List task_struct) :
    (scan P m log tasks).selected = (scan P' m log' tasks).selected ∧
    (scan P m log tasks).selected_tasksize = (scan P' m log' tasks).selected_tasksize ∧
    (scan P m log tasks).selected_oom_adj = (scan P' m log' tasks).selected_oom_adj :=
  scan_foldl_params_irrelevant P P' m tasks _ _ ⟨rfl, rfl, rfl⟩

/-- The classification reads the two tables and their sizes only. -/
theorem lowmem_min_adj_congr (K : Kernel) (P P' : Params) (a b : Int)
    (h1 : P'.lowmem_adj = P.lowmem_adj) (h2 : P'.lowmem_adj_size = P.lowmem_adj_size)
    (h3 : P'.lowmem_minfree = P.lowmem_minfree)
    (h4 : P'.lowmem_minfree_size = P.lowmem_minfree_size) :
    lowmem_min_adj K P' a b = lowmem_min_adj K P a b := by
  have hsize : array_size P' = array_size P := by
    unfold array_size; rw [h2, h4]
  have hfirst : ∀ n i, first_below P' a b n i = first_below P a b n i := by
    intro n
    induction n with
    | zero => intro i; rfl
    | succ n ih =>
      intro i
      unfold first_below
      rw [ih (i + 1)]
      unfold below_minfree
      rw [h3]
  unfold lowmem_min_adj
  rw [hsize, hfirst, h1]

/-- Two sets of module parameters that differ in `lowmem_debug_level` only give the
same call but for the messages printed. -/
theorem lowmem_shrink_params_log_only (K : Kernel) (P P' : Params) (st : State) (c : Call)
    (h1 : P'.lowmem_adj = P.lowmem_adj) (h2 : P'.lowmem_adj_size = P.lowmem_adj_size)
    (h3 : P'.lowmem_minfree = P.lowmem_minfree)
    (h4 : P'.lowmem_minfree_size = P.lowmem_minfree_size)
    (h5 : P'.timeout = P.timeout) :
    (lowmem_shrink K P' st c).ret = (lowmem_shrink K P st c).ret ∧
    (lowmem_shrink K P' st c).force_sig = (lowmem_shrink K P st c).force_sig ∧
    (lowmem_shrink K P' st c).state = (lowmem_shrink K P st c).state ∧
    (lowmem_shrink K P' st c).visited = (lowmem_shrink K P st c).visited ∧
    (lowmem_shrink K P' st c).lmk_running_writes =
      (lowmem_shrink K P st c).lmk_running_writes := by
  have hadj := lowmem_min_adj_congr K P P' (other_free c.vm) (other_file c.vm) h1 h2 h3 h4
  by_cases hb : death_outstanding K st c.jiffies = true
  · rw [lowmem_shrink_blocked K P st c hb, lowmem_shrink_blocked K P' st c hb]
    exact ⟨rfl, rfl, rfl, rfl, rfl⟩
  · have hb' : death_outstanding K st c.jiffies = false := by simpa using hb
    by_cases he : c.nr_to_scan = 0 ∨
        lowmem_min_adj K P (other_free c.vm) (other_file c.vm) = K.OOM_ADJUST_MAX + 1
    · obtain ⟨a1, a2, a3, a4, a5⟩ := lowmem_shrink_early K P st c hb' he
      obtain ⟨b1, b2, b3, b4, b5⟩ := lowmem_shrink_early K P' st c hb' (by rw [hadj]; exact he)
      rw [a1, a2, a3, a4, a5, b1, b2, b3, b4, b5]
      exact ⟨rfl, rfl, rfl, rfl, rfl⟩
    · rw [not_or] at he
      have hscan : 0 < c.nr_to_scan := by omega
      have hne' : lowmem_min_adj K P' (other_free c.vm) (other_file c.vm) ≠
          K.OOM_ADJUST_MAX + 1 := by rw [hadj]; exact he.2
      obtain ⟨v1, v2⟩ := lowmem_shrink_scan_visited K P st c hb' hscan he.2
      obtain ⟨w1, w2⟩ := lowmem_shrink_scan_visited K P' st c hb' hscan hne'
      obtain ⟨log, hP⟩ := lowmem_shrink_scan_cases K P st c hb' hscan he.2
      obtain ⟨log', hP'⟩ := lowmem_shrink_scan_cases K P' st c hb' hscan hne'
      rw [hadj] at hP'
      obtain ⟨e1, e2, _⟩ := scan_params_irrelevant P' P
        (lowmem_min_adj K P (other_free c.vm) (other_file c.vm)) log' log c.tasks
      rw [e1, e2, h5] at hP'
      rw [v1, v2, w1, w2]
      rcases hP with ⟨s0, a1, a2, a3⟩ | ⟨v, s0, a1, a2, a3⟩
      · rcases hP' with ⟨_, b1, b2, b3⟩ | ⟨v', s1, _⟩
        · rw [a1, a2, a3, b1, b2, b3]
          exact ⟨rfl, rfl, rfl, rfl, rfl⟩
        · rw [s0] at s1; cases s1
      · rcases hP' with ⟨s1, _⟩ | ⟨v', s1, b1, b2, b3⟩
        · rw [s0] at s1; cases s1
        · rw [s0] at s1
          cases s1
          rw [a1, a2, a3, b1, b2, b3]
          exact ⟨rfl, rfl, rfl, rfl, rfl⟩

/-- The local variables of the enhanced loop other than the messages do not depend on
the module parameters. -/
theorem scan_body_enhanced_params_irrelevant (P P' : Params) (m : Int) (s s' : ESelection)
    (p : task_struct)
    (h : s.selected = s'.selected ∧ s.selected_tasksize = s'.selected_tasksize ∧
      s.selected_oom_adj = s'.selected_oom_adj ∧ s.all_selected_oom = s'.all_selected_oom ∧
      s.max_selected_oom_idx = s'.max_selected_oom_idx) :
    (scan_body_enhanced P m s p).selected = (scan_body_enhanced P' m s' p).selected ∧
    (scan_body_enhanced P m s p).selected_tasksize =
      (scan_body_enhanced P' m s' p).selected_tasksize ∧
    (scan_body_enhanced P m s p).selected_oom_adj =
      (scan_body_enhanced P' m s' p).selected_oom_adj ∧
    (scan_body_enhanced P m s p).all_selected_oom =
      (scan_body_enhanced P' m s' p).all_selected_oom ∧
    (scan_body_enhanced P m s p).max_selected_oom_idx =
      (scan_body_enhanced P' m s' p).max_selected_oom_idx := by
  obtain ⟨h1, h2, h3, h4, h5⟩ := h
  unfold scan_body_enhanced
  cases candidate m p with
  | none => exact ⟨h1, h2, h3, h4, h5⟩
  | some az =>
    obtain ⟨a, z⟩ := az
    have hf : find_slot s a z = find_slot s' a z := by
      unfold find_slot; rw [h1, h2, h3, h4, h5]
    dsimp only
    rw [hf, h1, h2, h3, h4]
    split_ifs <;> exact ⟨rfl, rfl, rfl, rfl, rfl⟩

theorem scan_enhanced_foldl_params_irrelevant (P P' : Params) (m : Int)
    (l : List task_struct) :
    ∀ s s' : ESelection,
      (s.selected = s'.selected ∧ s.selected_tasksize = s'.selected_tasksize ∧
        s.selected_oom_adj = s'.selected_oom_adj ∧
        s.all_selected_oom = s'.all_selected_oom ∧
        s.max_selected_oom_idx = s'.max_selected_oom_idx) →
      (l.foldl (scan_body_enhanced P m) s).selected =
        (l.foldl (scan_body_enhanced P' m) s').selected ∧
      (l.foldl (scan_body_enhanced P m) s).selected_tasksize =
        (l.foldl (scan_body_enhanced P' m) s').selected_tasksize := by
  induction l with
  | nil => intro s s' h; exact ⟨h.1, h.2.1⟩
  | cons p l ih =>
    intro s s' h
    simp only [List.foldl_cons]
    exact ih _ _ (scan_body_enhanced_params_irrelevant P P' m s s' p h)

/-- The slots the enhanced loop fills depend neither on the module parameters nor on
the messages printed before it. -/
theorem scan_enhanced_params_irrelevant (P P' : Params) (m : Int) (log log' : List LogMsg)
    (tasks : List task_struct) :
    (scan_enhanced P m log tasks).selected = (scan_enhanced P' m log' tasks).selected ∧
    (scan_enhanced P m log tasks).selected_tasksize =
      (scan_enhanced P' m log' tasks).selected_tasksize :=
  scan_enhanced_foldl_params_irrelevant P P' m tasks _ _ ⟨rfl, rfl, rfl, rfl, rfl⟩

theorem kill_body_enhanced_params_irrelevant (K : Kernel) (P P' : Params) (jiffies : Nat)
    (s s' : ESelection) (k k' : EKill) (i : Nat)
    (hs : s.selected = s'.selected ∧ s.selected_tasksize = s'.selected_tasksize)
    (hk : k.lowmem_deathpending = k'.lowmem_deathpending ∧
      k.lowmem_deathpending_timeout = k'.lowmem_deathpending_timeout ∧
      k.force_sig = k'.force_sig ∧ k.rem = k'.rem) :
    (kill_body_enhanced K P jiffies s k i).lowmem_deathpending =
      (kill_body_enhanced K P' jiffies s' k' i).lowmem_deathpending ∧
    (kill_body_enhanced K P jiffies s k i).lowmem_deathpending_timeout =
      (kill_body_enhanced K P' jiffies s' k' i).lowmem_deathpending_timeout ∧
    (kill_body_enhanced K P jiffies s k i).force_sig =
      (kill_body_enhanced K P' jiffies s' k' i).force_sig ∧
    (kill_body_enhanced K P jiffies s k i).rem =
      (kill_body_enhanced K P' jiffies s' k' i).rem := by
  obtain ⟨s1, s2⟩ := hs
  obtain ⟨k1, k2, k3, k4⟩ := hk
  unfold kill_body_enhanced
  rw [s1, s2]
  cases s'.selected.getD i none with
  | none => exact ⟨k1, k2, k3, k4⟩
  | some p =>
    rw [k1, k3, k4]
    exact ⟨rfl, rfl, rfl, rfl⟩

theorem kill_enhanced_foldl_params_irrelevant (K : Kernel) (P P' : Params) (jiffies : Nat)
    (s s' : ESelection)
    (hs : s.selected = s'.selected ∧ s.selected_tasksize = s'.selected_tasksize)
    (l : List Nat) :
    ∀ k k' : EKill,
      (k.lowmem_deathpending = k'.lowmem_deathpending ∧
        k.lowmem_deathpending_timeout = k'.lowmem_deathpending_timeout ∧
        k.force_sig = k'.force_sig ∧ k.rem = k'.rem) →
      (l.foldl (kill_body_enhanced K P jiffies s) k).lowmem_deathpending =
        (l.foldl (kill_body_enhanced K P' jiffies s') k').lowmem_deathpending ∧
      (l.foldl (kill_body_enhanced K P jiffies s) k).lowmem_deathpending_timeout =
        (l.foldl (kill_body_enhanced K P' jiffies s') k').lowmem_deathpending_timeout ∧
      (l.foldl (kill_body_enhanced K P jiffies s) k).force_sig =
        (l.foldl (kill_body_enhanced K P' jiffies s') k').force_sig ∧
      (l.foldl (kill_body_enhanced K P jiffies s) k).rem =
        (l.foldl (kill_body_enhanced K P' jiffies s') k').rem := by
  induction l with
  | nil => intro k k' h; exact h
  | cons i l ih =>
    intro k k' h
    simp only [List.foldl_cons]
    exact ih _ _ (kill_body_enhanced_params_irrelevant K P P' jiffies s s' k k' i hs h)

/-- In the enhanced build too, two sets of module parameters that differ in
`lowmem_debug_level` or `timeout` only give the same call but for the messages. -/
theorem lowmem_shrink_enhanced_params_log_only (K : Kernel) (P P' : Params) (st : EState)
    (c : Call)
    (h1 : P'.lowmem_adj = P.lowmem_adj) (h2 : P'.lowmem_adj_size = P.lowmem_adj_size)
    (h3 : P'.lowmem_minfree = P.lowmem_minfree)
    (h4 : P'.lowmem_minfree_size = P.lowmem_minfree_size) :
    (lowmem_shrink_enhanced K P' st c).ret = (lowmem_shrink_enhanced K P st c).ret ∧
    (lowmem_shrink_enhanced K P' st c).force_sig =
      (lowmem_shrink_enhanced K P st c).force_sig ∧
    (lowmem_shrink_enhanced K P' st c).state = (lowmem_shrink_enhanced K P st c).state ∧
    (lowmem_shrink_enhanced K P' st c).visited = (lowmem_shrink_enhanced K P st c).visited ∧
    (lowmem_shrink_enhanced K P' st c).lmk_running_writes =
      (lowmem_shrink_enhanced K P st c).lmk_running_writes := by
  have hadj := lowmem_min_adj_congr K P P' (other_free c.vm) (other_file c.vm) h1 h2 h3 h4
  by_cases hb : death_outstanding_enhanced K st c.jiffies = true
  · rw [lowmem_shrink_enhanced_blocked K P st c hb,
      lowmem_shrink_enhanced_blocked K P' st c hb]
    exact ⟨rfl, rfl, rfl, rfl, rfl⟩
  · have hb' : death_outstanding_enhanced K st c.jiffies = false := by simpa using hb
    by_cases he : c.nr_to_scan = 0 ∨
        lowmem_min_adj K P (other_free c.vm) (other_file c.vm) = K.OOM_ADJUST_MAX + 1
    · obtain ⟨a1, a2, a3, a4, a5⟩ := lowmem_shrink_enhanced_early K P st c hb' he
      obtain ⟨b1, b2, b3, b4, b5⟩ :=
        lowmem_shrink_enhanced_early K P' st c hb' (by rw [hadj]; exact he)
      rw [a1, a2, a3, a4, a5, b1, b2, b3, b4, b5]
      exact ⟨rfl, rfl, rfl, rfl, rfl⟩
    · rw [not_or] at he
      have hscan : 0 < c.nr_to_scan := by omega
      have hnr : ¬ c.nr_to_scan ≤ 0 := by omega
      obtain ⟨k1, k2, k3, k4⟩ := kill_enhanced_foldl_params_irrelevant K P' P c.jiffies _ _
        (scan_enhanced_params_irrelevant P' P
          (lowmem_min_adj K P (other_free c.vm) (other_file c.vm))
          (lowmem_print P' 3 (.shrink c.nr_to_scan c.gfp_mask (other_free c.vm)
            (other_file c.vm) (lowmem_min_adj K P (other_free c.vm) (other_file c.vm))) [])
          (lowmem_print P 3 (.shrink c.nr_to_scan c.gfp_mask (other_free c.vm)
            (other_file c.vm) (lowmem_min_adj K P (other_free c.vm) (other_file c.vm))) [])
          c.tasks)
        (List.range LOWMEM_DEATHPENDING_DEPTH)
        { lowmem_deathpending := st.lowmem_deathpending
          lowmem_deathpending_timeout := st.lowmem_deathpending_timeout
          force_sig := []
          rem := lowmem_rem c.vm
          log := (scan_enhanced P' (lowmem_min_adj K P (other_free c.vm) (other_file c.vm))
            (lowmem_print P' 3 (.shrink c.nr_to_scan c.gfp_mask (other_free c.vm)
              (other_file c.vm) (lowmem_min_adj K P (other_free c.vm) (other_file c.vm))) [])
            c.tasks).log }
        { lowmem_deathpending := st.lowmem_deathpending
          lowmem_deathpending_timeout := st.lowmem_deathpending_timeout
          force_sig := []
          rem := lowmem_rem c.vm
          log := (scan_enhanced P (lowmem_min_adj K P (other_free c.vm) (other_file c.vm))
            (lowmem_print P 3 (.shrink c.nr_to_scan c.gfp_mask (other_free c.vm)
              (other_file c.vm) (lowmem_min_adj K P (other_free c.vm) (other_file c.vm))) [])
            c.tasks).log }
        ⟨rfl, rfl, rfl, rfl⟩
      unfold lowmem_shrink_enhanced
      simp only [hadj, hb', Bool.false_eq_true, if_false, hscan, gt_iff_lt, if_true, hnr, he.2,
        or_self]
      rw [k1, k2, k3, k4]
      exact ⟨rfl, rfl, rfl, trivial, trivial⟩

/-- What `lowmem_debug_level` does change: the messages printed.  At level 0 the call
that kills task 2 prints nothing, at level 5 it prints five messages. -/
theorem debug_level_gates_messages :
    (lowmem_shrink linux { default_params linux with lowmem_debug_level := 0 } state_idle
      call_kill).printk = [] ∧
    (lowmem_shrink linux { default_params linux with lowmem_debug_level := 5 } state_idle
      call_kill).printk.length = 5 := by
  decide

/-- C21: the debug level has no behavioural effect.  For every two values `d` and
`d'` of `lowmem_debug_level`, with the tables, `timeout`, counters, process list and
static variables the same, `lowmem_shrink` returns the same value, forces `SIGKILL`
on the same tasks, leaves the same static variables (`lowmem_deathpending`, its
deadline and the `s_reclaim` flags), visits the same processes and writes the same
values to `lmk_running`; so does the enhanced build. -/
theorem debug_level_no_effect (K : Kernel) (P : Params) (d d' : Nat) (st : State)
    (est : EState) (c : Call) :
    ((lowmem_shrink K { P with lowmem_debug_level := d } st c).ret =
        (lowmem_shrink K { P with lowmem_debug_level := d' } st c).ret ∧
      (lowmem_shrink K { P with lowmem_debug_level := d } st c).force_sig =
        (lowmem_shrink K { P with lowmem_debug_level := d' } st c).force_sig ∧
      (lowmem_shrink K { P with lowmem_debug_level := d } st c).state =
        (lowmem_shrink K { P with lowmem_debug_level := d' } st c).state ∧
      (lowmem_shrink K { P with lowmem_debug_level := d } st c).visited =
        (lowmem_shrink K { P with lowmem_debug_level := d' } st c).visited ∧
      (lowmem_shrink K { P with lowmem_debug_level := d } st c).lmk_running_writes =
        (lowmem_shrink K { P with lowmem_debug_level := d' } st c).lmk_running_writes) ∧
    ((lowmem_shrink_enhanced K { P with lowmem_debug_level := d } est c).ret =
        (lowmem_shrink_enhanced K { P with lowmem_debug_level := d' } est c).ret ∧
      (lowmem_shrink_enhanced K { P with lowmem_debug_level := d } est c).force_sig =
        (lowmem_shrink_enhanced K { P with lowmem_debug_level := d' } est c).force_sig ∧
      (lowmem_shrink_enhanced K { P with lowmem_debug_level := d } est c).state =
        (lowmem_shrink_enhanced K { P with lowmem_debug_level := d' } est c).state ∧
      (lowmem_shrink_enhanced K { P with lowmem_debug_level := d } est c).visited =
        (lowmem_shrink_enhanced K { P with lowmem_debug_level := d' } est c).visited ∧
      (lowmem_shrink_enhanced K { P with lowmem_debug_level := d } est c).lmk_running_writes =
        (lowmem_shrink_enhanced K { P with lowmem_debug_level := d' } est
          c).lmk_running_writes) :=
  ⟨lowmem_shrink_params_log_only K { P with lowmem_debug_level := d' }
      { P with lowmem_debug_level := d } st c rfl rfl rfl rfl rfl,
    lowmem_shrink_enhanced_params_log_only K { P with lowmem_debug_level := d' }
      { P with lowmem_debug_level := d } est c rfl rfl rfl rfl⟩

/-! ## The flag lmk_running -/

/-- The three ways a call of `lowmem_shrink` ends, with what each does to
`lmk_running`. -/
theorem lowmem_shrink_lmk_running (K : Kernel) (P : Params) (st : State) (c : Call) :
    ((death_outstanding K st c.jiffies = false ∧ 0 < c.nr_to_scan ∧
        lowmem_min_adj K P (other_free c.vm) (other_file c.vm) ≠ K.OOM_ADJUST_MAX + 1) ∧
      (lowmem_shrink K P st c).visited = c.tasks.map (·.task) ∧
      (lowmem_shrink K P st c).lmk_running_writes = [1, 0] ∧
      (lowmem_shrink K P st c).state.s_reclaim.lmk_running = 0) ∨
    (¬ (death_outstanding K st c.jiffies = false ∧ 0 < c.nr_to_scan ∧
        lowmem_min_adj K P (other_free c.vm) (other_file c.vm) ≠ K.OOM_ADJUST_MAX + 1) ∧
      (lowmem_shrink K P st c).visited = [] ∧
      (lowmem_shrink K P st c).lmk_running_writes = [] ∧
      (lowmem_shrink K P st c).state = st) := by
  by_cases hb : death_outstanding K st c.jiffies = true
  · right
    rw [lowmem_shrink_blocked K P st c hb]
    exact ⟨fun h => (by rw [hb] at h; cases h.1), rfl, rfl, rfl⟩
  · have hb' : death_outstanding K st c.jiffies = false := by simpa using hb
    by_cases he : c.nr_to_scan = 0 ∨
        lowmem_min_adj K P (other_free c.vm) (other_file c.vm) = K.OOM_ADJUST_MAX + 1
    · right
      obtain ⟨_, a2, _, a4, a5⟩ := lowmem_shrink_early K P st c hb' he
      refine ⟨fun h => ?_, a4, a5, a2⟩
      rcases he with he | he
      · omega
      · exact h.2.2 he
    · left
      rw [not_or] at he
      have hscan : 0 < c.nr_to_scan := by omega
      obtain ⟨v1, v2⟩ := lowmem_shrink_scan_visited K P st c hb' hscan he.2
      obtain ⟨log, h⟩ := lowmem_shrink_scan_cases K P st c hb' hscan he.2
      refine ⟨⟨hb', hscan, he.2⟩, v1, v2, ?_⟩
      rcases h with ⟨_, _, hs, _⟩ | ⟨v, _, _, hs, _⟩ <;> rw [hs]

/-- No callback leaves `lmk_running` other than 0 when it starts with 0. -/
theorem callback_run_lmk_running (K : Kernel) (time_before : Nat → Nat → Bool)
    (sscanf : String → List Int) (st : State) (cb : Callback)
    (h : st.s_reclaim.lmk_running = 0) :
    (Callback.run K time_before sscanf st cb).s_reclaim.lmk_running = 0 := by
  cases cb with
  | shrink P c =>
    rcases lowmem_shrink_lmk_running K P st c with ⟨_, _, _, h1⟩ | ⟨_, _, _, h1⟩
    · exact h1
    · show (lowmem_shrink K P st c).state.s_reclaim.lmk_running = 0
      rw [h1]; exact h
  | notify data =>
    show (task_notify_func st data).s_reclaim.lmk_running = 0
    unfold task_notify_func
    dsimp only
    split_ifs <;> exact h
  | idle S e =>
    show (could_cswap time_before S st e).state.s_reclaim.lmk_running = 0
    unfold could_cswap
    split_ifs <;> exact h
  | worker S r stop =>
    show (do_compcache S r stop st).state.s_reclaim.lmk_running = 0
    unfold do_compcache
    dsimp only
    split_ifs <;> exact h
  | store v m buf count =>
    show (rtcc_trigger_store sscanf st v m buf count).state.s_reclaim.lmk_running = 0
    unfold rtcc_trigger_store
    dsimp only
    split_ifs <;> exact h
  | need => exact h
  | cancel => exact h

theorem callbacks_seq_lmk_running (K : Kernel) (time_before : Nat → Nat → Bool)
    (sscanf : String → List Int) (l : List Callback) :
    ∀ st : State, st.s_reclaim.lmk_running = 0 →
      (callbacks_end K time_before sscanf st l).s_reclaim.lmk_running = 0 ∧
      ∀ x ∈ callbacks_seq K time_before sscanf st l, x.1.s_reclaim.lmk_running = 0 := by
  induction l with
  | nil =>
    intro st h
    exact ⟨h, fun x hx => by cases hx⟩
  | cons cb l ih =>
    intro st h
    obtain ⟨h1, h2⟩ := ih _ (callback_run_lmk_running K time_before sscanf st cb h)
    refine ⟨h1, fun x hx => ?_⟩
    simp only [callbacks_seq, List.mem_cons] at hx
    rcases hx with rfl | hx
    · exact h
    · exact h2 x hx

/-- C25: the flag `lmk_running`.  A call of `lowmem_shrink` that reaches the scan
(not debounce-blocked, positive budget, a threshold applies) writes 1 to
`lmk_running` before the process loop and 0 after it, and nothing else, so the flag is
0 on return; on the other return paths it writes nothing to it and leaves all static
variables as they were.  Hence, starting from `lmk_running = 0`, after callbacks run
one after the other in any order the flag is 0, every callback starts with the flag
at 0, and `could_cswap` never reads 1 from it. -/
theorem lmk_running_invariant (K : Kernel) (time_before : Nat → Nat → Bool)
    (sscanf : String → List Int) (st0 : State) (l : List Callback)
    (h0 : st0.s_reclaim.lmk_running = 0) :
    (∀ (P : Params) (st : State) (c : Call),
      ((death_outstanding K st c.jiffies = false ∧ 0 < c.nr_to_scan ∧
          lowmem_min_adj K P (other_free c.vm) (other_file c.vm) ≠ K.OOM_ADJUST_MAX + 1) ∧
        (lowmem_shrink K P st c).visited = c.tasks.map (·.task) ∧
        (lowmem_shrink K P st c).lmk_running_writes = [1, 0] ∧
        (lowmem_shrink K P st c).state.s_reclaim.lmk_running = 0) ∨
      (¬ (death_outstanding K st c.jiffies = false ∧ 0 < c.nr_to_scan ∧
          lowmem_min_adj K P (other_free c.vm) (other_file c.vm) ≠ K.OOM_ADJUST_MAX + 1) ∧
        (lowmem_shrink K P st c).visited = [] ∧
        (lowmem_shrink K P st c).lmk_running_writes = [] ∧
        (lowmem_shrink K P st c).state = st)) ∧
    (∀ (P : Params) (c : Call),
      (lowmem_shrink K P st0 c).state.s_reclaim.lmk_running = 0) ∧
    (callbacks_end K time_before sscanf st0 l).s_reclaim.lmk_running = 0 ∧
    (∀ x ∈ callbacks_seq K time_before sscanf st0 l, x.1.s_reclaim.lmk_running = 0) ∧
    (∀ (st : State) (S : SoftParams) (e : Idle),
      (st, Callback.idle S e) ∈ callbacks_seq K time_before sscanf st0 l →
        st.s_reclaim.lmk_running ≠ 1) := by
  obtain ⟨h1, h2⟩ := callbacks_seq_lmk_running K time_before sscanf l st0 h0
  refine ⟨lowmem_shrink_lmk_running K, fun P c => ?_, h1, h2, fun st S e hmem => ?_⟩
  · exact callback_run_lmk_running K time_before sscanf st0 (.shrink P c) h0
  · have := h2 _ hmem
    dsimp only at this
    rw [this]
    decide

/-- C25, witness: from the initial static variables a write requests a reclaim, a
scan kills task 2, the task exits, an idle moment wakes the worker, the worker makes
a pass, a scan returns early and another idle moment follows: the flag is 0 at the
end, and the kill wrote 1 then 0 to it. -/
theorem lmk_running_invariant_witness :
    state_idle.s_reclaim.lmk_running = 0 ∧
    (callbacks_end linux jiffies_before sscanf_ld_ld state_idle
      callbacks_example).s_reclaim.lmk_running = 0 ∧
    (∀ x ∈ callbacks_seq linux jiffies_before sscanf_ld_ld state_idle callbacks_example,
      x.1.s_reclaim.lmk_running = 0) ∧
    (lowmem_shrink linux (default_params linux) state_idle call_kill).lmk_running_writes
      = [1, 0] ∧
    (callbacks_seq linux jiffies_before sscanf_ld_ld state_idle callbacks_example).length
      = 7 :=
  ⟨rfl,
    (lmk_running_invariant linux jiffies_before sscanf_ld_ld state_idle callbacks_example
      rfl).2.2.1,
    (lmk_running_invariant linux jiffies_before sscanf_ld_ld state_idle callbacks_example
      rfl).2.2.2.1,
    by decide, by decide⟩

/-! ## The first of the maximal candidates -/

/-- One iteration of the basic loop with a candidate held: the local variables stay
as they are, or the process is a candidate that strictly beats the held pair and
takes its place. -/
theorem scan_body_replaces_strictly (P : Params) (m : Int) (s : Selection)
    (p : task_struct) (h : s.selected.isSome = true) :
    (scan_body P m s p = s ∧
      ∀ a z, candidate m p = some (a, z) →
        ¬ lex_lt (s.selected_oom_adj, s.selected_tasksize) (a, z)) ∨
    (∃ a z, candidate m p = some (a, z) ∧
      lex_lt (s.selected_oom_adj, s.selected_tasksize) (a, z) ∧
      (scan_body P m s p).selected = some p ∧
      (scan_body P m s p).selected_oom_adj = a ∧
      (scan_body P m s p).selected_tasksize = z) := by
  unfold scan_body
  cases hc : candidate m p with
  | none => left; exact ⟨rfl, fun a z h => by cases h⟩
  | some az =>
    obtain ⟨a, z⟩ := az
    dsimp only
    split_ifs with h1 h2
    · left
      refine ⟨rfl, fun a' z' h' => ?_⟩
      cases h'
      unfold lex_lt
      dsimp only
      omega
    · left
      refine ⟨rfl, fun a' z' h' => ?_⟩
      cases h'
      unfold lex_lt
      dsimp only
      omega
    · right
      refine ⟨a, z, rfl, ?_, rfl, rfl, rfl⟩
      unfold lex_lt
      dsimp only
      have h1' : ¬ a < s.selected_oom_adj := fun hlt => h1 ⟨h, hlt⟩
      have h2' : ¬ (a = s.selected_oom_adj ∧ z ≤ s.selected_tasksize) :=
        fun hle => h2 ⟨h, hle⟩
      omega

/-- The invariant of the basic loop that places the held process: it stands in the
part of the list already visited, every candidate before it is strictly below the
held pair, and no candidate after it is above. -/
theorem scan_body_first_maximal (P : Params) (m : Int) (s : Selection)
    (seen : List task_struct) (p : task_struct)
    (h : (s.selected = none ∧ ∀ q ∈ seen, candidate m q = none) ∨
      (∃ v pre post, s.selected = some v ∧ seen = pre ++ v :: post ∧
        candidate m v = some (s.selected_oom_adj, s.selected_tasksize) ∧
        (∀ q ∈ pre, ∀ a z, candidate m q = some (a, z) →
          lex_lt (a, z) (s.selected_oom_adj, s.selected_tasksize)) ∧
        (∀ q ∈ post, ∀ a z, candidate m q = some (a, z) →
          ¬ lex_lt (s.selected_oom_adj, s.selected_tasksize) (a, z)))) :
    ((scan_body P m s p).selected = none ∧ ∀ q ∈ seen ++ [p], candidate m q = none) ∨
      (∃ v pre post, (scan_body P m s p).selected = some v ∧
        seen ++ [p] = pre ++ v :: post ∧
        candidate m v =
          some ((scan_body P m s p).selected_oom_adj, (scan_body P m s p).selected_tasksize) ∧
        (∀ q ∈ pre, ∀ a z, candidate m q = some (a, z) →
          lex_lt (a, z)
            ((scan_body P m s p).selected_oom_adj, (scan_body P m s p).selected_tasksize)) ∧
        (∀ q ∈ post, ∀ a z, candidate m q = some (a, z) →
          ¬ lex_lt
            ((scan_body P m s p).selected_oom_adj, (scan_body P m s p).selected_tasksize)
            (a, z))) := by
  cases hc : candidate m p with
  | none =>
    have hs : scan_body P m s p = s := by unfold scan_body; rw [hc]
    rw [hs]
    rcases h with ⟨h1, h2⟩ | ⟨v, pre, post, h1, h2, h3, h4, h5⟩
    · left
      refine ⟨h1, fun q hq => ?_⟩
      rcases List.mem_append.1 hq with hq | hq
      · exact h2 q hq
      · rw [List.mem_singleton.1 hq]; exact hc
    · right
      refine ⟨v, pre, post ++ [p], h1, by rw [h2]; simp, h3, h4, fun q hq a z hq' => ?_⟩
      rcases List.mem_append.1 hq with hq | hq
      · exact h5 q hq a z hq'
      · rw [List.mem_singleton.1 hq, hc] at hq'; cases hq'
  | some az =>
    obtain ⟨a, z⟩ := az
    right
    rcases h with ⟨h1, h2⟩ | ⟨v, pre, post, h1, h2, h3, h4, h5⟩
    · have hs : scan_body P m s p =
          { selected := some p, selected_tasksize := z, selected_oom_adj := a
            log := lowmem_print P 2 (.select p.pid p.comm a z) s.log } := by
        unfold scan_body; rw [hc]; simp [h1]
      rw [hs]
      refine ⟨p, seen, [], rfl, rfl, hc, fun q hq a' z' hq' => ?_, fun q hq => by cases hq⟩
      rw [h2 q hq] at hq'; cases hq'
    · rcases scan_body_replaces_strictly P m s p (by rw [h1]; rfl) with hs | hs
      · obtain ⟨hs, hnot'⟩ := hs
        have hnot := hnot' a z hc
        rw [hs]
        refine ⟨v, pre, post ++ [p], h1, by rw [h2]; simp, h3, h4, fun q hq a' z' hq' => ?_⟩
        rcases List.mem_append.1 hq with hq | hq
        · exact h5 q hq a' z' hq'
        · rw [List.mem_singleton.1 hq, hc] at hq'
          cases hq'
          exact hnot
      · obtain ⟨a', z', hc', hlt, e1, e2, e3⟩ := hs
        rw [hc] at hc'
        cases hc'
        rw [e1, e2, e3]
        refine ⟨p, seen, [], rfl, rfl, hc, fun q hq a' z' hq' => ?_, fun q hq => by cases hq⟩
        rw [h2] at hq
        unfold lex_lt at hlt ⊢
        dsimp only at hlt ⊢
        rcases List.mem_append.1 hq with hq | hq
        · have := h4 q hq a' z' hq'
          unfold lex_lt at this
          dsimp only at this
          omega
        · rcases List.mem_cons.1 hq with hq | hq
          · rw [hq, h3] at hq'
            cases hq'
            omega
          · have := h5 q hq a' z' hq'
            unfold lex_lt at this
            dsimp only at this
            omega

theorem scan_foldl_first_maximal (P : Params) (m : Int) (l : List task_struct) :
    ∀ (s : Selection) (seen : List task_struct),
      ((s.selected = none ∧ ∀ q ∈ seen, candidate m q = none) ∨
        (∃ v pre post, s.selected = some v ∧ seen = pre ++ v :: post ∧
          candidate m v = some (s.selected_oom_adj, s.selected_tasksize) ∧
          (∀ q ∈ pre, ∀ a z, candidate m q = some (a, z) →
            lex_lt (a, z) (s.selected_oom_adj, s.selected_tasksize)) ∧
          (∀ q ∈ post, ∀ a z, candidate m q = some (a, z) →
            ¬ lex_lt (s.selected_oom_adj, s.selected_tasksize) (a, z)))) →
      (((l.foldl (scan_body P m) s).selected = none ∧
          ∀ q ∈ seen ++ l, candidate m q = none) ∨
        (∃ v pre post, (l.foldl (scan_body P m) s).selected = some v ∧
          seen ++ l = pre ++ v :: post ∧
          candidate m v = some ((l.foldl (scan_body P m) s).selected_oom_adj,
            (l.foldl (scan_body P m) s).selected_tasksize) ∧
          (∀ q ∈ pre, ∀ a z, candidate m q = some (a, z) →
            lex_lt (a, z) ((l.foldl (scan_body P m) s).selected_oom_adj,
              (l.foldl (scan_body P m) s).selected_tasksize)) ∧
          (∀ q ∈ post, ∀ a z, candidate m q = some (a, z) →
            ¬ lex_lt ((l.foldl (scan_body P m) s).selected_oom_adj,
              (l.foldl (scan_body P m) s).selected_tasksize) (a, z)))) := by
  induction l with
  | nil =>
    intro s seen h
    simpa using h
  | cons p l ih =>
    intro s seen h
    have := ih (scan_body P m s p) (seen ++ [p]) (scan_body_first_maximal P m s seen p h)
    simpa using this

/-- The process the basic loop ends with is the first in the list to have the
maximal pair: every candidate before it is strictly below, none after it is above. -/
theorem scan_first_maximal (P : Params) (m : Int) (log : List LogMsg)
    (tasks : List task_struct) (v : task_struct)
    (h : (scan P m log tasks).selected = some v) :
    ∃ pre post, tasks = pre ++ v :: post ∧
      candidate m v =
        some ((scan P m log tasks).selected_oom_adj, (scan P m log tasks).selected_tasksize) ∧
      (∀ q ∈ pre, ∀ a z, candidate m q = some (a, z) →
        lex_lt (a, z)
          ((scan P m log tasks).selected_oom_adj, (scan P m log tasks).selected_tasksize)) ∧
      (∀ q ∈ post, ∀ a z, candidate m q = some (a, z) →
        ¬ lex_lt
          ((scan P m log tasks).selected_oom_adj, (scan P m log tasks).selected_tasksize)
          (a, z)) := by
  have := scan_foldl_first_maximal P m tasks
    { selected := none, selected_tasksize := 0, selected_oom_adj := m, log := log } []
    (Or.inl ⟨rfl, fun q hq => by cases hq⟩)
  rw [List.nil_append] at this
  rcases this with ⟨h1, _⟩ | ⟨w, pre, post, h1, h2, h3, h4, h5⟩
  · unfold scan at h
    rw [h1] at h
    cases h
  · have hw : w = v := by
      unfold scan at h
      rw [h1] at h
      exact Option.some.inj h
    rw [hw] at h2 h3
    exact ⟨pre, post, h2, h3, h4, h5⟩

/-- Without a candidate the local variables of the basic loop keep their initial
values. -/
theorem scan_foldl_no_candidate (P : Params) (m : Int) (l : List task_struct) :
    ∀ s : Selection, (∀ q ∈ l, candidate m q = none) →
      l.foldl (scan_body P m) s = s := by
  induction l with
  | nil => intro s _; rfl
  | cons p l ih =>
    intro s h
    have hp : scan_body P m s p = s := by
      unfold scan_body
      rw [h p (List.mem_cons_self _ _)]
    rw [List.foldl_cons, hp]
    exact ih s fun q hq => h q (List.mem_cons_of_mem _ hq)

/-- The pair the basic loop ends with, and whether it ends with a process at all, do
not depend on the order of the process list. -/
theorem scan_perm_pair (P : Params) (m : Int) (log log' : List LogMsg)
    (tasks tasks' : List task_struct) (hperm : tasks'.Perm tasks) :
    (scan P m log' tasks').selected.isSome = (scan P m log tasks).selected.isSome ∧
    (scan P m log' tasks').selected_oom_adj = (scan P m log tasks).selected_oom_adj ∧
    (scan P m log' tasks').selected_tasksize = (scan P m log tasks).selected_tasksize := by
  rcases scan_spec P m log tasks with ⟨h1, h2⟩ | ⟨v, h1, h2, h3, h4⟩
  · have h2' : ∀ q ∈ tasks', candidate m q = none := fun q hq => h2 q (hperm.mem_iff.1 hq)
    have e1 : scan P m log tasks = _ := scan_foldl_no_candidate P m tasks _ h2
    have e2 : scan P m log' tasks' = _ := scan_foldl_no_candidate P m tasks' _ h2'
    rw [e1, e2]
    exact ⟨rfl, rfl, rfl⟩
  · rcases scan_spec P m log' tasks' with ⟨h1', h2'⟩ | ⟨v', h1', h2', h3', h4'⟩
    · have := h2' v (hperm.mem_iff.2 h2)
      rw [this] at h3
      cases h3
    · have a1 := h4 v' (hperm.mem_iff.1 h2') _ _ h3'
      have a2 := h4' v (hperm.mem_iff.2 h2) _ _ h3
      rw [h1, h1']
      refine ⟨rfl, ?_, ?_⟩ <;> omega

/-- What a call of `lowmem_shrink` returns and records, but for the task itself, does
not depend on the order of the process list. -/
theorem lowmem_shrink_perm (K : Kernel) (P : Params) (st : State) (c : Call)
    (tasks' : List task_struct) (hperm : tasks'.Perm c.tasks) :
    (lowmem_shrink K P st { c with tasks := tasks' }).ret = (lowmem_shrink K P st c).ret ∧
    (lowmem_shrink K P st { c with tasks := tasks' }).force_sig.length =
      (lowmem_shrink K P st c).force_sig.length ∧
    (lowmem_shrink K P st { c with tasks := tasks' }).state.lowmem_deathpending_timeout =
      (lowmem_shrink K P st c).state.lowmem_deathpending_timeout := by
  by_cases hb : death_outstanding K st c.jiffies = true
  · rw [lowmem_shrink_blocked K P st c hb,
      lowmem_shrink_blocked K P st { c with tasks := tasks' } hb]
    exact ⟨rfl, rfl, rfl⟩
  · have hb' : death_outstanding K st c.jiffies = false := by simpa using hb
    by_cases he : c.nr_to_scan = 0 ∨
        lowmem_min_adj K P (other_free c.vm) (other_file c.vm) = K.OOM_ADJUST_MAX + 1
    · obtain ⟨a1, a2, a3, _, _⟩ := lowmem_shrink_early K P st c hb' he
      obtain ⟨b1, b2, b3, _, _⟩ :=
        lowmem_shrink_early K P st { c with tasks := tasks' } hb' he
      rw [a1, a2, a3, b1, b2, b3]
      exact ⟨rfl, rfl, rfl⟩
    · rw [not_or] at he
      have hscan : 0 < c.nr_to_scan := by omega
      obtain ⟨log, hP⟩ := lowmem_shrink_scan_cases K P st c hb' hscan he.2
      obtain ⟨log', hP'⟩ :=
        lowmem_shrink_scan_cases K P st { c with tasks := tasks' } hb' hscan he.2
      dsimp only at hP'
      obtain ⟨e1, _, e3⟩ := scan_perm_pair P
        (lowmem_min_adj K P (other_free c.vm) (other_file c.vm)) log log' c.tasks tasks' hperm
      rcases hP with ⟨s0, a1, a2, a3⟩ | ⟨v, s0, a1, a2, a3⟩
      · rcases hP' with ⟨_, b1, b2, b3⟩ | ⟨v', s1, _⟩
        · rw [a1, a2, a3, b1, b2, b3]
          exact ⟨rfl, rfl, rfl⟩
        · rw [s0, s1] at e1; cases e1
      · rcases hP' with ⟨s1, _⟩ | ⟨v', s1, b1, b2, b3⟩
        · rw [s0, s1] at e1; cases e1
        · rw [a1, a2, a3, b1, b2, b3, e3]
          exact ⟨rfl, rfl, rfl⟩

/-- C27: in basic mode a held candidate is replaced during the pass only by a later
candidate that strictly beats it (a higher `oom_adj`, or the same `oom_adj` and a
strictly larger `tasksize`); every other process leaves the local variables as they
are.  Consequently the process the loop ends with is the first in the list to have
the maximal pair: every candidate before it is strictly below that pair and no
candidate after it is above.  The pair, whether anything is selected, the value
returned and the deadline do not depend on the order of the process list; the task
chosen among exact ties does: with candidates 1 and 2 both at (5, 100), task 1 is
killed when it comes first and task 2 when it comes first. -/
theorem basic_first_maximal_wins (K : Kernel) (P : Params) (st : State) (c : Call)
    (tasks' : List task_struct) (hperm : tasks'.Perm c.tasks) :
    (∀ (m : Int) (s : Selection) (p : task_struct), s.selected.isSome = true →
      (scan_body P m s p = s ∧
        ∀ a z, candidate m p = some (a, z) →
          ¬ lex_lt (s.selected_oom_adj, s.selected_tasksize) (a, z)) ∨
      (∃ a z, candidate m p = some (a, z) ∧
        lex_lt (s.selected_oom_adj, s.selected_tasksize) (a, z) ∧
        (scan_body P m s p).selected = some p ∧
        (scan_body P m s p).selected_oom_adj = a ∧
        (scan_body P m s p).selected_tasksize = z)) ∧
    (∀ (m : Int) (log : List LogMsg) (v : task_struct),
      (scan P m log c.tasks).selected = some v →
      ∃ pre post, c.tasks = pre ++ v :: post ∧
        candidate m v = some ((scan P m log c.tasks).selected_oom_adj,
          (scan P m log c.tasks).selected_tasksize) ∧
        (∀ q ∈ pre, ∀ a z, candidate m q = some (a, z) →
          lex_lt (a, z) ((scan P m log c.tasks).selected_oom_adj,
            (scan P m log c.tasks).selected_tasksize)) ∧
        (∀ q ∈ post, ∀ a z, candidate m q = some (a, z) →
          ¬ lex_lt ((scan P m log c.tasks).selected_oom_adj,
            (scan P m log c.tasks).selected_tasksize) (a, z))) ∧
    (∀ (m : Int) (log : List LogMsg),
      (scan P m log tasks').selected.isSome = (scan P m log c.tasks).selected.isSome ∧
      (scan P m log tasks').selected_oom_adj = (scan P m log c.tasks).selected_oom_adj ∧
      (scan P m log tasks').selected_tasksize = (scan P m log c.tasks).selected_tasksize) ∧
    ((lowmem_shrink K P st { c with tasks := tasks' }).ret = (lowmem_shrink K P st c).ret ∧
      (lowmem_shrink K P st { c with tasks := tasks' }).force_sig.length =
        (lowmem_shrink K P st c).force_sig.length ∧
      (lowmem_shrink K P st { c with tasks := tasks' }).state.lowmem_deathpending_timeout =
        (lowmem_shrink K P st c).state.lowmem_deathpending_timeout) ∧
    ((lowmem_shrink linux (default_params linux) state_idle call_exact_tie).force_sig = [1] ∧
      (lowmem_shrink linux (default_params linux) state_idle
        call_exact_tie_swapped).force_sig = [2] ∧
      call_exact_tie_swapped.tasks.Perm call_exact_tie.tasks) :=
  ⟨fun m s p h => scan_body_replaces_strictly P m s p h,
    fun m log v h => scan_first_maximal P m log c.tasks v h,
    fun m log => scan_perm_pair P m log log c.tasks tasks' hperm,
    lowmem_shrink_perm K P st c tasks' hperm,
    by decide, by decide, List.Perm.swap _ _ _⟩

/-- C27, witness: the two orders of the process list with candidates 1 and 2 both at
(5, 100) give the same value returned, 0, the same deadline and one kill each. -/
theorem basic_first_maximal_wins_witness :
    call_exact_tie_swapped.tasks.Perm call_exact_tie.tasks ∧
    ((lowmem_shrink linux (default_params linux) state_idle
        { call_exact_tie with tasks := call_exact_tie_swapped.tasks }).ret =
        (lowmem_shrink linux (default_params linux) state_idle call_exact_tie).ret ∧
      (lowmem_shrink linux (default_params linux) state_idle
        { call_exact_tie with tasks := call_exact_tie_swapped.tasks }).force_sig.length =
        (lowmem_shrink linux (default_params linux) state_idle call_exact_tie).force_sig.length ∧
      (lowmem_shrink linux (default_params linux) state_idle
        { call_exact_tie with
          tasks := call_exact_tie_swapped.tasks }).state.lowmem_deathpending_timeout =
        (lowmem_shrink linux (default_params linux) state_idle
          call_exact_tie).state.lowmem_deathpending_timeout) ∧
    (lowmem_shrink linux (default_params linux) state_idle call_exact_tie).ret = 0 ∧
    (lowmem_shrink linux (default_params linux) state_idle call_exact_tie).force_sig = [1] :=
  ⟨List.Perm.swap _ _ _,
    (basic_first_maximal_wins linux (default_params linux) state_idle call_exact_tie
      call_exact_tie_swapped.tasks (List.Perm.swap _ _ _)).2.2.2.1,
    by decide, by decide⟩

/-! ## The basic victim among the slots of the enhanced build -/

theorem weakest_lt_three (adj size : List Int) (idx : Nat) (h : idx < 3) :
    weakest adj size idx < 3 := by
  rw [weakest_eq]
  rcases (weakest_foldl_min adj size [0, 1, 2] idx).1 with h1 | h1
  · rw [h1]; exact h
  · simp only [List.mem_cons, List.mem_singleton, List.not_mem_nil, or_false] at h1
    omega

/-- One iteration of the enhanced loop on a candidate: either one slot, an empty one
or one recorded strictly below the candidate, is written with the candidate, or all
slots are occupied, the slot `max_selected_oom_idx` points at is not below the
candidate, and the arrays stay as they are. -/
theorem scan_body_enhanced_write (P : Params) (m : Int) (s : ESelection) (p : task_struct)
    (a z : Int) (hs : slots_shape s) (hc : candidate m p = some (a, z)) :
    slots_shape (scan_body_enhanced P m s p) ∧
    ((∃ i, i < 3 ∧ (s.selected.getD i none = none ∨ lex_lt (slot_pair s i) (a, z)) ∧
        (scan_body_enhanced P m s p).selected = s.selected.set i (some p) ∧
        (scan_body_enhanced P m s p).selected_oom_adj = s.selected_oom_adj.set i a ∧
        (scan_body_enhanced P m s p).selected_tasksize = s.selected_tasksize.set i z) ∨
      (s.all_selected_oom = 3 ∧
        ¬ lex_lt (slot_pair s s.max_selected_oom_idx) (a, z) ∧
        (scan_body_enhanced P m s p).selected = s.selected ∧
        (scan_body_enhanced P m s p).selected_oom_adj = s.selected_oom_adj ∧
        (scan_body_enhanced P m s p).selected_tasksize = s.selected_tasksize)) := by
  obtain ⟨hla, hlz, hshape⟩ := hs
  obtain ⟨x0, x1, x2, hadj⟩ := List.length_eq_three.1 hla
  obtain ⟨y0, y1, y2, hsize⟩ := List.length_eq_three.1 hlz
  rcases hshape with ⟨hall, hsel⟩ | ⟨hall, p0, hsel⟩ | ⟨hall, p0, p1, hsel⟩ |
    ⟨hall, hidx, p0, p1, p2, hsel⟩
  · obtain ⟨e1, e2, e3, e4⟩ :=
      scan_body_enhanced_fill0 P m s p a z x0 x1 x2 y0 y1 y2 hc hall hsel hadj hsize
    refine ⟨⟨by rw [e3]; rfl, by rw [e4]; rfl, Or.inr (Or.inl ⟨e1, p, e2⟩)⟩,
      Or.inl ⟨0, by decide, Or.inl (by rw [hsel]; rfl), ?_, ?_, ?_⟩⟩
    · rw [e2, hsel]; rfl
    · rw [e3, hadj]; rfl
    · rw [e4, hsize]; rfl
  · obtain ⟨e1, e2, e3, e4⟩ :=
      scan_body_enhanced_fill1 P m s p p0 a z x0 x1 x2 y0 y1 y2 hc hall hsel hadj hsize
    refine ⟨⟨by rw [e3]; rfl, by rw [e4]; rfl, Or.inr (Or.inr (Or.inl ⟨e1, p0, p, e2⟩))⟩,
      Or.inl ⟨1, by decide, Or.inl (by rw [hsel]; rfl), ?_, ?_, ?_⟩⟩
    · rw [e2, hsel]; rfl
    · rw [e3, hadj]; rfl
    · rw [e4, hsize]; rfl
  · obtain ⟨e1, e2, e3, e4, e5⟩ :=
      scan_body_enhanced_fill2 P m s p p0 p1 a z x0 x1 x2 y0 y1 y2 hc hall hsel hadj hsize
    have hidx : (scan_body_enhanced P m s p).max_selected_oom_idx < 3 := by
      rw [e5, ← weakest_eq]
      exact weakest_lt_three _ _ 2 (by decide)
    refine ⟨⟨by rw [e3]; rfl, by rw [e4]; rfl,
        Or.inr (Or.inr (Or.inr ⟨e1, hidx, p0, p1, p, e2⟩))⟩,
      Or.inl ⟨2, by decide, Or.inl (by rw [hsel]; rfl), ?_, ?_, ?_⟩⟩
    · rw [e2, hsel]; rfl
    · rw [e3, hadj]; rfl
    · rw [e4, hsize]; rfl
  · have hf := find_slot_full s a z hall
    by_cases hlt : lex_lt (slot_pair s s.max_selected_oom_idx) (a, z)
    · have hnew : scan_body_enhanced P m s p =
          { selected := s.selected.set s.max_selected_oom_idx (some p)
            selected_tasksize := s.selected_tasksize.set s.max_selected_oom_idx z
            selected_oom_adj := s.selected_oom_adj.set s.max_selected_oom_idx a
            all_selected_oom := 3
            max_selected_oom_idx :=
              weakest (s.selected_oom_adj.set s.max_selected_oom_idx a)
                (s.selected_tasksize.set s.max_selected_oom_idx z) s.max_selected_oom_idx
            log := lowmem_print P 2 (.select p.pid p.comm a z) s.log } := by
        unfold scan_body_enhanced
        rw [hc]
        simp only [hf, decide_eq_true hlt, hall]
        simp [LOWMEM_DEATHPENDING_DEPTH]
      rw [hnew]
      refine ⟨⟨by simp [hla], by simp [hlz], Or.inr (Or.inr (Or.inr
        ⟨rfl, weakest_lt_three _ _ _ hidx, ?_⟩))⟩,
        Or.inl ⟨s.max_selected_oom_idx, hidx, Or.inr hlt, rfl, rfl, rfl⟩⟩
      rw [hsel]
      dsimp only
      interval_cases s.max_selected_oom_idx
      · exact ⟨p, p1, p2, rfl⟩
      · exact ⟨p0, p, p2, rfl⟩
      · exact ⟨p0, p1, p, rfl⟩
    · have hnew : scan_body_enhanced P m s p = s := by
        unfold scan_body_enhanced
        rw [hc]
        simp only [hf, decide_eq_false hlt]
        simp
      rw [hnew]
      exact ⟨⟨hla, hlz, Or.inr (Or.inr (Or.inr ⟨hall, hidx, p0, p1, p2, hsel⟩))⟩,
        Or.inr ⟨hall, hlt, rfl, rfl, rfl⟩⟩

theorem getD_set_self_three {α : Type} (l : List α) (i : Nat) (x d : α)
    (hl : l.length = 3) (hi : i < 3) : (l.set i x).getD i d = x := by
  obtain ⟨a, b, c, rfl⟩ := List.length_eq_three.1 hl
  interval_cases i <;> rfl

theorem getD_set_other_three {α : Type} (l : List α) (i j : Nat) (x d : α)
    (hl : l.length = 3) (hi : i < 3) (hj : j < 3) (hne : i ≠ j) :
    (l.set i x).getD j d = l.getD j d := by
  obtain ⟨a, b, c, rfl⟩ := List.length_eq_three.1 hl
  interval_cases i <;> interval_cases j <;> first | rfl | exact absurd rfl hne

theorem slots_shape_length (s : ESelection) (hs : slots_shape s) : s.selected.length = 3 := by
  obtain ⟨_, _, hshape⟩ := hs
  rcases hshape with ⟨_, hsel⟩ | ⟨_, p0, hsel⟩ | ⟨_, p0, p1, hsel⟩ | ⟨_, _, p0, p1, p2, hsel⟩ <;>
    rw [hsel] <;> rfl

/-- With all slots occupied every slot holds a process. -/
theorem slots_shape_full (s : ESelection) (hs : slots_shape s) (hall : s.all_selected_oom = 3)
    (i : Nat) (hi : i < 3) :
    s.max_selected_oom_idx < 3 ∧ (s.selected.getD i none).isSome = true := by
  obtain ⟨_, _, hshape⟩ := hs
  rcases hshape with ⟨h, _⟩ | ⟨h, _⟩ | ⟨h, _⟩ | ⟨_, hidx, p0, p1, p2, hsel⟩
  · omega
  · omega
  · omega
  · refine ⟨hidx, ?_⟩
    rw [hsel]
    interval_cases i <;> rfl

/-- While every candidate is strictly below `x`, every occupied slot is recorded
strictly below `x`. -/
theorem scan_body_enhanced_below (P : Params) (m : Int) (s : ESelection) (p : task_struct)
    (x : Int × Int) (hs : slots_shape s) (hb : slots_below s x)
    (hp : ∀ a z, candidate m p = some (a, z) → lex_lt (a, z) x) :
    slots_shape (scan_body_enhanced P m s p) ∧ slots_below (scan_body_enhanced P m s p) x := by
  cases hc : candidate m p with
  | none =>
    have hnew : scan_body_enhanced P m s p = s := by
      unfold scan_body_enhanced; rw [hc]
    rw [hnew]
    exact ⟨hs, hb⟩
  | some az =>
    obtain ⟨a, z⟩ := az
    obtain ⟨hs', hw⟩ := scan_body_enhanced_write P m s p a z hs hc
    refine ⟨hs', ?_⟩
    rcases hw with ⟨i, hi, _, e1, e2, e3⟩ | ⟨_, _, e1, e2, e3⟩
    · intro k hk hsome
      by_cases hik : i = k
      · rw [← hik]
        unfold slot_pair
        rw [e2, e3, getD_set_self_three _ i a 0 hs.1 hi,
          getD_set_self_three _ i z 0 hs.2.1 hi]
        exact hp a z hc
      · rw [e1, getD_set_other_three _ i k _ _ (slots_shape_length s hs) hi hk hik] at hsome
        have := hb k hk hsome
        unfold slot_pair at this ⊢
        rw [e2, e3, getD_set_other_three _ i k _ _ hs.1 hi hk hik,
          getD_set_other_three _ i k _ _ hs.2.1 hi hk hik]
        exact this
    · intro k hk hsome
      rw [e1] at hsome
      have := hb k hk hsome
      unfold slot_pair at this ⊢
      rw [e2, e3]
      exact this

theorem scan_enhanced_foldl_below (P : Params) (m : Int) (x : Int × Int)
    (l : List task_struct) :
    ∀ s : ESelection, slots_shape s → slots_below s x →
      (∀ q ∈ l, ∀ a z, candidate m q = some (a, z) → lex_lt (a, z) x) →
      slots_shape (l.foldl (scan_body_enhanced P m) s) ∧
        slots_below (l.foldl (scan_body_enhanced P m) s) x := by
  induction l with
  | nil => intro s hs hb _; exact ⟨hs, hb⟩
  | cons p l ih =>
    intro s hs hb hl
    obtain ⟨hs', hb'⟩ := scan_body_enhanced_below P m s p x hs hb
      (hl p (List.mem_cons_self _ _))
    exact ih _ hs' hb' fun q hq => hl q (List.mem_cons_of_mem _ hq)

/-- A candidate that is strictly above every occupied slot is written to a slot. -/
theorem scan_body_enhanced_insert (P : Params) (m : Int) (s : ESelection) (v : task_struct)
    (a z : Int) (hs : slots_shape s) (hb : slots_below s (a, z))
    (hc : candidate m v = some (a, z)) :
    slots_shape (scan_body_enhanced P m s v) ∧
      slot_holds (scan_body_enhanced P m s v) v (a, z) := by
  obtain ⟨hs', hw⟩ := scan_body_enhanced_write P m s v a z hs hc
  refine ⟨hs', ?_⟩
  rcases hw with ⟨i, hi, _, e1, e2, e3⟩ | ⟨hall, hnot, _⟩
  · refine ⟨i, hi, ?_, ?_⟩
    · rw [e1, getD_set_self_three _ i _ _ (slots_shape_length s hs) hi]
    · unfold slot_pair
      rw [e2, e3, getD_set_self_three _ i a 0 hs.1 hi, getD_set_self_three _ i z 0 hs.2.1 hi]
  · obtain ⟨hidx, hsome⟩ := slots_shape_full s hs hall s.max_selected_oom_idx
      (slots_shape_full s hs hall 0 (by decide)).1
    exact absurd (hb _ hidx hsome) hnot

/-- A process held with a pair that the candidate is not above stays in its slot. -/
theorem scan_body_enhanced_keeps (P : Params) (m : Int) (s : ESelection)
    (q v : task_struct) (x : Int × Int) (hs : slots_shape s) (hh : slot_holds s v x)
    (hq : ∀ a z, candidate m q = some (a, z) → ¬ lex_lt x (a, z)) :
    slots_shape (scan_body_enhanced P m s q) ∧ slot_holds (scan_body_enhanced P m s q) v x := by
  cases hc : candidate m q with
  | none =>
    have hnew : scan_body_enhanced P m s q = s := by
      unfold scan_body_enhanced; rw [hc]
    rw [hnew]
    exact ⟨hs, hh⟩
  | some az =>
    obtain ⟨a, z⟩ := az
    obtain ⟨hs', hw⟩ := scan_body_enhanced_write P m s q a z hs hc
    refine ⟨hs', ?_⟩
    obtain ⟨j, hj, hv, hpair⟩ := hh
    rcases hw with ⟨i, hi, hwhy, e1, e2, e3⟩ | ⟨_, _, e1, e2, e3⟩
    · have hij : i ≠ j := by
        intro hij
        rw [hij] at hwhy
        rcases hwhy with h | h
        · rw [hv] at h; cases h
        · rw [hpair] at h
          exact hq a z hc h
      refine ⟨j, hj, ?_, ?_⟩
      · rw [e1, getD_set_other_three _ i j _ _ (slots_shape_length s hs) hi hj hij]
        exact hv
      · unfold slot_pair at hpair ⊢
        rw [e2, e3, getD_set_other_three _ i j _ _ hs.1 hi hj hij,
          getD_set_other_three _ i j _ _ hs.2.1 hi hj hij]
        exact hpair
    · refine ⟨j, hj, by rw [e1]; exact hv, ?_⟩
      unfold slot_pair at hpair ⊢
      rw [e2, e3]
      exact hpair

theorem scan_enhanced_foldl_keeps (P : Params) (m : Int) (v : task_struct) (x : Int × Int)
    (l : List task_struct) :
    ∀ s : ESelection, slots_shape s → slot_holds s v x →
      (∀ q ∈ l, ∀ a z, candidate m q = some (a, z) → ¬ lex_lt x (a, z)) →
      slots_shape (l.foldl (scan_body_enhanced P m) s) ∧
        slot_holds (l.foldl (scan_body_enhanced P m) s) v x := by
  induction l with
  | nil => intro s hs hh _; exact ⟨hs, hh⟩
  | cons p l ih =>
    intro s hs hh hl
    obtain ⟨hs', hh'⟩ := scan_body_enhanced_keeps P m s p v x hs hh
      (hl p (List.mem_cons_self _ _))
    exact ih _ hs' hh' fun q hq => hl q (List.mem_cons_of_mem _ hq)

/-- The process the basic loop ends with is held, with its pair, in a slot of the
enhanced loop run over the same list with the same threshold. -/
theorem scan_enhanced_holds_basic (P : Params) (m : Int) (log log' : List LogMsg)
    (tasks : List task_struct) (v : task_struct)
    (h : (scan P m log tasks).selected = some v) :
    slot_holds (scan_enhanced P m log' tasks) v
      ((scan P m log tasks).selected_oom_adj, (scan P m log tasks).selected_tasksize) := by
  obtain ⟨pre, post, htasks, hc, hpre, hpost⟩ := scan_first_maximal P m log tasks v h
  generalize (scan P m log tasks).selected_oom_adj = a at hc hpre hpost ⊢
  generalize (scan P m log tasks).selected_tasksize = z at hc hpre hpost ⊢
  have hinit : slots_shape
      { selected := [none, none, none], selected_tasksize := [0, 0, 0]
        selected_oom_adj := [m, m, m], all_selected_oom := 0, max_selected_oom_idx := 0
        log := log' } := ⟨rfl, rfl, Or.inl ⟨rfl, rfl⟩⟩
  have hbelow : slots_below
      { selected := [none, none, none], selected_tasksize := [0, 0, 0]
        selected_oom_adj := [m, m, m], all_selected_oom := 0, max_selected_oom_idx := 0
        log := log' } (a, z) := by
    intro i hi hsome
    interval_cases i <;> cases hsome
  obtain ⟨hs1, hb1⟩ := scan_enhanced_foldl_below P m (a, z) pre _ hinit hbelow hpre
  obtain ⟨hs2, hh2⟩ := scan_body_enhanced_insert P m _ v a z hs1 hb1 hc
  obtain ⟨_, hh3⟩ := scan_enhanced_foldl_keeps P m v (a, z) post _ hs2 hh2 hpost
  unfold scan_enhanced
  rw [htasks, List.foldl_append, List.foldl_cons]
  exact hh3

theorem kill_body_enhanced_force_sig_mono (K : Kernel) (P : Params) (jiffies : Nat)
    (s : ESelection) (k : EKill) (i t : Nat) (h : t ∈ k.force_sig) :
    t ∈ (kill_body_enhanced K P jiffies s k i).force_sig := by
  unfold kill_body_enhanced
  cases s.selected.getD i none with
  | none => exact h
  | some p => exact List.mem_append_left _ h

/-- The loop over the slots forces `SIGKILL` on the process of every slot it
passes. -/
theorem kill_enhanced_foldl_kills (K : Kernel) (P : Params) (jiffies : Nat)
    (s : ESelection) (l : List Nat) :
    ∀ (k : EKill) (t : Nat),
      (t ∈ k.force_sig ∨ ∃ i ∈ l, ∃ p, s.selected.getD i none = some p ∧ p.task = t) →
      t ∈ (l.foldl (kill_body_enhanced K P jiffies s) k).force_sig := by
  induction l with
  | nil =>
    intro k t h
    rcases h with h | ⟨i, hi, _⟩
    · exact h
    · cases hi
  | cons i0 l ih =>
    intro k t h
    rw [List.foldl_cons]
    apply ih
    rcases h with h | ⟨i, hi, p, hp, ht⟩
    · exact Or.inl (kill_body_enhanced_force_sig_mono K P jiffies s k i0 t h)
    · rcases List.mem_cons.1 hi with rfl | hi
      · left
        unfold kill_body_enhanced
        rw [hp]
        exact List.mem_append_right _ (by rw [ht]; exact List.mem_singleton_self _)
      · exact Or.inr ⟨i, hi, p, hp, ht⟩

/-- C30: the victim of basic mode is held by enhanced mode.  For every process
list, threshold and counters: the process the basic loop ends with, the first
candidate in the list with the maximal pair, is held in one of the three slots the
enhanced loop ends with on the same list and threshold, recorded with the same pair;
and every task a call of the basic `lowmem_shrink` forces `SIGKILL` on is among the
tasks the enhanced `lowmem_shrink` forces it on for the same call, when that one is
not debounce-blocked. -/
theorem enhanced_slots_hold_basic_victim (K : Kernel) (P : Params) (st : State)
    (est : EState) (c : Call)
    (hblock : death_outstanding_enhanced K est c.jiffies = false) :
    (∀ (m : Int) (log log' : List LogMsg) (v : task_struct),
      (scan P m log c.tasks).selected = some v →
      ∃ j, j < 3 ∧ (scan_enhanced P m log' c.tasks).selected.getD j none = some v ∧
        slot_pair (scan_enhanced P m log' c.tasks) j =
          ((scan P m log c.tasks).selected_oom_adj,
            (scan P m log c.tasks).selected_tasksize)) ∧
    (∀ t ∈ (lowmem_shrink K P st c).force_sig,
      t ∈ (lowmem_shrink_enhanced K P est c).force_sig) := by
  refine ⟨fun m log log' v h => scan_enhanced_holds_basic P m log log' c.tasks v h, ?_⟩
  intro t ht
  by_cases hb : death_outstanding K st c.jiffies = true
  · rw [lowmem_shrink_blocked K P st c hb] at ht; cases ht
  · have hb' : death_outstanding K st c.jiffies = false := by simpa using hb
    by_cases he : c.nr_to_scan = 0 ∨
        lowmem_min_adj K P (other_free c.vm) (other_file c.vm) = K.OOM_ADJUST_MAX + 1
    · rw [(lowmem_shrink_early K P st c hb' he).2.2.1] at ht; cases ht
    · rw [not_or] at he
      have hscan : 0 < c.nr_to_scan := by omega
      obtain ⟨log, hP⟩ := lowmem_shrink_scan_cases K P st c hb' hscan he.2
      obtain ⟨log', hE⟩ := lowmem_shrink_enhanced_scan_cases K P est c hblock hscan he.2
      rcases hP with ⟨_, hf, _⟩ | ⟨v, hsel, hf, _⟩
      · rw [hf] at ht; cases ht
      · rw [hf] at ht
        obtain ⟨j, hj, hv, _⟩ := scan_enhanced_holds_basic P
          (lowmem_min_adj K P (other_free c.vm) (other_file c.vm)) log log' c.tasks v hsel
        rw [hE]
        apply kill_enhanced_foldl_kills
        refine Or.inr ⟨j, ?_, v, hv, (List.mem_singleton.1 ht).symm⟩
        rw [range_depth]
        interval_cases j <;> simp

/-- C30, witness: over candidates (3, 10), (5, 10), (5, 20), (9, 1) basic mode kills
task 4, the candidate (9, 1); enhanced mode kills tasks 4, 2 and 3, task 4 held in
slot 0. -/
theorem enhanced_slots_hold_basic_victim_witness :
    death_outstanding_enhanced linux EState.init call_four.jiffies = false ∧
    (∀ t ∈ (lowmem_shrink linux (default_params linux) state_idle call_four).force_sig,
      t ∈ (lowmem_shrink_enhanced linux (default_params linux) EState.init
        call_four).force_sig) ∧
    (lowmem_shrink linux (default_params linux) state_idle call_four).force_sig = [4] ∧
    (lowmem_shrink_enhanced linux (default_params linux) EState.init call_four).force_sig
      = [4, 2, 3] :=
  ⟨by decide,
    (enhanced_slots_hold_basic_victim linux (default_params linux) state_idle EState.init
      call_four (by decide)).2,
    by decide, by decide⟩

/-! ## Claim about what rtcc_trigger_store returns and keeps -/

/-- The two ways a call of `rtcc_trigger_store` ends: rejected, with the static
variables as they were, or accepted, with `need_to_reclaim` set by
`need_soft_reclaim`; the value returned is `count` converted to `ssize_t` in both. -/
theorem rtcc_trigger_store_cases (sscanf : String → List Int) (st : State)
    (val0 magic_sign0 : Int) (buf : String) (count : Nat) :
    (rtcc_trigger_store sscanf st val0 magic_sign0 buf count).ret = to_int count ∧
    (((rtcc_trigger_store sscanf st val0 magic_sign0 buf count).pr_warning = true ∧
        (rtcc_trigger_store sscanf st val0 magic_sign0 buf count).state = st) ∨
      ((rtcc_trigger_store sscanf st val0 magic_sign0 buf count).pr_warning = false ∧
        (rtcc_trigger_store sscanf st val0 magic_sign0 buf count).state =
          need_soft_reclaim st)) := by
  unfold rtcc_trigger_store
  dsimp only
  split_ifs
  · exact ⟨rfl, Or.inl ⟨rfl, rfl⟩⟩
  · exact ⟨rfl, Or.inr ⟨rfl, rfl⟩⟩

/-- C31: `rtcc_trigger_store` returns `count` for every input, accepted or rejected
(`count` converted to the return type `ssize_t`, the same number below 2^31), and
never clears `need_to_reclaim`: for every input and all static variables before the
call, `need_to_reclaim` is 1 after the call if it was 1 before; it is either as it was
(rejected, "Invalid command." printed) or 1 (accepted), and no other static variable
changes. -/
theorem rtcc_trigger_store_returns_count (sscanf : String → List Int) (st : State)
    (val0 magic_sign0 : Int) (buf : String) (count : Nat) :
    (rtcc_trigger_store sscanf st val0 magic_sign0 buf count).ret = to_int count ∧
    (count < 2147483648 →
      (rtcc_trigger_store sscanf st val0 magic_sign0 buf count).ret = count) ∧
    (st.s_reclaim.need_to_reclaim = 1 →
      (rtcc_trigger_store sscanf st val0 magic_sign0 buf count).state.s_reclaim.need_to_reclaim
        = 1) ∧
    (((rtcc_trigger_store sscanf st val0 magic_sign0 buf count).pr_warning = true ∧
        (rtcc_trigger_store sscanf st val0 magic_sign0 buf count).state = st) ∨
      ((rtcc_trigger_store sscanf st val0 magic_sign0 buf count).pr_warning = false ∧
        (rtcc_trigger_store sscanf st val0 magic_sign0 buf count).state =
          { st with s_reclaim := { st.s_reclaim with need_to_reclaim := 1 } })) := by
  obtain ⟨hret, hstate⟩ := rtcc_trigger_store_cases sscanf st val0 magic_sign0 buf count
  refine ⟨hret, fun hc => ?_, fun h1 => ?_, hstate⟩
  · rw [hret]
    exact to_int_of_range _ (by omega) (by omega)
  · rcases hstate with ⟨_, hs⟩ | ⟨_, hs⟩
    · rw [hs]; exact h1
    · rw [hs]; rfl

/-- C31, witness: with a reclaim already requested, the rejected write "4,16" and the
accepted write "4,15", both of 4 bytes, return 4 and leave `need_to_reclaim` at 1; so
does a write that `sscanf` converts nothing of. -/
theorem rtcc_trigger_store_returns_count_witness :
    (rtcc_trigger_store sscanf_ld_ld state_requested 0 0 "4,16" 4).ret = 4 ∧
    (rtcc_trigger_store sscanf_ld_ld state_requested 0 0 "4,16" 4).state.s_reclaim.need_to_reclaim
      = 1 ∧
    (rtcc_trigger_store sscanf_ld_ld state_requested 0 0 "4,15" 4).ret = 4 ∧
    (rtcc_trigger_store sscanf_ld_ld state_requested 0 0 "4,15" 4).state.s_reclaim.need_to_reclaim
      = 1 ∧
    (rtcc_trigger_store sscanf_ld_ld state_requested 0 0 "4,16" 4).pr_warning = true ∧
    (rtcc_trigger_store sscanf_ld_ld state_requested 0 0 "4,15" 4).pr_warning = false ∧
    (rtcc_trigger_store sscanf_ld_ld state_requested 7 7 "stop" 4).state.s_reclaim.need_to_reclaim
      = 1 :=
  ⟨(rtcc_trigger_store_returns_count sscanf_ld_ld state_requested 0 0 "4,16" 4).2.1
      (by decide),
    (rtcc_trigger_store_returns_count sscanf_ld_ld state_requested 0 0 "4,16" 4).2.2.1
      (by decide),
    (rtcc_trigger_store_returns_count sscanf_ld_ld state_requested 0 0 "4,15" 4).2.1
      (by decide),
    (rtcc_trigger_store_returns_count sscanf_ld_ld state_requested 0 0 "4,15" 4).2.2.1
      (by decide),
    by decide, by decide,
    (rtcc_trigger_store_returns_count sscanf_ld_ld state_requested 7 7 "stop" 4).2.2.1
      (by decide)⟩

end LowMemoryKiller
